import Mathlib

/-!
# aylp_tl_piezo: a shallow embedding of the piezo channel writer

The plugin has three entry points, `aylp_tl_piezo_init`, `aylp_tl_piezo_process`
and `aylp_tl_piezo_close` (src/aylp_tl_piezo.c).  They are embedded as pure
functions over an explicit `World`, which records every library call made
(libserialport, xalloc) in order, every log call, and supplies the return values
of the library calls that have not happened yet.

Conventions of the embedding
* C `double` values are `F64`: sign, magnitude `m * 2 ^ e`, infinities and NaNs.
  Every finite double has this shape; comparisons and the `%.2f` conversion are
  computed exactly on it.
* C strings are `List Char`.
* `int mask[3]` and `int map[3]` are `int3`, indexed by the constants of the
  `AXIS_*` enum.
* Pointers that the code dereferences without a check (`self`, `self->device_data`,
  `state`, `state->vector`) are carried by value.  `data->port`, which the code
  compares with `NULL`, is an `Option`.
-/

namespace AylpTlPiezo

/-! # Definitions -/

/-! ## Constants of aylp_tl_piezo.h -/

def LEN_CMD_BUF : Nat := 64
def V_MAX : Nat := 150
def AXIS_X : Nat := 0
def AXIS_Y : Nat := 1
def AXIS_Z : Nat := 2
def AXIS_COUNT : Nat := 3

/-- Return code `SP_OK` of libserialport. -/
def SP_OK : Int := 0

/-! ## Doubles -/

/-- An IEEE double: `finite neg m e` is `(-1)^neg * m * 2^e`. -/
inductive F64 where
  | finite (neg : Bool) (m : Nat) (e : Int)
  | inf (neg : Bool)
  | nan (neg : Bool)
deriving DecidableEq, Repr

namespace F64

/-- Conversion of a small non-negative C `int` constant to `double`. -/
def ofNat (n : Nat) : F64 := .finite false n 0

/-- The finite value `(-1)^neg * m * 2^e`, as an integer multiple of `2^k` (`k ≤ e`). -/
def scaled (neg : Bool) (m : Nat) (e k : Int) : Int :=
  if neg then -((m * 2 ^ (e - k).toNat : Nat) : Int) else ((m * 2 ^ (e - k).toNat : Nat) : Int)

/-- The C comparison `a <= b` on doubles (false whenever a NaN is involved). -/
def le : F64 → F64 → Bool
  | .nan _, _ => false
  | _, .nan _ => false
  | .inf true, _ => true
  | _, .inf false => true
  | .inf false, _ => false
  | _, .inf true => false
  | .finite n1 m1 e1, .finite n2 m2 e2 =>
      decide (scaled n1 m1 e1 (min e1 e2) ≤ scaled n2 m2 e2 (min e1 e2))

/-- The exact value `(-1)^neg * m * 2^e` of a finite double. -/
def value (neg : Bool) (m : Nat) (e : Int) : ℚ :=
  (if neg then -1 else 1) * (m : ℚ) * (2 : ℚ) ^ e

end F64

/-! ## printf-style conversions -/

/-- Magnitude `m * 2^e` times 100, rounded to the nearest integer, ties to even
(the rounding of `%.2f` on the exact binary value). -/
def round_hundredths (m : Nat) (e : Int) : Nat :=
  if 0 ≤ e then m * 2 ^ e.toNat * 100
  else
    let d := 2 ^ (-e).toNat
    let q := m * 100 / d
    let r := m * 100 % d
    if d < 2 * r then q + 1
    else if 2 * r = d then (if q % 2 = 0 then q else q + 1)
    else q

/-- The sign printed by `%f`: a minus for a set sign bit, nothing otherwise. -/
def fmt_sign (neg : Bool) : List Char := if neg then ['-'] else []

/-- Conversion `%.2f` of a double. -/
def fmt_2f : F64 → List Char
  | .nan neg => fmt_sign neg ++ "nan".toList
  | .inf neg => fmt_sign neg ++ "inf".toList
  | .finite neg m e =>
      fmt_sign neg ++ Nat.toDigits 10 (round_hundredths m e / 100) ++ ['.'] ++
        [Nat.digitChar (round_hundredths m e % 100 / 10), Nat.digitChar (round_hundredths m e % 10)]

/-- Conversion `%d` of an `int`. -/
def fmt_d (i : Int) : List Char := (toString i).toList

/-- What `snprintf(buf, size, ...)` leaves in `buf` when the full expansion is `text`:
at most `size - 1` characters (then the terminator). -/
def snprintf (size : Nat) (text : List Char) : List Char := text.take (size - 1)

/-- C `strlen` of a buffer holding `buf` (no embedded terminator). -/
def strlen (buf : List Char) : Nat := buf.length

/-! ## Library calls and the world -/

/-- A `struct sp_port *` obtained from `sp_get_port_by_name`. -/
structure sp_port where
  name : List Char
deriving DecidableEq, Repr

inductive sp_mode where
  | SP_MODE_READ | SP_MODE_WRITE | SP_MODE_READ_WRITE
deriving DecidableEq, Repr

inductive sp_parity where
  | SP_PARITY_NONE | SP_PARITY_ODD | SP_PARITY_EVEN
deriving DecidableEq, Repr

inductive sp_flowcontrol where
  | SP_FLOWCONTROL_NONE | SP_FLOWCONTROL_XONXOFF | SP_FLOWCONTROL_RTSCTS | SP_FLOWCONTROL_DTRDSR
deriving DecidableEq, Repr

inductive sp_buffer where
  | SP_BUF_INPUT | SP_BUF_OUTPUT | SP_BUF_BOTH
deriving DecidableEq, Repr

/-- One call into libserialport or xalloc, with its arguments. -/
inductive Call where
  | xcalloc
  | xfree
  | sp_get_port_by_name (portname : List Char)
  | sp_open (port : Option sp_port) (flags : sp_mode)
  | sp_set_baudrate (port : Option sp_port) (baudrate : Nat)
  | sp_set_bits (port : Option sp_port) (bits : Nat)
  | sp_set_parity (port : Option sp_port) (parity : sp_parity)
  | sp_set_stopbits (port : Option sp_port) (stopbits : Nat)
  | sp_set_flowcontrol (port : Option sp_port) (flowcontrol : sp_flowcontrol)
  | sp_flush (port : Option sp_port) (buffers : sp_buffer)
  | sp_blocking_write (port : Option sp_port) (buf : List Char) (count : Nat) (timeout_ms : Nat)
  | sp_drain (port : Option sp_port)
  | sp_close (port : Option sp_port)
  | sp_free_port (port : Option sp_port)
deriving DecidableEq, Repr

inductive LogLevel where
  | trace | info | warn | error
deriving DecidableEq, Repr

/-- The environment of the plugin: `rets i` is the value the `i`-th upcoming
value-returning library call will return, `trace` the calls made so far (oldest
first), `log` the log calls made so far (oldest first). -/
structure World where
  rets : Nat → Int
  trace : List Call
  log : List (LogLevel × List Char)

namespace World

/-- A library call whose return value the environment decides. -/
def call (w : World) (c : Call) : Int × World :=
  (w.rets 0, { w with rets := fun i => w.rets (i + 1), trace := w.trace ++ [c] })

/-- A library call returning `void`. -/
def callVoid (w : World) (c : Call) : World :=
  { w with trace := w.trace ++ [c] }

def logf (w : World) (lvl : LogLevel) (msg : List Char) : World :=
  { w with log := w.log ++ [(lvl, msg)] }

end World

/-! ## Device data -/

/-- An `int[AXIS_COUNT]` array. -/
structure int3 where
  a0 : Int
  a1 : Int
  a2 : Int
deriving DecidableEq, Repr

namespace int3

def get (a : int3) (i : Nat) : Int :=
  match i with
  | 0 => a.a0
  | 1 => a.a1
  | _ => a.a2

def set (a : int3) (i : Nat) (x : Int) : int3 :=
  match i with
  | 0 => { a with a0 := x }
  | 1 => { a with a1 := x }
  | _ => { a with a2 := x }

end int3

/-- Representation of `struct aylp_tl_piezo_data`. -/
structure aylp_tl_piezo_data where
  port : Option sp_port
  mask : int3
  map : int3
deriving DecidableEq, Repr

/-- A `gsl_vector` of three doubles, the input of one tick. -/
structure gsl_vector where
  e0 : F64
  e1 : F64
  e2 : F64
deriving DecidableEq, Repr

def gsl_vector_get (v : gsl_vector) (i : Nat) : F64 :=
  match i with
  | 0 => v.e0
  | 1 => v.e1
  | _ => v.e2

/-- The part of `struct aylp_state` the plugin reads. -/
structure aylp_state where
  vector : gsl_vector
deriving DecidableEq, Repr

/-! ## aylp_tl_piezo_process -/

/-- Lines 188-205: the X axis. `v_x` comes in with its default. -/
def process_axis_x (data : aylp_tl_piezo_data) (state : aylp_state) (v_x : F64) (w : World) :
    F64 × World :=
  if data.mask.get AXIS_X ≠ 0 then
    let r :=
      if data.map.get AXIS_X = AXIS_X then (gsl_vector_get state.vector AXIS_X, w)
      else if data.map.get AXIS_X = AXIS_Y then (gsl_vector_get state.vector AXIS_Y, w)
      else if data.map.get AXIS_X = AXIS_Z then (gsl_vector_get state.vector AXIS_Z, w)
      else (v_x, w.logf .error
        ("An invalid axis index was given: ".toList ++ fmt_d (data.map.get AXIS_X)))
    if F64.le (F64.ofNat 0) r.1 && F64.le r.1 (F64.ofNat V_MAX) then
      let buf := snprintf LEN_CMD_BUF ("xvoltage=".toList ++ fmt_2f r.1 ++ "\r\n".toList)
      let c := r.2.call (.sp_blocking_write data.port buf (strlen buf) 0)
      if c.1 < 0 then
        (r.1, c.2.logf .error
          "An error occurred while writing the X voltage to the piezo controller.".toList)
      else (r.1, c.2)
    else (r.1, r.2.logf .error "An invalid voltage was provided for the X axis.".toList)
  else (v_x, w)

/-- Lines 208-225: the Y axis. -/
def process_axis_y (data : aylp_tl_piezo_data) (state : aylp_state) (v_y : F64) (w : World) :
    F64 × World :=
  if data.mask.get AXIS_Y ≠ 0 then
    let r :=
      if data.map.get AXIS_Y = AXIS_X then (gsl_vector_get state.vector AXIS_X, w)
      else if data.map.get AXIS_Y = AXIS_Y then (gsl_vector_get state.vector AXIS_Y, w)
      else if data.map.get AXIS_Y = AXIS_Z then (gsl_vector_get state.vector AXIS_Z, w)
      else (v_y, w.logf .error
        ("An invalid axis index was given: ".toList ++ fmt_d (data.map.get AXIS_Y)))
    if F64.le (F64.ofNat 0) r.1 && F64.le r.1 (F64.ofNat V_MAX) then
      let buf := snprintf LEN_CMD_BUF ("yvoltage=".toList ++ fmt_2f r.1 ++ "\r\n".toList)
      let c := r.2.call (.sp_blocking_write data.port buf (strlen buf) 0)
      if c.1 < 0 then
        (r.1, c.2.logf .error
          "An error occurred while writing the Y voltage to the piezo controller.".toList)
      else (r.1, c.2)
    else (r.1, r.2.logf .error "An invalid voltage was provided for the Y axis.".toList)
  else (v_y, w)

/-- Lines 228-245: the Z axis. -/
def process_axis_z (data : aylp_tl_piezo_data) (state : aylp_state) (v_z : F64) (w : World) :
    F64 × World :=
  if data.mask.get AXIS_Z ≠ 0 then
    let r :=
      if data.map.get AXIS_Z = AXIS_X then (gsl_vector_get state.vector AXIS_X, w)
      else if data.map.get AXIS_Z = AXIS_Y then (gsl_vector_get state.vector AXIS_Y, w)
      else if data.map.get AXIS_Z = AXIS_Z then (gsl_vector_get state.vector AXIS_Z, w)
      else (v_z, w.logf .error
        ("An invalid axis index was given: ".toList ++ fmt_d (data.map.get AXIS_Z)))
    if F64.le (F64.ofNat 0) r.1 && F64.le r.1 (F64.ofNat V_MAX) then
      let buf := snprintf LEN_CMD_BUF ("zvoltage=".toList ++ fmt_2f r.1 ++ "\r\n".toList)
      let c := r.2.call (.sp_blocking_write data.port buf (strlen buf) 0)
      if c.1 < 0 then
        (r.1, c.2.logf .error
          "An error occurred while writing the Z voltage to the piezo controller.".toList)
      else (r.1, c.2)
    else (r.1, r.2.logf .error "An invalid voltage was provided for the Z axis.".toList)
  else (v_z, w)

/-- Lines 247-259: the aggregate log line, drain, flush, `return 0`. -/
def process_finish (data : aylp_tl_piezo_data) (v_x v_y v_z : F64) (w : World) : Int × World :=
  let buf := snprintf LEN_CMD_BUF
    ("xvoltage=".toList ++ fmt_2f v_x ++ " yvoltage=".toList ++ fmt_2f v_y ++
      " zvoltage=".toList ++ fmt_2f v_z)
  let w := w.logf .info buf
  let d := w.call (.sp_drain data.port)
  let w := if d.1 ≠ SP_OK then
      d.2.logf .error "An error occurred while draining the output buffer.".toList
    else d.2
  let f := w.call (.sp_flush data.port .SP_BUF_INPUT)
  let w := if f.1 ≠ 0 then
      f.2.logf .error "An error occurred while flushing the input buffer.".toList
    else f.2
  (0, w)

/-- Embedding of `aylp_tl_piezo_process(self, state)`, with `data = self->device_data`. -/
def aylp_tl_piezo_process (data : aylp_tl_piezo_data) (state : aylp_state) (w : World) :
    Int × World :=
  let x := process_axis_x data state (F64.ofNat 0) w
  let y := process_axis_y data state (F64.ofNat 0) x.2
  let z := process_axis_z data state (F64.ofNat 0) y.2
  process_finish data x.1 y.1 z.1 z.2

/-! ## aylp_tl_piezo_close -/

/-- Embedding of `aylp_tl_piezo_close(self)`, with `data = self->device_data`. -/
def aylp_tl_piezo_close (data : aylp_tl_piezo_data) (w : World) : Int × World :=
  let w :=
    if data.port.isSome then
      ((w.call (.sp_close data.port)).2).callVoid (.sp_free_port data.port)
    else w
  (0, w.callVoid .xfree)

/-! ## The configuration object (json-c) -/

/-- A `struct json_object *`. `null` is the `NULL` pointer, which is how json-c
represents the JSON value null. -/
inductive json_object where
  | null
  | boolean (b : Bool)
  | double (d : F64)
  | int (i : Int)
  | object (fields : List (List Char × json_object))
  | array (elems : List json_object)
  | string (s : List Char)

inductive json_type where
  | json_type_null | json_type_boolean | json_type_double | json_type_int
  | json_type_object | json_type_array | json_type_string
deriving DecidableEq, Repr

def json_object_get_type : json_object → json_type
  | .null => .json_type_null
  | .boolean _ => .json_type_boolean
  | .double _ => .json_type_double
  | .int _ => .json_type_int
  | .object _ => .json_type_object
  | .array _ => .json_type_array
  | .string _ => .json_type_string

def json_object_is_type (obj : json_object) (t : json_type) : Bool :=
  decide (json_object_get_type obj = t)

def json_object_array_length : json_object → Nat
  | .array elems => elems.length
  | _ => 0

/-- The element at `idx`, `none` (a `NULL` pointer) past the end or for a null element. -/
def json_object_array_get_idx (obj : json_object) (idx : Nat) : Option json_object :=
  match obj with
  | .array elems =>
    match elems[idx]? with
    | some .null => none
    | some e => some e
    | none => none
  | _ => none

def INT32_MAX : Int := 2147483647
def INT32_MIN : Int := -2147483648

/-- Conversion `json_object_get_int`: an integer saturated to the `int32_t` range, a
boolean as 0 or 1. The plugin calls it on integers and booleans only; the other
conversions of json-c (double, string) are not embedded and stand as 0. -/
def json_object_get_int : json_object → Int
  | .int i => if i < INT32_MIN then INT32_MIN else if INT32_MAX < i then INT32_MAX else i
  | .boolean b => if b then 1 else 0
  | _ => 0

/-- Conversion `json_object_get_string` of a string object (the only use here). -/
def json_object_get_string : json_object → List Char
  | .string s => s
  | _ => []

/-! ## The device (anyloop.h) -/

/-- Function pointers a device can carry in `proc` and `fini`. -/
inductive handler where
  | aylp_tl_piezo_process
  | aylp_tl_piezo_close
deriving DecidableEq, Repr

/-- The `AYLP_T_*` constants the plugin names, and the unset value. -/
inductive aylp_type where
  | AYLP_T_NONE | AYLP_T_VECTOR | AYLP_T_UNCHANGED
deriving DecidableEq, Repr

/-- The `AYLP_U_*` constants the plugin names, and the unset value. -/
inductive aylp_units where
  | AYLP_U_NONE | AYLP_U_V | AYLP_U_UNCHANGED
deriving DecidableEq, Repr

/-- The part of `struct aylp_device` the plugin touches. `params` is the JSON object
of the configuration, as its entries in iteration order. -/
structure aylp_device where
  params : List (List Char × json_object)
  device_data : aylp_tl_piezo_data
  proc : Option handler
  fini : Option handler
  type_in : aylp_type
  units_in : aylp_units
  type_out : aylp_type
  units_out : aylp_units

/-! ## aylp_tl_piezo_init -/

/-- Control after one statement block: fall through, or `return code`. -/
inductive Step (σ : Type) where
  | next (s : σ)
  | ret (code : Int) (s : σ)

/-- Sequencing: run `f` unless a `return` already happened. -/
def Step.bind {σ : Type} (x : Step σ) (f : σ → Step σ) : Step σ :=
  match x with
  | .next s => f s
  | .ret code s => .ret code s

/-- A `for` loop over `xs` whose body may `return`. -/
def for_each {α σ : Type} (xs : List α) (body : σ → α → Step σ) (s : σ) : Step σ :=
  match xs with
  | [] => .next s
  | x :: rest =>
    match body s x with
    | .next s2 => for_each rest body s2
    | .ret code s2 => .ret code s2

/-- The locals of `aylp_tl_piezo_init` together with `*data` and the world. `dev` is
indeterminate (here empty) until line 39 assigns it. -/
structure init_locals where
  is_dev : Bool
  is_map : Bool
  is_mask : Bool
  dev : List Char
  data : aylp_tl_piezo_data
  w : World

def init_locals.logf (s : init_locals) (lvl : LogLevel) (msg : List Char) : init_locals :=
  { s with w := s.w.logf lvl msg }

/-- Lines 62-81, the body of the loop copying `map`. -/
def map_body (v : json_object) (s : init_locals) (i : Nat) : Step init_locals :=
  match json_object_array_get_idx v i with
  | none => .ret 1 (s.logf .error "An error occurred parsing the \"map\" array.".toList)
  | some element =>
    if !json_object_is_type element .json_type_int then
      .ret 1 (s.logf .error "Each element in the \"map\" array must be an integer.".toList)
    else
      let s := { s with data := { s.data with map := s.data.map.set i (json_object_get_int element) } }
      if s.data.map.get i < 0 || s.data.map.get i ≥ (AXIS_COUNT : Int) then
        .ret 1 (s.logf .error ("Each integer in the \"map\" array must be in [0, ".toList ++
          fmt_d (AXIS_COUNT - 1 : Nat) ++ "].".toList))
      else .next s

/-- Lines 106-120, the body of the loop copying `mask`. -/
def mask_body (v : json_object) (s : init_locals) (i : Nat) : Step init_locals :=
  match json_object_array_get_idx v i with
  | none => .ret 1 (s.logf .error "An error occurred parsing the \"mask\" array.".toList)
  | some element =>
    if !json_object_is_type element .json_type_boolean &&
        !json_object_is_type element .json_type_int then
      .ret 1 (s.logf .error
        "Each element in the \"mask\" array must be a boolean or integer.".toList)
    else
      .next { s with data := { s.data with mask := s.data.mask.set i (json_object_get_int element) } }

/-- Lines 20-126, the body of the loop over the configuration entries. -/
def init_entry (s : init_locals) (kv : List Char × json_object) : Step init_locals :=
  if kv.1.head? = some '_' then .next s
  else if kv.1 = "dev".toList then
    if s.is_dev then
      .next (s.logf .warn "The \"dev\" configuration option appears more than once.".toList)
    else
      let s := { s with is_dev := true }
      if !json_object_is_type kv.2 .json_type_string then
        .ret 1 (s.logf .error "The \"dev\" JSON object must be a string.".toList)
      else .next { s with dev := json_object_get_string kv.2 }
  else if kv.1 = "map".toList then
    if s.is_map then
      .next (s.logf .warn "The \"map\" configuration option appears more than once.".toList)
    else
      let s := { s with is_map := true }
      if !json_object_is_type kv.2 .json_type_array then
        .ret 1 (s.logf .error "The \"map\" object must be an array.".toList)
      else if json_object_array_length kv.2 ≠ AXIS_COUNT then
        .ret 1 (s.logf .error
          ("The \"map\" array must be ".toList ++ fmt_d AXIS_COUNT ++ " elements.".toList))
      else
        (for_each (List.range AXIS_COUNT) (map_body kv.2) s).bind fun s =>
          .next (s.logf .trace ("map = [".toList ++ fmt_d (s.data.map.get 0) ++ ", ".toList ++
            fmt_d (s.data.map.get 1) ++ ", ".toList ++ fmt_d (s.data.map.get 2) ++ "]".toList))
  else if kv.1 = "mask".toList then
    if s.is_mask then
      .next (s.logf .warn "The \"mask\" configuration option appears more than once.".toList)
    else
      let s := { s with is_mask := true }
      if !json_object_is_type kv.2 .json_type_array then
        .ret 1 (s.logf .error "The \"mask\" object must be an array.".toList)
      else if json_object_array_length kv.2 ≠ AXIS_COUNT then
        .ret 1 (s.logf .error
          ("The \"mask\" array must be ".toList ++ fmt_d AXIS_COUNT ++ " elements.".toList))
      else
        (for_each (List.range AXIS_COUNT) (mask_body kv.2) s).bind fun s =>
          .next (s.logf .trace ("mask = [".toList ++ fmt_d (s.data.mask.get 0) ++ ", ".toList ++
            fmt_d (s.data.mask.get 1) ++ ", ".toList ++ fmt_d (s.data.mask.get 2) ++ "]".toList))
  else
    .next (s.logf .warn
      ("An unknown configuration option was ignored: \"".toList ++ kv.1 ++ "\"".toList))

/-- Lines 11-16: the data struct zeroed by `xcalloc`, the three flags false. -/
def init_start (w : World) : init_locals :=
  { is_dev := false, is_map := false, is_mask := false, dev := [],
    data := ⟨none, ⟨0, 0, 0⟩, ⟨0, 0, 0⟩⟩, w := w.callVoid .xcalloc }

/-- Lines 11-133: allocate the zeroed data struct, parse the configuration, check
the three required flags. -/
def init_config (self : aylp_device) (w : World) : Step init_locals :=
  (for_each self.params init_entry (init_start w)).bind fun s =>
    if !s.is_dev || !s.is_map || !s.is_mask then
      .ret 1 (s.logf .error
        "A required configuration option (\"dev\", \"map\", or \"mask\") is missing.".toList)
    else .next s

/-- The macro `CHECK_SP(call, msg)` of aylp_tl_piezo.h, for the call `c` on `data->port`. -/
def CHECK_SP (s : init_locals) (c : Call) (msg : List Char) : Step init_locals :=
  let r := s.w.call c
  if r.1 ≠ SP_OK then
    let w := r.2.logf .error msg
    let w := (w.call (.sp_close s.data.port)).2
    let w := w.callVoid (.sp_free_port s.data.port)
    .ret 1 { s with data := { s.data with port := none }, w := w }
  else .next { s with w := r.2 }

/-- Lines 136-149: resolve the port by name and open it. On `SP_OK` the library
stores a new port in `data->port`, otherwise `NULL`. -/
def init_open (s : init_locals) : Step init_locals :=
  let g := s.w.call (.sp_get_port_by_name s.dev)
  let s := { s with data := { s.data with port := if g.1 = SP_OK then some ⟨s.dev⟩ else none },
                    w := g.2 }
  if g.1 ≠ SP_OK then
    .ret 1 (s.logf .error ("The piezo controller could not be found: ".toList ++ s.dev))
  else
    let o := s.w.call (.sp_open s.data.port .SP_MODE_READ_WRITE)
    if o.1 ≠ SP_OK then
      let w := o.2.callVoid (.sp_free_port s.data.port)
      let w := w.logf .error ("The piezo controller could not be opened: ".toList ++ s.dev)
      .ret 1 { s with data := { s.data with port := none }, w := w }
    else
      let w := o.2.logf .trace ("The piezo controller was opened successfully: ".toList ++ s.dev)
      .next { s with w := w }

/-- Lines 154-161: the five line settings and the flush of both buffers. -/
def init_settings (s : init_locals) : Step init_locals :=
  (CHECK_SP s (.sp_set_baudrate s.data.port 115200)
      "The baud rate could not be set on the serial port.".toList).bind fun s =>
  (CHECK_SP s (.sp_set_bits s.data.port 8)
      "The number of data bits could not be set on the serial port.".toList).bind fun s =>
  (CHECK_SP s (.sp_set_parity s.data.port .SP_PARITY_NONE)
      "The parity could not be set on the serial port.".toList).bind fun s =>
  (CHECK_SP s (.sp_set_stopbits s.data.port 1)
      "The number of stop bits could not be set on the serial port.".toList).bind fun s =>
  (CHECK_SP s (.sp_set_flowcontrol s.data.port .SP_FLOWCONTROL_NONE)
      "The flow control could not be set on the serial port.".toList).bind fun s =>
  CHECK_SP s (.sp_flush s.data.port .SP_BUF_BOTH) "The buffers could not be flushed.".toList

/-- What `aylp_tl_piezo_init` leaves behind: its return value, the device (with the
data struct `self->device_data` points to) and the world. -/
structure init_result where
  ret : Int
  self : aylp_device
  w : World

/-- Lines 11-161 in sequence: configuration, open, settings. -/
def init_steps (self : aylp_device) (w : World) : Step init_locals :=
  ((init_config self w).bind init_open).bind init_settings

/-- Embedding of `aylp_tl_piezo_init(self)`. -/
def aylp_tl_piezo_init (self : aylp_device) (w : World) : init_result :=
  match init_steps self w with
  | .ret code s => { ret := code, self := { self with device_data := s.data }, w := s.w }
  | .next s =>
    { ret := 0,
      self := { self with
        device_data := s.data
        proc := some .aylp_tl_piezo_process
        fini := some .aylp_tl_piezo_close
        type_in := .AYLP_T_VECTOR
        units_in := .AYLP_U_V
        type_out := .AYLP_T_UNCHANGED
        units_out := .AYLP_U_UNCHANGED },
      w := s.w }

/-! ## Reading the trace and the control state -/

/-- The texts handed to `sp_blocking_write` in a list of calls, in order: the first
`count` characters of each buffer. -/
def written (t : List Call) : List (List Char) :=
  t.filterMap fun c =>
    match c with
    | .sp_blocking_write _ buf count _ => some (buf.take count)
    | _ => none

/-- The library calls made between world `w` and the later world `w2`. -/
def calls_since (w w2 : World) : List Call := w2.trace.drop w.trace.length

/-- Whether a call is `sp_close`. -/
def is_close : Call → Bool
  | .sp_close _ => true
  | _ => false

/-- Whether a call is `sp_free_port`. -/
def is_free_port : Call → Bool
  | .sp_free_port _ => true
  | _ => false

/-- The state a block ends in, however it ends. -/
def Step.state {σ : Type} : Step σ → σ
  | .next s => s
  | .ret _ s => s

/-- The return code of a block that returned, `none` if it fell through. -/
def Step.code {σ : Type} : Step σ → Option Int
  | .next _ => none
  | .ret code _ => some code

/-- The inner copy loops change nothing but `data->map` or `data->mask` and the log. -/
def frame (s0 s : init_locals) : Prop :=
  s.is_dev = s0.is_dev ∧ s.is_map = s0.is_map ∧ s.is_mask = s0.is_mask ∧ s.dev = s0.dev ∧
    s.w.rets = s0.w.rets ∧ s.w.trace = s0.w.trace ∧ s.data.port = s0.data.port

/-! ## One tick, axis by axis -/

/-- The letter naming a logical axis on the wire. -/
def axis_letter (A : Nat) : Char := if A = AXIS_X then 'x' else if A = AXIS_Y then 'y' else 'z'

/-- The closed range check `0 <= v && v <= V_MAX` of lines 197, 217, 237. -/
def in_range (v : F64) : Bool := F64.le (F64.ofNat 0) v && F64.le v (F64.ofNat V_MAX)

/-- The command line for axis `A` and voltage `v`, untruncated. -/
def command (A : Nat) (v : F64) : List Char :=
  axis_letter A :: ("voltage=".toList ++ fmt_2f v ++ "\r\n".toList)

/-- The value the switch of an enabled axis `A` leaves in `v_A`: the mapped input
component, or the default 0 when `map[A]` is no axis. -/
def resolved (data : aylp_tl_piezo_data) (state : aylp_state) (A : Nat) : F64 :=
  if data.map.get A = AXIS_X then gsl_vector_get state.vector AXIS_X
  else if data.map.get A = AXIS_Y then gsl_vector_get state.vector AXIS_Y
  else if data.map.get A = AXIS_Z then gsl_vector_get state.vector AXIS_Z
  else F64.ofNat 0

/-- The serial calls of the block of axis `A`. -/
def axis_calls (data : aylp_tl_piezo_data) (state : aylp_state) (A : Nat) : List Call :=
  if data.mask.get A ≠ 0 ∧ in_range (resolved data state A) = true then
    [.sp_blocking_write data.port (snprintf LEN_CMD_BUF (command A (resolved data state A)))
      (strlen (snprintf LEN_CMD_BUF (command A (resolved data state A)))) 0]
  else []

/-- The texts written by the block of axis `A`. -/
def axis_text (data : aylp_tl_piezo_data) (state : aylp_state) (A : Nat) : List (List Char) :=
  if data.mask.get A ≠ 0 ∧ in_range (resolved data state A) = true then
    [command A (resolved data state A)]
  else []

/-! ## Specification of one tick and of the serial phase -/

/-- Specification of one tick's writes: axis `A` is transmitted when it is enabled
and `v = input[map[A]]` satisfies `0 <= v <= 150`; the text is the command line. -/
def expected_command (data : aylp_tl_piezo_data) (state : aylp_state) (A : Nat) :
    Option (List Char) :=
  if data.mask.get A ≠ 0 ∧
      F64.le (F64.ofNat 0) (gsl_vector_get state.vector (data.map.get A).toNat) = true ∧
      F64.le (gsl_vector_get state.vector (data.map.get A).toNat) (F64.ofNat 150) = true then
    some (axis_letter A :: ("voltage=".toList ++
      fmt_2f (gsl_vector_get state.vector (data.map.get A).toNat) ++ "\r\n".toList))
  else none

/-- Specification of one tick's writes, in the order X, Y, Z. -/
def expected_commands (data : aylp_tl_piezo_data) (state : aylp_state) : List (List Char) :=
  [AXIS_X, AXIS_Y, AXIS_Z].filterMap (expected_command data state)

/-- A JSON boolean or integer, the element types the `mask` loop accepts. -/
def is_bool_or_int : json_object → Bool
  | .boolean _ => true
  | .int _ => true
  | _ => false

/-- The eight library calls of the serial phase for the device name `dev`, in order. -/
def serial_calls (dev : List Char) : List Call :=
  [.sp_get_port_by_name dev,
   .sp_open (some ⟨dev⟩) .SP_MODE_READ_WRITE,
   .sp_set_baudrate (some ⟨dev⟩) 115200,
   .sp_set_bits (some ⟨dev⟩) 8,
   .sp_set_parity (some ⟨dev⟩) .SP_PARITY_NONE,
   .sp_set_stopbits (some ⟨dev⟩) 1,
   .sp_set_flowcontrol (some ⟨dev⟩) .SP_FLOWCONTROL_NONE,
   .sp_flush (some ⟨dev⟩) .SP_BUF_BOTH]

/-- The release calls that follow the failure of the `k`-th serial call: nothing
after the name lookup, a free after the open, a close and a free after a setting. -/
def cleanup (k : Nat) (port : Option sp_port) : List Call :=
  if k = 0 then [] else if k = 1 then [.sp_free_port port]
  else [.sp_close port, .sp_free_port port]

/-- The run init, then one close on the data struct init left behind. -/
def init_then_close (self : aylp_device) (w : World) : Int × World :=
  aylp_tl_piezo_close (aylp_tl_piezo_init self w).self.device_data (aylp_tl_piezo_init self w).w

/-! ## Scenarios -/

/-- A world in which every library call succeeds (returns 0). -/
def world_ok : World := ⟨fun _ => 0, [], []⟩

/-- A world in which every library call fails with `SP_ERR_ARG`. -/
def world_fail : World := ⟨fun _ => -1, [], []⟩

/-- A world whose `k`-th library call fails with `SP_ERR_FAIL` and whose other
calls succeed. -/
def world_fail_at (k : Nat) : World := ⟨fun i => if i = k then -2 else 0, [], []⟩

/-- The double with value `n`. -/
def volts (n : Nat) : F64 := .finite false n 0

/-- Device state of the first scenario: map `[0,1,2]`, mask `[true,true,false]`. -/
def scenario1_data : aylp_tl_piezo_data :=
  ⟨some ⟨"/dev/ttyACM0".toList⟩, ⟨1, 1, 0⟩, ⟨0, 1, 2⟩⟩

/-- Input `[10.5, 20.25, 99]`. -/
def scenario1_state : aylp_state := ⟨⟨.finite false 21 (-1), .finite false 81 (-2), volts 99⟩⟩

/-- Device state of the second scenario: map `[2,0,1]`, mask `[true,true,true]`. -/
def scenario2_data : aylp_tl_piezo_data :=
  ⟨some ⟨"/dev/ttyACM0".toList⟩, ⟨1, 1, 1⟩, ⟨2, 0, 1⟩⟩

/-- Input `[1, 2, 3]`. -/
def scenario2_state : aylp_state := ⟨⟨volts 1, volts 2, volts 3⟩⟩

/-- Device state with every axis enabled and the identity map. -/
def all_axes_data : aylp_tl_piezo_data :=
  ⟨some ⟨"/dev/ttyACM0".toList⟩, ⟨1, 1, 1⟩, ⟨0, 1, 2⟩⟩

/-- Input `[-1, 151, 75]`: X below the range, Y above it. -/
def out_of_range_state : aylp_state := ⟨⟨.finite true 1 0, volts 151, volts 75⟩⟩

/-- Device state whose X axis is enabled and mapped to the non-axis 3. -/
def bad_map_data : aylp_tl_piezo_data :=
  ⟨some ⟨"/dev/ttyACM0".toList⟩, ⟨1, 0, 0⟩, ⟨3, 0, 0⟩⟩

/-- A device as the host hands it to init: nothing wired, types and units unset. -/
def fresh_device (params : List (List Char × json_object)) : aylp_device :=
  { params := params, device_data := ⟨none, ⟨0, 0, 0⟩, ⟨0, 0, 0⟩⟩, proc := none, fini := none,
    type_in := .AYLP_T_NONE, units_in := .AYLP_U_NONE,
    type_out := .AYLP_T_NONE, units_out := .AYLP_U_NONE }

/-- Configuration of the first scenario. -/
def scenario1_params : List (List Char × json_object) :=
  [("dev".toList, .string "/dev/ttyACM0".toList),
   ("map".toList, .array [.int 0, .int 1, .int 2]),
   ("mask".toList, .array [.boolean true, .boolean true, .boolean false])]

/-- Configuration with `dev` and `map` and an unknown key, but no `mask`. -/
def no_mask_params : List (List Char × json_object) :=
  [("dev".toList, .string "/dev/ttyACM0".toList),
   ("map".toList, .array [.int 0, .int 1, .int 2]),
   ("gain".toList, .int 3)]

/-- Configuration whose `map` holds the non-axis 3. -/
def bad_map_params : List (List Char × json_object) :=
  [("_comment".toList, .string "piezo".toList),
   ("dev".toList, .string "/dev/ttyACM0".toList),
   ("map".toList, .array [.int 0, .int 3, .int 2]),
   ("mask".toList, .array [.boolean true, .boolean true, .boolean true])]

/-- Configuration of the first scenario with a `mask` of three strings. -/
def string_mask_params : List (List Char × json_object) :=
  [("dev".toList, .string "/dev/ttyACM0".toList),
   ("map".toList, .array [.int 0, .int 1, .int 2]),
   ("mask".toList, .array [.string "on".toList, .string "on".toList, .string "off".toList])]

/-! ## Reading the writes and the log of one tick -/

/-- Whether a call is an `sp_blocking_write`. -/
def is_write : Call → Bool
  | .sp_blocking_write _ _ _ _ => true
  | _ => false

/-- Whether a call is an `sp_blocking_write` whose buffer begins with the letter of
axis `A`. -/
def is_write_for (A : Nat) : Call → Bool
  | .sp_blocking_write _ buf _ _ => decide (buf.head? = some (axis_letter A))
  | _ => false

/-- The text of `n` hundredths printed with exactly two digits after the decimal
point: the decimal digits of the whole part, a point, the tenths and hundredths digit. -/
def decimal_2 (n : Nat) : List Char :=
  (Nat.repr (n / 100)).toList ++ '.' :: [Nat.digitChar (n / 10 % 10), Nat.digitChar (n % 10)]

/-- Input `[75, 0, 0]`. -/
def state_75 : aylp_state := ⟨⟨volts 75, volts 0, volts 0⟩⟩

/-- Device state with the X axis alone enabled and the identity map. -/
def x_only_data : aylp_tl_piezo_data :=
  ⟨some ⟨"/dev/ttyACM0".toList⟩, ⟨1, 0, 0⟩, ⟨0, 1, 2⟩⟩

/-- The log calls made between world `w` and the later world `w2`. -/
def log_since (w w2 : World) : List (LogLevel × List Char) := w2.log.drop w.log.length

/-- Whether the text `l` begins with the text `p`. -/
def starts_with (p l : List Char) : Bool := decide (l.take p.length = p)

/-- Whether a log call is at level info. -/
def is_info (e : LogLevel × List Char) : Bool := decide (e.1 = .info)

/-- The capital naming a logical axis in the error messages. -/
def axis_name (A : Nat) : Char := if A = AXIS_X then 'X' else if A = AXIS_Y then 'Y' else 'Z'

/-- The value `v_A` holds when the aggregate line is formatted: the default 0 for a
disabled axis, the value left by the switch for an enabled one. -/
def shown (data : aylp_tl_piezo_data) (state : aylp_state) (A : Nat) : F64 :=
  if data.mask.get A ≠ 0 then resolved data state A else F64.ofNat 0

/-- The aggregate line of the three values `v_x`, `v_y`, `v_z`, untruncated. -/
def log_line (v_x v_y v_z : F64) : List Char :=
  "xvoltage=".toList ++ fmt_2f v_x ++ " yvoltage=".toList ++ fmt_2f v_y ++
    " zvoltage=".toList ++ fmt_2f v_z

/-- The log calls of the block of axis `A` when its write, if any, returns `r`. -/
def axis_log (data : aylp_tl_piezo_data) (state : aylp_state) (A : Nat) (r : Int) :
    List (LogLevel × List Char) :=
  if data.mask.get A ≠ 0 then
    (if 0 ≤ data.map.get A ∧ data.map.get A ≤ 2 then []
      else [(.error, "An invalid axis index was given: ".toList ++ fmt_d (data.map.get A))]) ++
    (if in_range (resolved data state A) = true then
      (if r < 0 then
        [(.error, "An error occurred while writing the ".toList ++ axis_name A ::
          " voltage to the piezo controller.".toList)]
      else [])
    else [(.error, "An invalid voltage was provided for the ".toList ++ axis_name A ::
      " axis.".toList)])
  else []

/-- The log calls after the aggregate line when drain returns `rd` and flush `rf`. -/
def tail_log (rd rf : Int) : List (LogLevel × List Char) :=
  (if rd ≠ SP_OK then
    [(.error, "An error occurred while draining the output buffer.".toList)] else []) ++
  (if rf ≠ 0 then
    [(.error, "An error occurred while flushing the input buffer.".toList)] else [])

/-- Input `[2^200, 0, 0]`. -/
def huge_state : aylp_state := ⟨⟨.finite false 1 200, volts 0, volts 0⟩⟩

/-! ## Well-formed configurations -/

/-- A configuration the loop accepts, read at the first entry of each key: `dev` a
string, `map` an array of exactly three integers each in [0,2], `mask` an array of
exactly three elements each a boolean or an integer. -/
def well_formed (params : List (List Char × json_object)) : Prop :=
  (∃ d, params.lookup "dev".toList = some (.string d)) ∧
  (∃ a b c : Int, params.lookup "map".toList = some (.array [.int a, .int b, .int c]) ∧
    (0 ≤ a ∧ a ≤ 2) ∧ (0 ≤ b ∧ b ≤ 2) ∧ (0 ≤ c ∧ c ≤ 2)) ∧
  (∃ x y z : json_object, params.lookup "mask".toList = some (.array [x, y, z]) ∧
    is_bool_or_int x = true ∧ is_bool_or_int y = true ∧ is_bool_or_int z = true)

/-- The nonzero test on a `mask` element: the boolean true, or a nonzero integer. -/
def truthy : json_object → Bool
  | .boolean b => b
  | .int n => decide (n ≠ 0)
  | _ => false

/-- Configuration whose `dev` is a number. -/
def number_dev_params : List (List Char × json_object) :=
  [("dev".toList, .int 0),
   ("map".toList, .array [.int 0, .int 1, .int 2]),
   ("mask".toList, .array [.boolean true, .boolean true, .boolean false])]

/-- Configuration whose `mask` holds the integers `2^32` and 0 and the boolean true. -/
def int_mask_params : List (List Char × json_object) :=
  [("mask".toList, .array [.int 4294967296, .int 0, .boolean true]),
   ("map".toList, .array [.int 2, .int 0, .int 1]),
   ("dev".toList, .string "/dev/ttyACM0".toList)]

/-! ## Init up to the log -/

/-- The locals with the log emptied: everything init computes with. -/
def unlog (s : init_locals) : init_locals := { s with w := { s.w with log := [] } }

/-- Apply `f` to the state a block ends in. -/
def Step.map {σ : Type} (f : σ → σ) : Step σ → Step σ
  | .next s => .next (f s)
  | .ret code s => .ret code (f s)

/-- A block of init whose outcome, the log apart, does not depend on the log. -/
def log_blind (F : init_locals → Step init_locals) : Prop :=
  ∀ s, (F s).map unlog = (F (unlog s)).map unlog

/-- Lines 129-133, the check of the three flags after the loop. -/
def init_required (s : init_locals) : Step init_locals :=
  if !s.is_dev || !s.is_map || !s.is_mask then
    .ret 1 (s.logf .error
      "A required configuration option (\"dev\", \"map\", or \"mask\") is missing.".toList)
  else .next s

/-- Everything init does after the configuration loop. -/
def init_after_loop (s : init_locals) : Step init_locals :=
  ((init_required s).bind init_open).bind init_settings

/-! # Theorems -/

/-! ## The double model against exact values -/

theorem F64.scaled_value (neg : Bool) (m : Nat) (e k : Int) (h : k ≤ e) :
    ((F64.scaled neg m e k : Int) : ℚ) * (2 : ℚ) ^ k = F64.value neg m e := by
  have hp : ((2 : ℚ) ^ (e - k).toNat) * (2 : ℚ) ^ k = (2 : ℚ) ^ e := by
    rw [← zpow_natCast, Int.toNat_of_nonneg (sub_nonneg.mpr h), ← zpow_add₀ (by norm_num)]
    congr 1
    ring
  unfold F64.scaled F64.value
  cases neg
  · simp only [Bool.false_eq_true, if_false]
    push_cast
    rw [mul_assoc, hp]
    ring
  · simp only [if_true]
    push_cast
    rw [neg_mul, mul_assoc, hp]
    ring

/-- On finite doubles the comparison is the comparison of the exact values. -/
theorem F64.le_finite_iff (n1 : Bool) (m1 : Nat) (e1 : Int) (n2 : Bool) (m2 : Nat) (e2 : Int) :
    F64.le (.finite n1 m1 e1) (.finite n2 m2 e2) = true ↔
      F64.value n1 m1 e1 ≤ F64.value n2 m2 e2 := by
  have hpos : (0 : ℚ) < (2 : ℚ) ^ (min e1 e2) := zpow_pos (by norm_num) _
  rw [← F64.scaled_value n1 m1 e1 (min e1 e2) (min_le_left _ _),
    ← F64.scaled_value n2 m2 e2 (min e1 e2) (min_le_right _ _),
    mul_le_mul_right hpos]
  simp only [F64.le, decide_eq_true_eq]
  exact Int.cast_le.symm

/-- The range check on a finite double is `0 ≤ v ≤ 150` on its exact value. -/
theorem in_range_finite_iff (neg : Bool) (m : Nat) (e : Int) :
    in_range (.finite neg m e) = true ↔ 0 ≤ F64.value neg m e ∧ F64.value neg m e ≤ 150 := by
  unfold in_range F64.ofNat V_MAX
  rw [Bool.and_eq_true, F64.le_finite_iff, F64.le_finite_iff]
  simp [F64.value]

/-- Infinities and NaNs fail the range check. -/
theorem in_range_not_finite (neg : Bool) :
    in_range (.inf neg) = false ∧ in_range (.nan neg) = false := by
  cases neg <;> simp [in_range, F64.le, F64.ofNat]

theorem round_quotient_nearest (n d : Nat) (hd : 0 < d) :
    |(((if d < 2 * (n % d) then n / d + 1
        else if 2 * (n % d) = d then (if n / d % 2 = 0 then n / d else n / d + 1)
        else n / d : Nat) : ℚ)) - (n : ℚ) / d| ≤ 1 / 2 := by
  have hdq : (0 : ℚ) < (d : ℚ) := by exact_mod_cast hd
  have hdm := Nat.div_add_mod n d
  have hr := Nat.mod_lt n hd
  generalize n / d = q at *
  generalize n % d = r at *
  have hval : (n : ℚ) / d = q + r / d := by
    have : (n : ℚ) = d * q + r := by exact_mod_cast hdm.symm
    rw [this]
    field_simp
    ring
  rw [hval]
  have hrq : (r : ℚ) < d := by exact_mod_cast hr
  have hr0 : (0 : ℚ) ≤ r := by positivity
  have hfrac0 : 0 ≤ (r : ℚ) / d := by positivity
  have hfrac1 : (r : ℚ) / d < 1 := by rw [div_lt_one hdq]; exact hrq
  rw [abs_le]
  split_ifs with h1 h2 h3
  · have h1q : (d : ℚ) < 2 * r := by exact_mod_cast h1
    have : (1 : ℚ) / 2 < (r : ℚ) / d := by
      rw [div_lt_div_iff₀ (by norm_num) hdq]; linarith
    push_cast
    constructor <;> linarith
  · have h2q : 2 * (r : ℚ) = d := by exact_mod_cast h2
    have : (r : ℚ) / d = 1 / 2 := by
      rw [div_eq_div_iff (ne_of_gt hdq) (by norm_num)]; linarith
    constructor <;> linarith
  · have h2q : 2 * (r : ℚ) = d := by exact_mod_cast h2
    have : (r : ℚ) / d = 1 / 2 := by
      rw [div_eq_div_iff (ne_of_gt hdq) (by norm_num)]; linarith
    push_cast
    constructor <;> linarith
  · have h1q : 2 * (r : ℚ) < d := by
      have : 2 * r < d := by omega
      exact_mod_cast this
    have : (r : ℚ) / d < 1 / 2 := by
      rw [div_lt_div_iff₀ hdq (by norm_num)]; linarith
    constructor <;> linarith

/-- The rounding of `%.2f` is to a nearest hundredth of the exact magnitude. -/
theorem round_hundredths_nearest (m : Nat) (e : Int) :
    |(round_hundredths m e : ℚ) - 100 * ((m : ℚ) * (2 : ℚ) ^ e)| ≤ 1 / 2 := by
  unfold round_hundredths
  by_cases he : 0 ≤ e
  · rw [if_pos he]
    have hp : ((2 : ℚ) ^ e.toNat) = (2 : ℚ) ^ e := by
      rw [← zpow_natCast, Int.toNat_of_nonneg he]
    push_cast
    rw [hp]
    have : (m : ℚ) * 2 ^ e * 100 - 100 * (m * 2 ^ e) = 0 := by ring
    rw [this]
    norm_num
  · rw [if_neg he]
    have hp : ((2 : ℚ) ^ (-e).toNat) = (2 : ℚ) ^ (-e) := by
      rw [← zpow_natCast, Int.toNat_of_nonneg (by omega)]
    have hd : (2 : ℚ) ^ e = (((2 ^ (-e).toNat : Nat) : ℚ))⁻¹ := by
      push_cast
      rw [hp, zpow_neg, inv_inv]
    have hval : 100 * ((m : ℚ) * (2 : ℚ) ^ e) = ((m * 100 : Nat) : ℚ) / ((2 ^ (-e).toNat : Nat) : ℚ) := by
      rw [hd]
      push_cast
      ring
    rw [hval]
    exact round_quotient_nearest (m * 100) (2 ^ (-e).toNat) (Nat.two_pow_pos _)

/-! ## Lemmas on the trace of one tick -/

theorem process_axis_x_trace (data : aylp_tl_piezo_data) (state : aylp_state) (w : World) :
    (process_axis_x data state (F64.ofNat 0) w).2.trace = w.trace ++ axis_calls data state AXIS_X := by
  unfold process_axis_x axis_calls resolved in_range
  by_cases hm : data.mask.get AXIS_X = 0
  · simp [hm]
  · simp only [ne_eq, hm, not_false_eq_true, if_true, true_and, Bool.and_eq_true]
    split_ifs <;> simp_all [World.call, World.logf, command, axis_letter, AXIS_X, AXIS_Y, AXIS_Z]

theorem process_axis_y_trace (data : aylp_tl_piezo_data) (state : aylp_state) (w : World) :
    (process_axis_y data state (F64.ofNat 0) w).2.trace = w.trace ++ axis_calls data state AXIS_Y := by
  unfold process_axis_y axis_calls resolved in_range
  by_cases hm : data.mask.get AXIS_Y = 0
  · simp [hm]
  · simp only [ne_eq, hm, not_false_eq_true, if_true, true_and, Bool.and_eq_true]
    split_ifs <;> simp_all [World.call, World.logf, command, axis_letter, AXIS_X, AXIS_Y, AXIS_Z]

theorem process_axis_z_trace (data : aylp_tl_piezo_data) (state : aylp_state) (w : World) :
    (process_axis_z data state (F64.ofNat 0) w).2.trace = w.trace ++ axis_calls data state AXIS_Z := by
  unfold process_axis_z axis_calls resolved in_range
  by_cases hm : data.mask.get AXIS_Z = 0
  · simp [hm]
  · simp only [ne_eq, hm, not_false_eq_true, if_true, true_and, Bool.and_eq_true]
    split_ifs <;> simp_all [World.call, World.logf, command, axis_letter, AXIS_X, AXIS_Y, AXIS_Z]

theorem process_finish_trace (data : aylp_tl_piezo_data) (v_x v_y v_z : F64) (w : World) :
    (process_finish data v_x v_y v_z w).2.trace =
      w.trace ++ [.sp_drain data.port, .sp_flush data.port .SP_BUF_INPUT] := by
  unfold process_finish
  simp only [World.call, World.logf]
  split_ifs <;> simp

/-- The library calls of one tick, whatever they return. -/
theorem process_trace (data : aylp_tl_piezo_data) (state : aylp_state) (w : World) :
    calls_since w (aylp_tl_piezo_process data state w).2 =
      axis_calls data state AXIS_X ++ axis_calls data state AXIS_Y ++ axis_calls data state AXIS_Z ++
        [.sp_drain data.port, .sp_flush data.port .SP_BUF_INPUT] := by
  unfold calls_since aylp_tl_piezo_process
  simp only [process_finish_trace, process_axis_z_trace, process_axis_y_trace,
    process_axis_x_trace, List.append_assoc, List.drop_left]

/-! ## Lemmas on the command text -/

theorem round_hundredths_zero (e : Int) : round_hundredths 0 e = 0 := by
  unfold round_hundredths
  split_ifs <;> simp_all
  have : 0 < 2 ^ (-e).toNat := Nat.two_pow_pos _
  omega

theorem round_hundredths_le (m : Nat) (e : Int)
    (h : F64.le (.finite false m e) (F64.ofNat V_MAX) = true) : round_hundredths m e ≤ 15000 := by
  simp only [F64.le, F64.ofNat, F64.scaled, V_MAX, decide_eq_true_eq] at h
  unfold round_hundredths
  by_cases he : 0 ≤ e
  · rw [if_pos he]
    rw [min_eq_right he] at h
    simp at h
    have h2 : m * 2 ^ e.toNat ≤ 150 := by exact_mod_cast h
    omega
  · rw [if_neg he]
    have he2 : e ≤ 0 := by omega
    rw [min_eq_left he2] at h
    simp at h
    have h2 : m ≤ 150 * 2 ^ (-e).toNat := by exact_mod_cast h
    generalize 2 ^ (-e).toNat = d at *
    have hq : m * 100 / d ≤ 15000 := Nat.div_le_of_le_mul (by omega)
    have hdm := Nat.div_add_mod (m * 100) d
    simp only []
    rcases Nat.lt_or_ge (m * 100 / d) 15000 with hlt | hge
    · split_ifs <;> omega
    · have hqe : m * 100 / d = 15000 := by omega
      rw [hqe] at hdm ⊢
      split_ifs <;> omega

theorem toDigits_length_le (n : Nat) (h : n ≤ 150) : (Nat.toDigits 10 n).length ≤ 3 := by
  interval_cases n <;> decide

/-- A voltage that passes the range check prints in at most 7 characters. -/
theorem fmt_2f_length_le (v : F64) (h : in_range v = true) : (fmt_2f v).length ≤ 7 := by
  unfold in_range at h
  rw [Bool.and_eq_true] at h
  obtain ⟨h0, h1⟩ := h
  cases v with
  | nan neg => simp [F64.le] at h1
  | inf neg => cases neg <;> simp [F64.le, F64.ofNat] at h0 h1
  | finite neg m e =>
    cases neg with
    | true =>
      have hm : m = 0 := by
        simp only [F64.le, F64.ofNat, F64.scaled, decide_eq_true_eq] at h0
        simp at h0
        have hp : 0 < 2 ^ (e - min 0 e).toNat := Nat.two_pow_pos _
        have h3 : ((m * 2 ^ (e - min 0 e).toNat : Nat) : Int) ≤ 0 := by exact_mod_cast h0
        have h4 : m * 2 ^ (e - min 0 e).toNat = 0 := by omega
        rcases Nat.mul_eq_zero.mp h4 with h5 | h5
        · exact h5
        · omega
      subst hm
      simp [fmt_2f, fmt_sign, round_hundredths_zero]
      decide
    | false =>
      have hb := round_hundredths_le m e h1
      have hd := toDigits_length_le (round_hundredths m e / 100) (by omega)
      simp [fmt_2f, fmt_sign]
      omega

/-- A command for an in-range voltage fits the buffer: `snprintf` does not cut it. -/
theorem snprintf_command (A : Nat) (v : F64) (h : in_range v = true) :
    snprintf LEN_CMD_BUF (command A v) = command A v := by
  have hl := fmt_2f_length_le v h
  unfold snprintf
  apply List.take_of_length_le
  simp [command, LEN_CMD_BUF]
  omega

theorem written_append (a b : List Call) : written (a ++ b) = written a ++ written b := by
  simp [written, List.filterMap_append]

theorem written_axis_calls (data : aylp_tl_piezo_data) (state : aylp_state) (A : Nat) :
    written (axis_calls data state A) = axis_text data state A := by
  unfold axis_calls axis_text
  split_ifs with h
  · simp [written, snprintf_command A _ h.2, strlen]
  · simp [written]

/-- The texts written in one tick, block by block. -/
theorem written_process (data : aylp_tl_piezo_data) (state : aylp_state) (w : World) :
    written (calls_since w (aylp_tl_piezo_process data state w).2) =
      axis_text data state AXIS_X ++ axis_text data state AXIS_Y ++ axis_text data state AXIS_Z := by
  rw [process_trace]
  simp only [written_append, written_axis_calls]
  simp [written]

theorem resolved_of_valid (data : aylp_tl_piezo_data) (state : aylp_state) (A : Nat)
    (h : 0 ≤ data.map.get A ∧ data.map.get A ≤ 2) :
    resolved data state A = gsl_vector_get state.vector (data.map.get A).toNat := by
  obtain ⟨h0, h2⟩ := h
  unfold resolved
  have hc : data.map.get A = 0 ∨ data.map.get A = 1 ∨ data.map.get A = 2 := by omega
  rcases hc with hc | hc | hc <;> simp [hc, AXIS_X, AXIS_Y, AXIS_Z]

theorem resolved_of_invalid (data : aylp_tl_piezo_data) (state : aylp_state) (A : Nat)
    (h : ¬ (0 ≤ data.map.get A ∧ data.map.get A ≤ 2)) :
    resolved data state A = F64.ofNat 0 := by
  unfold resolved
  have h0 : data.map.get A ≠ 0 := by omega
  have h1 : data.map.get A ≠ 1 := by omega
  have h2 : data.map.get A ≠ 2 := by omega
  simp [h0, h1, h2, AXIS_X, AXIS_Y, AXIS_Z]

theorem axis_text_expected (data : aylp_tl_piezo_data) (state : aylp_state) (A : Nat)
    (h : 0 ≤ data.map.get A ∧ data.map.get A ≤ 2) :
    axis_text data state A = (expected_command data state A).toList := by
  unfold axis_text expected_command
  rw [resolved_of_valid data state A h]
  simp only [in_range, V_MAX, Bool.and_eq_true, command]
  split_ifs <;> simp

/-- Every text written by the block of axis `B` starts with the letter of `B`. -/
theorem axis_text_head (data : aylp_tl_piezo_data) (state : aylp_state) (B : Nat)
    (c : List Char) (h : c ∈ axis_text data state B) : c.head? = some (axis_letter B) := by
  unfold axis_text at h
  split_ifs at h
  · simp only [List.mem_singleton] at h
    subst h
    simp [command]
  · simp at h

theorem axis_text_filter_other (data : aylp_tl_piezo_data) (state : aylp_state) (A B : Nat)
    (h : axis_letter B ≠ axis_letter A) :
    (axis_text data state B).filter (fun c => decide (c.head? = some (axis_letter A))) = [] := by
  rw [List.filter_eq_nil_iff]
  intro c hc
  rw [axis_text_head data state B c hc]
  simpa using h

theorem axis_text_mask_irrelevant (data : aylp_tl_piezo_data) (state : aylp_state) (A B : Nat)
    (hA : A < AXIS_COUNT) (hB : B < AXIS_COUNT) (hne : B ≠ A) :
    axis_text { data with mask := data.mask.set A 0 } state B = axis_text data state B := by
  have hg : (data.mask.set A 0).get B = data.mask.get B := by
    unfold AXIS_COUNT at hA hB
    interval_cases A <;> interval_cases B <;> simp_all [int3.get, int3.set]
  simp only [axis_text, resolved, hg]

theorem axis_text_masked (data : aylp_tl_piezo_data) (state : aylp_state) (A : Nat)
    (hA : A < AXIS_COUNT) :
    axis_text { data with mask := data.mask.set A 0 } state A = [] := by
  have hg : (data.mask.set A 0).get A = 0 := by
    unfold AXIS_COUNT at hA
    interval_cases A <;> simp [int3.get, int3.set]
  simp [axis_text, hg]

/-! ## Claims on aylp_tl_piezo_process -/

/-- C1: for every device state whose map entries are all in [0,2], every input vector
and every outcome of the serial calls, the texts passed to `sp_blocking_write` in one
tick are exactly, in the order X, Y, Z, the command line of each axis that is enabled
and whose voltage `input[map[A]]` lies in [0,150]. -/
theorem process_writes_expected (data : aylp_tl_piezo_data) (state : aylp_state) (w : World)
    (hmap : ∀ A, A < AXIS_COUNT → 0 ≤ data.map.get A ∧ data.map.get A ≤ 2) :
    written (calls_since w (aylp_tl_piezo_process data state w).2) =
      expected_commands data state := by
  rw [written_process, axis_text_expected data state AXIS_X (hmap _ (by decide)),
    axis_text_expected data state AXIS_Y (hmap _ (by decide)),
    axis_text_expected data state AXIS_Z (hmap _ (by decide))]
  unfold expected_commands
  simp only [List.filterMap_cons, List.filterMap_nil]
  cases expected_command data state AXIS_X <;> cases expected_command data state AXIS_Y <;>
    cases expected_command data state AXIS_Z <;> rfl

/-- Both end-to-end scenarios: the first with every serial call succeeding, the second
with every serial call failing. -/
theorem process_writes_expected_witness :
    ((∀ A, A < AXIS_COUNT → 0 ≤ scenario1_data.map.get A ∧ scenario1_data.map.get A ≤ 2) ∧
      written (calls_since world_ok (aylp_tl_piezo_process scenario1_data scenario1_state world_ok).2) =
        expected_commands scenario1_data scenario1_state ∧
      expected_commands scenario1_data scenario1_state =
        ["xvoltage=10.50\r\n".toList, "yvoltage=20.25\r\n".toList]) ∧
    ((∀ A, A < AXIS_COUNT → 0 ≤ scenario2_data.map.get A ∧ scenario2_data.map.get A ≤ 2) ∧
      written (calls_since world_fail (aylp_tl_piezo_process scenario2_data scenario2_state world_fail).2) =
        expected_commands scenario2_data scenario2_state ∧
      expected_commands scenario2_data scenario2_state =
        ["xvoltage=3.00\r\n".toList, "yvoltage=1.00\r\n".toList, "zvoltage=2.00\r\n".toList]) :=
  ⟨⟨by decide, process_writes_expected scenario1_data scenario1_state world_ok (by decide), by decide⟩,
    ⟨by decide, process_writes_expected scenario2_data scenario2_state world_fail (by decide),
      by decide⟩⟩

/-- C2: for every axis A whose mask entry is 0, whatever the map, the input vector and
the outcome of the serial calls, no text passed to `sp_blocking_write` in one tick
begins with the letter of A. -/
theorem process_masked_axis_silent (data : aylp_tl_piezo_data) (state : aylp_state) (w : World)
    (A : Nat) (hA : A < AXIS_COUNT) (hmask : data.mask.get A = 0) :
    ∀ text ∈ written (calls_since w (aylp_tl_piezo_process data state w).2),
      text.head? ≠ some (axis_letter A) := by
  intro text ht
  rw [written_process] at ht
  have hnil : axis_text data state A = [] := by simp [axis_text, hmask]
  have hB : ∀ B, B < AXIS_COUNT → text ∈ axis_text data state B →
      text.head? ≠ some (axis_letter A) := by
    intro B hB hmem
    have hne : B ≠ A := by
      intro h
      subst h
      rw [hnil] at hmem
      simp at hmem
    rw [axis_text_head data state B text hmem]
    unfold AXIS_COUNT at hA hB
    interval_cases A <;> interval_cases B <;> simp_all [axis_letter, AXIS_X, AXIS_Y]
  simp only [List.mem_append] at ht
  rcases ht with (ht | ht) | ht
  · exact hB AXIS_X (by decide) ht
  · exact hB AXIS_Y (by decide) ht
  · exact hB AXIS_Z (by decide) ht

/-- The first scenario masks Z: nothing written there begins with `z`, also when
every serial call fails. -/
theorem process_masked_axis_silent_witness :
    AXIS_Z < AXIS_COUNT ∧ scenario1_data.mask.get AXIS_Z = 0 ∧
      ∀ text ∈ written (calls_since world_fail
          (aylp_tl_piezo_process scenario1_data scenario1_state world_fail).2),
        text.head? ≠ some (axis_letter AXIS_Z) :=
  ⟨by decide, by decide,
    process_masked_axis_silent scenario1_data scenario1_state world_fail AXIS_Z (by decide)
      (by decide)⟩

/-- C3: for every enabled axis A with `map[A]` in [0,2] whose voltage `input[map[A]]`
fails `0 <= v <= 150`, no text written in the tick begins with the letter of A, and
the texts written are exactly those written when A is disabled: the other axes are
handled as if A were absent. -/
theorem process_out_of_range_skipped (data : aylp_tl_piezo_data) (state : aylp_state) (w : World)
    (A : Nat) (hA : A < AXIS_COUNT) (hmask : data.mask.get A ≠ 0)
    (hmap : 0 ≤ data.map.get A ∧ data.map.get A ≤ 2)
    (hv : ¬ (F64.le (F64.ofNat 0) (gsl_vector_get state.vector (data.map.get A).toNat) = true ∧
      F64.le (gsl_vector_get state.vector (data.map.get A).toNat) (F64.ofNat 150) = true)) :
    (∀ text ∈ written (calls_since w (aylp_tl_piezo_process data state w).2),
      text.head? ≠ some (axis_letter A)) ∧
    written (calls_since w (aylp_tl_piezo_process data state w).2) =
      written (calls_since w
        (aylp_tl_piezo_process { data with mask := data.mask.set A 0 } state w).2) := by
  have hnil : axis_text data state A = [] := by
    unfold axis_text
    rw [resolved_of_valid data state A hmap]
    simp only [in_range, V_MAX, Bool.and_eq_true]
    rw [if_neg (fun h => hv h.2)]
  have hsame : written (calls_since w (aylp_tl_piezo_process data state w).2) =
      written (calls_since w
        (aylp_tl_piezo_process { data with mask := data.mask.set A 0 } state w).2) := by
    rw [written_process, written_process]
    unfold AXIS_COUNT at hA
    interval_cases A
    · have h1 := axis_text_masked data state 0 (by decide)
      have h2 := axis_text_mask_irrelevant data state 0 1 (by decide) (by decide) (by decide)
      have h3 := axis_text_mask_irrelevant data state 0 2 (by decide) (by decide) (by decide)
      simp only [AXIS_X, AXIS_Y, AXIS_Z, h1, h2, h3, hnil]
    · have h1 := axis_text_masked data state 1 (by decide)
      have h2 := axis_text_mask_irrelevant data state 1 0 (by decide) (by decide) (by decide)
      have h3 := axis_text_mask_irrelevant data state 1 2 (by decide) (by decide) (by decide)
      simp only [AXIS_X, AXIS_Y, AXIS_Z, h1, h2, h3, hnil]
    · have h1 := axis_text_masked data state 2 (by decide)
      have h2 := axis_text_mask_irrelevant data state 2 0 (by decide) (by decide) (by decide)
      have h3 := axis_text_mask_irrelevant data state 2 1 (by decide) (by decide) (by decide)
      simp only [AXIS_X, AXIS_Y, AXIS_Z, h1, h2, h3, hnil]
  refine ⟨?_, hsame⟩
  intro text ht
  rw [written_process] at ht
  have hB : ∀ B, B < AXIS_COUNT → text ∈ axis_text data state B →
      text.head? ≠ some (axis_letter A) := by
    intro B hB hmem
    have hne : B ≠ A := by
      intro h
      subst h
      rw [hnil] at hmem
      simp at hmem
    rw [axis_text_head data state B text hmem]
    unfold AXIS_COUNT at hA hB
    interval_cases A <;> interval_cases B <;> simp_all [axis_letter, AXIS_X, AXIS_Y]
  simp only [List.mem_append] at ht
  rcases ht with (ht | ht) | ht
  · exact hB AXIS_X (by decide) ht
  · exact hB AXIS_Y (by decide) ht
  · exact hB AXIS_Z (by decide) ht

/-- Input `[-1, 151, 75]` with all axes enabled: X (-1) is skipped, and what is
written is the Z command alone, as Y (151) is out of range too. -/
theorem process_out_of_range_skipped_witness :
    (AXIS_X < AXIS_COUNT ∧ all_axes_data.mask.get AXIS_X ≠ 0 ∧
      (0 ≤ all_axes_data.map.get AXIS_X ∧ all_axes_data.map.get AXIS_X ≤ 2) ∧
      ¬ (F64.le (F64.ofNat 0)
          (gsl_vector_get out_of_range_state.vector (all_axes_data.map.get AXIS_X).toNat) = true ∧
        F64.le (gsl_vector_get out_of_range_state.vector (all_axes_data.map.get AXIS_X).toNat)
          (F64.ofNat 150) = true)) ∧
    ((∀ text ∈ written (calls_since world_ok
          (aylp_tl_piezo_process all_axes_data out_of_range_state world_ok).2),
        text.head? ≠ some (axis_letter AXIS_X)) ∧
      written (calls_since world_ok
          (aylp_tl_piezo_process all_axes_data out_of_range_state world_ok).2) =
        written (calls_since world_ok (aylp_tl_piezo_process
          { all_axes_data with mask := all_axes_data.mask.set AXIS_X 0 }
          out_of_range_state world_ok).2)) ∧
    written (calls_since world_ok
        (aylp_tl_piezo_process all_axes_data out_of_range_state world_ok).2) =
      ["zvoltage=75.00\r\n".toList] :=
  ⟨⟨by decide, by decide, by decide, by decide⟩,
    process_out_of_range_skipped all_axes_data out_of_range_state world_ok AXIS_X (by decide)
      (by decide) (by decide) (by decide),
    by decide⟩

/-- C4 as stated fails: with X enabled and `map[X] = 3`, the tick does write for X,
the command for the default voltage 0. -/
theorem process_bad_map_writes_zero :
    bad_map_data.mask.get AXIS_X ≠ 0 ∧
    ¬ (0 ≤ bad_map_data.map.get AXIS_X ∧ bad_map_data.map.get AXIS_X ≤ 2) ∧
    written (calls_since world_ok
        (aylp_tl_piezo_process bad_map_data scenario2_state world_ok).2) =
      ["xvoltage=0.00\r\n".toList] ∧
    ¬ (∀ text ∈ written (calls_since world_ok
          (aylp_tl_piezo_process bad_map_data scenario2_state world_ok).2),
        text.head? ≠ some (axis_letter AXIS_X)) := by
  decide

/-- C8: `aylp_tl_piezo_process` returns 0 for every device state, every input vector
and every outcome of the write, drain and flush calls. -/
theorem process_returns_zero (data : aylp_tl_piezo_data) (state : aylp_state) (w : World) :
    (aylp_tl_piezo_process data state w).1 = 0 := by
  unfold aylp_tl_piezo_process process_finish
  rfl

/-! ## Lemmas on loops and early returns -/

/-- A property the loop body preserves holds when the loop ends. -/
theorem for_each_invariant {α σ : Type} (P : σ → Prop) (body : σ → α → Step σ) (xs : List α)
    (h : ∀ x ∈ xs, ∀ s, P s → P (body s x).state) (s : σ) (hs : P s) :
    P (for_each xs body s).state := by
  induction xs generalizing s with
  | nil => simpa [for_each, Step.state] using hs
  | cons x rest ih =>
    have hx := h x (List.mem_cons_self _ _) s hs
    unfold for_each
    cases hb : body s x with
    | next s2 =>
      rw [hb] at hx
      exact ih (fun y hy => h y (List.mem_cons_of_mem _ hy)) s2 hx
    | ret code s2 =>
      rw [hb] at hx
      exact hx

/-- A loop whose body only ever returns 1 only ever returns 1. -/
theorem for_each_code {α σ : Type} (body : σ → α → Step σ) (xs : List α)
    (h : ∀ x s, (body s x).code = none ∨ (body s x).code = some 1) (s : σ) :
    (for_each xs body s).code = none ∨ (for_each xs body s).code = some 1 := by
  induction xs generalizing s with
  | nil => simp [for_each, Step.code]
  | cons x rest ih =>
    unfold for_each
    have hx := h x s
    cases hb : body s x with
    | next s2 => exact ih s2
    | ret code s2 =>
      rw [hb] at hx
      simpa [Step.code] using hx

theorem bind_code {σ : Type} (x : Step σ) (f : σ → Step σ)
    (hx : x.code = none ∨ x.code = some 1)
    (hf : ∀ s, (f s).code = none ∨ (f s).code = some 1) :
    (x.bind f).code = none ∨ (x.bind f).code = some 1 := by
  cases x with
  | next s => exact hf s
  | ret code s => simpa [Step.bind] using hx

theorem map_body_code (v : json_object) (i : Nat) (s : init_locals) :
    (map_body v s i).code = none ∨ (map_body v s i).code = some 1 := by
  unfold map_body
  split
  · simp [Step.code]
  · simp only [apply_ite Step.code, Step.code]
    split_ifs <;> simp

theorem mask_body_code (v : json_object) (i : Nat) (s : init_locals) :
    (mask_body v s i).code = none ∨ (mask_body v s i).code = some 1 := by
  unfold mask_body
  split <;> (try split_ifs) <;> simp [Step.code]

theorem init_entry_code (kv : List Char × json_object) (s : init_locals) :
    (init_entry s kv).code = none ∨ (init_entry s kv).code = some 1 := by
  unfold init_entry
  split_ifs <;> first
    | (simp [Step.code]; done)
    | exact bind_code _ _ (for_each_code _ _ (fun i s => map_body_code _ i s) _)
        (fun s => by simp [Step.code])
    | exact bind_code _ _ (for_each_code _ _ (fun i s => mask_body_code _ i s) _)
        (fun s => by simp [Step.code])

theorem init_config_code (self : aylp_device) (w : World) :
    (init_config self w).code = none ∨ (init_config self w).code = some 1 := by
  unfold init_config
  refine bind_code _ _ (for_each_code _ _ (fun kv s => init_entry_code kv s) _) (fun s => ?_)
  split_ifs <;> simp [Step.code]

theorem CHECK_SP_code (s : init_locals) (c : Call) (msg : List Char) :
    (CHECK_SP s c msg).code = none ∨ (CHECK_SP s c msg).code = some 1 := by
  unfold CHECK_SP
  simp only []
  split_ifs <;> simp [Step.code]

theorem init_open_code (s : init_locals) :
    (init_open s).code = none ∨ (init_open s).code = some 1 := by
  unfold init_open
  simp only []
  split_ifs <;> simp [Step.code]

theorem init_settings_code (s : init_locals) :
    (init_settings s).code = none ∨ (init_settings s).code = some 1 := by
  unfold init_settings
  refine bind_code _ _ (CHECK_SP_code _ _ _) (fun s => ?_)
  refine bind_code _ _ (CHECK_SP_code _ _ _) (fun s => ?_)
  refine bind_code _ _ (CHECK_SP_code _ _ _) (fun s => ?_)
  refine bind_code _ _ (CHECK_SP_code _ _ _) (fun s => ?_)
  refine bind_code _ _ (CHECK_SP_code _ _ _) (fun s => ?_)
  exact CHECK_SP_code _ _ _

/-- The return value of init is 0 or 1. -/
theorem init_ret_cases (self : aylp_device) (w : World) :
    (aylp_tl_piezo_init self w).ret = 0 ∨ (aylp_tl_piezo_init self w).ret = 1 := by
  have h : (init_steps self w).code = none ∨ (init_steps self w).code = some 1 :=
    bind_code _ _ (bind_code _ _ (init_config_code self w) init_open_code) init_settings_code
  unfold aylp_tl_piezo_init
  cases hx : init_steps self w with
  | next s => simp
  | ret code s =>
    rw [hx] at h
    simp [Step.code] at h
    simp [h]

/-- When the configuration phase returns, init returns its code and touches neither
`proc` nor `fini` nor the type and unit fields. -/
theorem init_of_config_ret (self : aylp_device) (w : World) (code : Int) (s : init_locals)
    (h : init_config self w = .ret code s) :
    (aylp_tl_piezo_init self w).ret = code ∧
    (aylp_tl_piezo_init self w).self.proc = self.proc ∧
    (aylp_tl_piezo_init self w).self.fini = self.fini ∧
    (aylp_tl_piezo_init self w).self.device_data = s.data ∧
    (aylp_tl_piezo_init self w).w = s.w := by
  unfold aylp_tl_piezo_init init_steps
  rw [h]
  simp [Step.bind]

/-! ## What the configuration phase leaves untouched -/

theorem map_body_frame (s0 : init_locals) (v : json_object) (i : Nat) (s : init_locals)
    (h : frame s0 s) : frame s0 (map_body v s i).state := by
  unfold map_body
  split
  · simpa [Step.state, frame, init_locals.logf, World.logf] using h
  · simp only [apply_ite Step.state, Step.state]
    split_ifs <;> simpa [frame, init_locals.logf, World.logf] using h

theorem mask_body_frame (s0 : init_locals) (v : json_object) (i : Nat) (s : init_locals)
    (h : frame s0 s) : frame s0 (mask_body v s i).state := by
  unfold mask_body
  split
  · simpa [Step.state, frame, init_locals.logf, World.logf] using h
  · simp only [apply_ite Step.state, Step.state]
    split_ifs <;> simpa [frame, init_locals.logf, World.logf] using h

theorem bind_log_state (x : Step init_locals) (f : init_locals → List Char) (lvl : LogLevel)
    (s0 : init_locals) (h : frame s0 x.state) :
    frame s0 (x.bind fun s => .next (s.logf lvl (f s))).state := by
  cases x with
  | next s => simpa [Step.bind, Step.state, frame, init_locals.logf, World.logf] using h
  | ret code s => simpa [Step.bind, Step.state] using h

/-- One configuration entry makes no library call, leaves `data->port` alone, and
can only change the flag of its own key. -/
theorem init_entry_frame (s : init_locals) (kv : List Char × json_object) :
    (init_entry s kv).state.w.rets = s.w.rets ∧
    (init_entry s kv).state.w.trace = s.w.trace ∧
    (init_entry s kv).state.data.port = s.data.port ∧
    (kv.1 ≠ "dev".toList → (init_entry s kv).state.is_dev = s.is_dev) ∧
    (kv.1 ≠ "map".toList → (init_entry s kv).state.is_map = s.is_map) ∧
    (kv.1 ≠ "mask".toList → (init_entry s kv).state.is_mask = s.is_mask) := by
  have hmap := bind_log_state _ (fun s => "map = [".toList ++ fmt_d (s.data.map.get 0) ++
      ", ".toList ++ fmt_d (s.data.map.get 1) ++ ", ".toList ++ fmt_d (s.data.map.get 2) ++
      "]".toList) .trace { s with is_map := true }
    (for_each_invariant (frame { s with is_map := true }) (map_body kv.2)
      (List.range AXIS_COUNT) (fun i _ t ht => map_body_frame _ _ i t ht) _
      ⟨rfl, rfl, rfl, rfl, rfl, rfl, rfl⟩)
  have hmask := bind_log_state _ (fun s => "mask = [".toList ++ fmt_d (s.data.mask.get 0) ++
      ", ".toList ++ fmt_d (s.data.mask.get 1) ++ ", ".toList ++ fmt_d (s.data.mask.get 2) ++
      "]".toList) .trace { s with is_mask := true }
    (for_each_invariant (frame { s with is_mask := true }) (mask_body kv.2)
      (List.range AXIS_COUNT) (fun i _ t ht => mask_body_frame _ _ i t ht) _
      ⟨rfl, rfl, rfl, rfl, rfl, rfl, rfl⟩)
  unfold frame at hmap hmask
  unfold init_entry
  split_ifs with h1 h2 h3 h4 h5 h6 h7 h8 h9 h10 h11 h12
  all_goals first
    | (simp [Step.state, init_locals.logf, World.logf]; done)
    | (simp [Step.state, init_locals.logf, World.logf, h2]; done)
    | (simp [Step.state, init_locals.logf, World.logf, h5]; done)
    | (simp [Step.state, init_locals.logf, World.logf, h9]; done)
    | (simp only [] at hmap ⊢
       refine ⟨hmap.2.2.2.2.1, hmap.2.2.2.2.2.1, hmap.2.2.2.2.2.2, fun _ => hmap.1,
         fun hk => absurd ‹kv.1 = "map".toList› hk, fun _ => hmap.2.2.1⟩)
    | (simp only [] at hmask ⊢
       refine ⟨hmask.2.2.2.2.1, hmask.2.2.2.2.2.1, hmask.2.2.2.2.2.2, fun _ => hmask.1,
         fun _ => hmask.2.1, fun hk => absurd ‹kv.1 = "mask".toList› hk⟩)

/-- The configuration phase makes the single call `xcalloc`, consumes no return value
and leaves `data->port` null. -/
theorem init_config_world (self : aylp_device) (w : World) :
    (init_config self w).state.w.rets = w.rets ∧
    (init_config self w).state.w.trace = w.trace ++ [.xcalloc] ∧
    (init_config self w).state.data.port = none := by
  have h := for_each_invariant
    (fun s : init_locals => s.w.rets = w.rets ∧ s.w.trace = w.trace ++ [.xcalloc] ∧
      s.data.port = none) init_entry self.params
    (fun kv _ s hs => by
      obtain ⟨h1, h2, h3, _⟩ := init_entry_frame s kv
      exact ⟨h1.trans hs.1, h2.trans hs.2.1, h3.trans hs.2.2⟩)
    (init_start w)
    ⟨rfl, rfl, rfl⟩
  unfold init_config
  cases hx : for_each self.params init_entry (init_start w) with
  | next s =>
    rw [hx] at h
    simp only [Step.bind]
    split_ifs <;> simpa [Step.state, init_locals.logf, World.logf] using h
  | ret code s =>
    rw [hx] at h
    simpa [Step.bind] using h

/-- If the configuration loop ends with one of the three flags unset, or returns,
the configuration phase returns 1. -/
theorem init_config_ret_of_flag (self : aylp_device) (w : World)
    (h : ∀ s, for_each self.params init_entry (init_start w) = .next s →
      s.is_dev = false ∨ s.is_map = false ∨ s.is_mask = false) :
    ∃ s, init_config self w = .ret 1 s := by
  have hc := init_config_code self w
  unfold init_config at hc ⊢
  cases hx : for_each self.params init_entry (init_start w) with
  | next s =>
    have hflag := h s hx
    have hcond : (!s.is_dev || !s.is_map || !s.is_mask) = true := by
      rcases hflag with hf | hf | hf <;> simp [hf]
    simp only [Step.bind, hcond, if_true]
    exact ⟨_, rfl⟩
  | ret code s =>
    rw [hx] at hc
    simp [Step.bind, Step.code] at hc
    subst hc
    exact ⟨s, rfl⟩

/-- C6: for every configuration, whatever other keys it holds, in which one of the
keys `dev`, `map`, `mask` never occurs, init returns 1 (nonzero) and leaves `proc`
and `fini` as they were. -/
theorem init_missing_key_fails (self : aylp_device) (w : World) (key : List Char)
    (hkey : key = "dev".toList ∨ key = "map".toList ∨ key = "mask".toList)
    (hmiss : ∀ kv ∈ self.params, kv.1 ≠ key) :
    (aylp_tl_piezo_init self w).ret = 1 ∧ (aylp_tl_piezo_init self w).ret ≠ 0 ∧
    (aylp_tl_piezo_init self w).self.proc = self.proc ∧
    (aylp_tl_piezo_init self w).self.fini = self.fini := by
  have hret : ∃ s, init_config self w = .ret 1 s := by
    apply init_config_ret_of_flag
    intro s hs
    rcases hkey with hk | hk | hk
    · left
      have h := for_each_invariant (fun s : init_locals => s.is_dev = false) init_entry
        self.params (fun kv hkv t ht =>
          ((init_entry_frame t kv).2.2.2.1 (hk ▸ hmiss kv hkv)).trans ht) (init_start w) rfl
      rw [hs] at h
      exact h
    · right; left
      have h := for_each_invariant (fun s : init_locals => s.is_map = false) init_entry
        self.params (fun kv hkv t ht =>
          ((init_entry_frame t kv).2.2.2.2.1 (hk ▸ hmiss kv hkv)).trans ht) (init_start w) rfl
      rw [hs] at h
      exact h
    · right; right
      have h := for_each_invariant (fun s : init_locals => s.is_mask = false) init_entry
        self.params (fun kv hkv t ht =>
          ((init_entry_frame t kv).2.2.2.2.2 (hk ▸ hmiss kv hkv)).trans ht) (init_start w) rfl
      rw [hs] at h
      exact h
  obtain ⟨s, hs⟩ := hret
  obtain ⟨h1, h2, h3, _⟩ := init_of_config_ret self w 1 s hs
  exact ⟨h1, by rw [h1]; decide, h2, h3⟩

/-- A configuration without `mask` is refused although every serial call would succeed. -/
theorem init_missing_key_fails_witness :
    ("mask".toList = "dev".toList ∨ "mask".toList = "map".toList ∨
      "mask".toList = "mask".toList) ∧
    (∀ kv ∈ (fresh_device no_mask_params).params, kv.1 ≠ "mask".toList) ∧
    ((aylp_tl_piezo_init (fresh_device no_mask_params) world_ok).ret = 1 ∧
      (aylp_tl_piezo_init (fresh_device no_mask_params) world_ok).ret ≠ 0 ∧
      (aylp_tl_piezo_init (fresh_device no_mask_params) world_ok).self.proc =
        (fresh_device no_mask_params).proc ∧
      (aylp_tl_piezo_init (fresh_device no_mask_params) world_ok).self.fini =
        (fresh_device no_mask_params).fini) :=
  ⟨by decide, by simp [fresh_device, no_mask_params],
    init_missing_key_fails (fresh_device no_mask_params) world_ok "mask".toList (by decide)
      (by simp [fresh_device, no_mask_params])⟩

/-! ## The first `map` entry -/

/-- A loop that fell through ran its body to the end on every element. -/
theorem for_each_next {α σ : Type} (body : σ → α → Step σ) (xs : List α) (s s2 : σ)
    (h : for_each xs body s = .next s2) : ∀ x ∈ xs, ∃ t t2, body t x = .next t2 := by
  induction xs generalizing s with
  | nil => intro x hx; simp at hx
  | cons y rest ih =>
    unfold for_each at h
    cases hb : body s y with
    | next s3 =>
      rw [hb] at h
      intro x hx
      rcases List.mem_cons.mp hx with hxy | hxr
      · subst hxy
        exact ⟨s, s3, hb⟩
      · exact ih s3 h x hxr
    | ret code s3 =>
      rw [hb] at h
      simp at h

/-- The `map` loop body falls through only on an integer element in [0,2]. -/
theorem map_body_next (elems : List json_object) (s s2 : init_locals) (i : Nat)
    (h : map_body (.array elems) s i = .next s2) :
    ∃ m : Int, elems[i]? = some (.int m) ∧ 0 ≤ m ∧ m ≤ 2 := by
  unfold map_body json_object_array_get_idx at h
  cases he : elems[i]? with
  | none => simp [he] at h
  | some e =>
    cases e with
    | int m =>
      refine ⟨m, rfl, ?_⟩
      simp only [he, json_object_is_type, json_object_get_type, decide_True, Bool.not_true,
        Bool.false_eq_true, if_false] at h
      have hg : (s.data.map.set i (json_object_get_int (.int m))).get i =
          json_object_get_int (.int m) := by
        unfold int3.set int3.get
        split <;> simp
      split_ifs at h with hc
      rw [hg] at hc
      simp only [Bool.or_eq_true, decide_eq_true_eq, not_or, not_lt, ge_iff_le, not_le] at hc
      simp only [json_object_get_int, INT32_MIN, INT32_MAX, AXIS_COUNT] at hc
      split_ifs at hc <;> omega
    | null => simp [he] at h
    | boolean b => simp [he, json_object_is_type, json_object_get_type] at h
    | double d => simp [he, json_object_is_type, json_object_get_type] at h
    | object f => simp [he, json_object_is_type, json_object_get_type] at h
    | array a => simp [he, json_object_is_type, json_object_get_type] at h
    | string t => simp [he, json_object_is_type, json_object_get_type] at h

/-- The `map` loop returns 1 on a 3-element array holding an integer outside [0,2]. -/
theorem map_loop_fails (elems : List json_object) (n : Int) (s : init_locals)
    (hlen : elems.length = AXIS_COUNT) (hmem : json_object.int n ∈ elems)
    (hn : n < 0 ∨ 2 < n) :
    ∃ s2, for_each (List.range AXIS_COUNT) (map_body (.array elems)) s = .ret 1 s2 := by
  have hc := for_each_code (map_body (.array elems)) (List.range AXIS_COUNT)
    (fun i t => map_body_code _ i t) s
  cases hx : for_each (List.range AXIS_COUNT) (map_body (.array elems)) s with
  | ret code s2 =>
    rw [hx] at hc
    simp [Step.code] at hc
    subst hc
    exact ⟨s2, rfl⟩
  | next s2 =>
    exfalso
    obtain ⟨i, hi, hget⟩ := List.mem_iff_getElem.mp hmem
    have hi3 : i ∈ List.range AXIS_COUNT := by
      rw [List.mem_range]; omega
    obtain ⟨t, t2, hb⟩ := for_each_next _ _ _ _ hx i hi3
    obtain ⟨m, hm, h0, h2⟩ := map_body_next elems t t2 i hb
    rw [List.getElem?_eq_getElem hi, hget] at hm
    simp at hm
    omega

/-- An entry `map` met with the flag unset, whose value is an array holding an integer
outside [0,2], makes the loop body return 1. -/
theorem init_entry_bad_map (s : init_locals) (elems : List json_object) (n : Int)
    (hflag : s.is_map = false) (hmem : json_object.int n ∈ elems) (hn : n < 0 ∨ 2 < n) :
    ∃ s2, init_entry s ("map".toList, .array elems) = .ret 1 s2 := by
  unfold init_entry
  have h1 : ¬ ("map".toList.head? = some '_') := by decide
  have h2 : ¬ ("map".toList = "dev".toList) := by decide
  simp only [h1, h2, if_false, if_true, hflag, Bool.false_eq_true, json_object_is_type,
    json_object_get_type, decide_True, Bool.not_true, json_object_array_length]
  by_cases hlen : elems.length = AXIS_COUNT
  · obtain ⟨s2, hs2⟩ := map_loop_fails elems n { s with is_map := true } hlen hmem hn
    simp only [hlen, ne_eq, not_true_eq_false, if_false, hs2, Step.bind]
    exact ⟨s2, rfl⟩
  · simp only [ne_eq, hlen, not_false_eq_true, if_true]
    exact ⟨_, rfl⟩

/-- Once the first `map` entry is such an array the configuration loop returns 1,
whatever comes before or after it. -/
theorem config_loop_bad_map (params : List (List Char × json_object)) (s : init_locals)
    (elems : List json_object) (n : Int) (hflag : s.is_map = false)
    (hlook : params.lookup "map".toList = some (.array elems))
    (hmem : json_object.int n ∈ elems) (hn : n < 0 ∨ 2 < n) :
    ∃ s2, for_each params init_entry s = .ret 1 s2 := by
  induction params generalizing s with
  | nil => simp at hlook
  | cons kv rest ih =>
    obtain ⟨k, v⟩ := kv
    unfold for_each
    by_cases hk : k = "map".toList
    · subst hk
      simp only [List.lookup_cons, beq_self_eq_true, Option.some.injEq] at hlook
      subst hlook
      obtain ⟨s2, hs2⟩ := init_entry_bad_map s elems n hflag hmem hn
      rw [hs2]
      exact ⟨s2, rfl⟩
    · have hne : ("map".toList == k) = false := by
        simpa using fun h => hk h.symm
      simp only [List.lookup_cons, hne] at hlook
      have hc := init_entry_code (k, v) s
      have hf := (init_entry_frame s (k, v)).2.2.2.2.1 hk
      cases hb : init_entry s (k, v) with
      | next s3 =>
        rw [hb] at hf
        exact ih s3 (hf.trans hflag) hlook
      | ret code s3 =>
        rw [hb] at hc
        simp [Step.code] at hc
        subst hc
        exact ⟨s3, rfl⟩

/-- C7: for every configuration in which the value of `map` (its first entry, should
the key repeat) is an array holding an integer outside [0,2], init returns 1
(nonzero), whatever the other entries and the outcome of the serial calls. -/
theorem init_bad_map_fails (self : aylp_device) (w : World) (elems : List json_object)
    (n : Int) (hlook : self.params.lookup "map".toList = some (.array elems))
    (hmem : json_object.int n ∈ elems) (hn : n < 0 ∨ 2 < n) :
    (aylp_tl_piezo_init self w).ret = 1 ∧ (aylp_tl_piezo_init self w).ret ≠ 0 := by
  obtain ⟨s2, hs2⟩ := config_loop_bad_map self.params (init_start w) elems n rfl hlook hmem hn
  have hcfg : init_config self w = .ret 1 s2 := by
    unfold init_config
    rw [hs2]
    rfl
  have h1 := (init_of_config_ret self w 1 s2 hcfg).1
  exact ⟨h1, by rw [h1]; decide⟩

/-- The `map` array `[0, 3, 2]` is refused although every serial call would succeed. -/
theorem init_bad_map_fails_witness :
    (fresh_device bad_map_params).params.lookup "map".toList =
      some (.array [.int 0, .int 3, .int 2]) ∧
    json_object.int 3 ∈ [json_object.int 0, .int 3, .int 2] ∧ ((3 : Int) < 0 ∨ (2 : Int) < 3) ∧
    ((aylp_tl_piezo_init (fresh_device bad_map_params) world_ok).ret = 1 ∧
      (aylp_tl_piezo_init (fresh_device bad_map_params) world_ok).ret ≠ 0) :=
  ⟨rfl, by simp, by decide,
    init_bad_map_fails (fresh_device bad_map_params) world_ok [.int 0, .int 3, .int 2] 3 rfl
      (by simp) (by decide)⟩

/-! ## Well-formed entries fall through -/

theorem map_body_ok (elems : List json_object) (s : init_locals) (i : Nat) (a : Int)
    (he : elems[i]? = some (.int a)) (ha : 0 ≤ a ∧ a ≤ 2) :
    map_body (.array elems) s i =
      .next { s with data := { s.data with map := s.data.map.set i a } } := by
  have hg : json_object_get_int (.int a) = a := by
    simp only [json_object_get_int, INT32_MIN, INT32_MAX]
    split_ifs <;> omega
  have hsg : (s.data.map.set i a).get i = a := by
    unfold int3.set int3.get
    split <;> simp
  have h1 : ¬ (a < 0) := by omega
  have h2 : ¬ ((AXIS_COUNT : Int) ≤ a) := by unfold AXIS_COUNT; omega
  simp [map_body, json_object_array_get_idx, he, json_object_is_type, json_object_get_type, hg,
    hsg, h1, h2]

theorem mask_body_ok (elems : List json_object) (s : init_locals) (i : Nat) (e : json_object)
    (he : elems[i]? = some e) (hbi : is_bool_or_int e = true) :
    mask_body (.array elems) s i =
      .next { s with data := { s.data with mask := s.data.mask.set i (json_object_get_int e) } } := by
  cases e <;> simp [is_bool_or_int] at hbi <;>
    simp [mask_body, json_object_array_get_idx, he, json_object_is_type, json_object_get_type]

theorem init_entry_dev_dup (s : init_locals) (v : json_object) (hf : s.is_dev = true) :
    init_entry s ("dev".toList, v) =
      .next (s.logf .warn "The \"dev\" configuration option appears more than once.".toList) := by
  simp [init_entry, hf]

theorem init_entry_dev_ok (s : init_locals) (d : List Char) (hf : s.is_dev = false) :
    init_entry s ("dev".toList, .string d) = .next { s with is_dev := true, dev := d } := by
  simp [init_entry, hf, json_object_is_type, json_object_get_type, json_object_get_string]

theorem init_entry_map_dup (s : init_locals) (v : json_object) (hf : s.is_map = true) :
    init_entry s ("map".toList, v) =
      .next (s.logf .warn "The \"map\" configuration option appears more than once.".toList) := by
  simp [init_entry, hf]

theorem init_entry_mask_dup (s : init_locals) (v : json_object) (hf : s.is_mask = true) :
    init_entry s ("mask".toList, v) =
      .next (s.logf .warn "The \"mask\" configuration option appears more than once.".toList) := by
  simp [init_entry, hf]

theorem init_entry_unknown (s : init_locals) (k : List Char) (v : json_object)
    (h0 : ¬ k.head? = some '_') (h1 : k ≠ "dev".toList) (h2 : k ≠ "map".toList)
    (h3 : k ≠ "mask".toList) :
    init_entry s (k, v) = .next (s.logf .warn
      ("An unknown configuration option was ignored: \"".toList ++ k ++ "\"".toList)) := by
  unfold init_entry
  dsimp only
  rw [if_neg h0, if_neg h1, if_neg h2, if_neg h3]

/-- One entry falls through, and sets the flag of its key, when its key is none of
the three, or its flag is already set, or its value is well-formed. -/
theorem init_entry_ok (s : init_locals) (k : List Char) (v : json_object)
    (hd : k = "dev".toList → s.is_dev = true ∨ ∃ d, v = .string d)
    (hm : k = "map".toList → s.is_map = true ∨ ∃ a b c : Int,
      v = .array [.int a, .int b, .int c] ∧ (0 ≤ a ∧ a ≤ 2) ∧ (0 ≤ b ∧ b ≤ 2) ∧ (0 ≤ c ∧ c ≤ 2))
    (hk : k = "mask".toList → s.is_mask = true ∨ ∃ x y z : json_object,
      v = .array [x, y, z] ∧ is_bool_or_int x = true ∧ is_bool_or_int y = true ∧
        is_bool_or_int z = true) :
    ∃ s2, init_entry s (k, v) = .next s2 ∧ (k = "dev".toList → s2.is_dev = true) ∧
      (k = "map".toList → s2.is_map = true) ∧ (k = "mask".toList → s2.is_mask = true) := by
  have hr : List.range AXIS_COUNT = [0, 1, 2] := rfl
  by_cases h0 : k.head? = some '_'
  · refine ⟨s, by simp [init_entry, h0], ?_, ?_, ?_⟩ <;>
      · intro h
        subst h
        exact absurd h0 (by decide)
  by_cases h1 : k = "dev".toList
  · subst h1
    rcases hd rfl with hf | ⟨d, hv⟩
    · exact ⟨_, init_entry_dev_dup s v hf, fun _ => by simpa [init_locals.logf] using hf,
        fun h => absurd h (by decide), fun h => absurd h (by decide)⟩
    · subst hv
      cases hf : s.is_dev
      · exact ⟨_, init_entry_dev_ok s d hf,
          fun _ => rfl, fun h => absurd h (by decide), fun h => absurd h (by decide)⟩
      · exact ⟨_, init_entry_dev_dup s _ hf, fun _ => by simpa [init_locals.logf] using hf,
          fun h => absurd h (by decide), fun h => absurd h (by decide)⟩
  by_cases h2 : k = "map".toList
  · subst h2
    have hflag : ∃ s2, init_entry s ("map".toList, v) = .next s2 ∧ s2.is_map = true := by
      cases hf : s.is_map
      · rcases hm rfl with hf2 | ⟨a, b, c, hv, ha, hb, hc⟩
        · rw [hf] at hf2; cases hf2
        · subst hv
          apply Exists.intro
          refine And.intro ?_ ?_
          · simp only [init_entry, hf, hr, for_each, json_object_is_type, json_object_get_type,
              json_object_array_length, AXIS_COUNT]
            rw [map_body_ok _ _ 0 a rfl ha]
            simp only []
            rw [map_body_ok _ _ 1 b rfl hb]
            simp only []
            rw [map_body_ok _ _ 2 c rfl hc]
            simp [Step.bind]
            rfl
          · simp [init_locals.logf]
      · exact ⟨_, init_entry_map_dup s v hf, by simpa [init_locals.logf] using hf⟩
    obtain ⟨s2, hs2, hs3⟩ := hflag
    exact ⟨s2, hs2, fun h => absurd h (by decide), fun _ => hs3, fun h => absurd h (by decide)⟩
  by_cases h3 : k = "mask".toList
  · subst h3
    have hflag : ∃ s2, init_entry s ("mask".toList, v) = .next s2 ∧ s2.is_mask = true := by
      cases hf : s.is_mask
      · rcases hk rfl with hf2 | ⟨x, y, z, hv, hx, hy, hz⟩
        · rw [hf] at hf2; cases hf2
        · subst hv
          apply Exists.intro
          refine And.intro ?_ ?_
          · simp only [init_entry, hf, hr, for_each, json_object_is_type, json_object_get_type,
              json_object_array_length, AXIS_COUNT]
            rw [mask_body_ok _ _ 0 x rfl hx]
            simp only []
            rw [mask_body_ok _ _ 1 y rfl hy]
            simp only []
            rw [mask_body_ok _ _ 2 z rfl hz]
            simp [Step.bind]
            rfl
          · simp [init_locals.logf]
      · exact ⟨_, init_entry_mask_dup s v hf, by simpa [init_locals.logf] using hf⟩
    obtain ⟨s2, hs2, hs3⟩ := hflag
    exact ⟨s2, hs2, fun h => absurd h (by decide), fun h => absurd h (by decide), fun _ => hs3⟩
  exact ⟨_, init_entry_unknown s k v h0 h1 h2 h3, fun h => absurd h h1, fun h => absurd h h2,
    fun h => absurd h h3⟩

/-! ## The serial phase -/

theorem Step.code_none {σ : Type} (x : Step σ) (h : x.code = none) : x = .next x.state := by
  cases x with
  | next s => rfl
  | ret code s => simp [Step.code] at h

theorem Step.code_some {σ : Type} (x : Step σ) (c : Int) (h : x.code = some c) :
    x = .ret c x.state := by
  cases x with
  | next s => simp [Step.code] at h
  | ret code s =>
    simp only [Step.code, Option.some.injEq] at h
    subst h
    rfl

/-- The serial phase when its eight calls succeed. -/
theorem serial_ok (s : init_locals) (h : ∀ i, i < 8 → s.w.rets i = 0) :
    ((init_open s).bind init_settings).code = none ∧
    ((init_open s).bind init_settings).state.data.port = some ⟨s.dev⟩ ∧
    ((init_open s).bind init_settings).state.data.map = s.data.map ∧
    ((init_open s).bind init_settings).state.data.mask = s.data.mask ∧
    ((init_open s).bind init_settings).state.w.trace = s.w.trace ++ serial_calls s.dev := by
  have h0 := h 0 (by decide)
  have h1 := h 1 (by decide)
  have h2 := h 2 (by decide)
  have h3 := h 3 (by decide)
  have h4 := h 4 (by decide)
  have h5 := h 5 (by decide)
  have h6 := h 6 (by decide)
  have h7 := h 7 (by decide)
  simp [init_open, init_settings, CHECK_SP, World.call, World.logf, World.callVoid, Step.bind,
    Step.code, Step.state, serial_calls, SP_OK, h0, h1, h2, h3, h4, h5, h6, h7]

/-- The serial phase when its `k`-th call is the first to fail. -/
theorem serial_fail (s : init_locals) (k : Nat) (hk : k < 8)
    (hok : ∀ i, i < k → s.w.rets i = 0) (hbad : s.w.rets k ≠ 0) :
    ((init_open s).bind init_settings).code = some 1 ∧
    ((init_open s).bind init_settings).state.data.port = none ∧
    ((init_open s).bind init_settings).state.w.trace =
      s.w.trace ++ ((serial_calls s.dev).take (k + 1) ++ cleanup k (some ⟨s.dev⟩)) := by
  have h0 := hok 0
  have h1 := hok 1
  have h2 := hok 2
  have h3 := hok 3
  have h4 := hok 4
  have h5 := hok 5
  have h6 := hok 6
  interval_cases k <;>
    simp_all [init_open, init_settings, CHECK_SP, World.call, World.logf, World.callVoid,
      Step.bind, Step.code, Step.state, serial_calls, cleanup, SP_OK, init_locals.logf]

/-- Either the first `n` library results are all 0, or there is a first nonzero one. -/
theorem first_failure (rets : Nat → Int) (n : Nat) :
    (∀ i, i < n → rets i = 0) ∨ ∃ k, k < n ∧ (∀ i, i < k → rets i = 0) ∧ rets k ≠ 0 := by
  induction n with
  | zero => left; intro i hi; omega
  | succ m ih =>
    rcases ih with hall | ⟨k, hk, hok, hbad⟩
    · by_cases hm : rets m = 0
      · left
        intro i hi
        rcases Nat.lt_succ_iff_lt_or_eq.mp hi with h | h
        · exact hall i h
        · rw [h]; exact hm
      · right
        exact ⟨m, Nat.lt_succ_self m, hall, hm⟩
    · right
      exact ⟨k, Nat.lt_succ_of_lt hk, hok, hbad⟩

/-! ## init in terms of its steps -/

theorem init_ret (self : aylp_device) (w : World) :
    (aylp_tl_piezo_init self w).ret = (init_steps self w).code.getD 0 := by
  unfold aylp_tl_piezo_init
  cases init_steps self w <;> rfl

theorem init_world (self : aylp_device) (w : World) :
    (aylp_tl_piezo_init self w).w = (init_steps self w).state.w := by
  unfold aylp_tl_piezo_init
  cases init_steps self w <;> rfl

theorem init_data (self : aylp_device) (w : World) :
    (aylp_tl_piezo_init self w).self.device_data = (init_steps self w).state.data := by
  unfold aylp_tl_piezo_init
  cases init_steps self w <;> rfl

theorem init_handlers_of_ret (self : aylp_device) (w : World) (c : Int)
    (h : (init_steps self w).code = some c) :
    (aylp_tl_piezo_init self w).self.proc = self.proc ∧
    (aylp_tl_piezo_init self w).self.fini = self.fini := by
  unfold aylp_tl_piezo_init
  rw [Step.code_some _ c h]
  exact ⟨rfl, rfl⟩

theorem init_handlers_of_next (self : aylp_device) (w : World)
    (h : (init_steps self w).code = none) :
    (aylp_tl_piezo_init self w).self.proc = some .aylp_tl_piezo_process ∧
    (aylp_tl_piezo_init self w).self.fini = some .aylp_tl_piezo_close := by
  unfold aylp_tl_piezo_init
  rw [Step.code_none _ h]
  exact ⟨rfl, rfl⟩

/-- When the configuration phase falls through, init continues with the serial phase
from the state it left. -/
theorem init_steps_of_config (self : aylp_device) (w : World)
    (h : (init_config self w).code = none) :
    init_steps self w = (init_open (init_config self w).state).bind init_settings := by
  unfold init_steps
  rw [Step.code_none _ h]
  rfl

theorem init_steps_of_config_ret (self : aylp_device) (w : World) (c : Int)
    (h : (init_config self w).code = some c) :
    init_steps self w = .ret c (init_config self w).state := by
  unfold init_steps
  rw [Step.code_some _ c h]
  rfl

/-! ## A well-formed configuration is accepted -/

theorem lookup_head (k : List Char) (v : json_object) (rest : List (List Char × json_object)) :
    List.lookup k ((k, v) :: rest) = some v := by
  simp [List.lookup_cons]

theorem lookup_tail (key k : List Char) (v : json_object)
    (rest : List (List Char × json_object)) (h : k ≠ key) :
    List.lookup key ((k, v) :: rest) = List.lookup key rest := by
  have hne : (key == k) = false := by simpa using fun h2 => h h2.symm
  simp [List.lookup_cons, hne]

/-- The configuration loop falls through with the three flags set when, for each of
the three keys, the flag is set already or the first entry of that key is well-formed. -/
theorem config_loop_ok (params : List (List Char × json_object)) (s : init_locals)
    (hd : s.is_dev = true ∨ ∃ d, params.lookup "dev".toList = some (.string d))
    (hm : s.is_map = true ∨ ∃ a b c : Int,
      params.lookup "map".toList = some (.array [.int a, .int b, .int c]) ∧
        (0 ≤ a ∧ a ≤ 2) ∧ (0 ≤ b ∧ b ≤ 2) ∧ (0 ≤ c ∧ c ≤ 2))
    (hk : s.is_mask = true ∨ ∃ x y z : json_object,
      params.lookup "mask".toList = some (.array [x, y, z]) ∧ is_bool_or_int x = true ∧
        is_bool_or_int y = true ∧ is_bool_or_int z = true) :
    ∃ s2, for_each params init_entry s = .next s2 ∧ s2.is_dev = true ∧ s2.is_map = true ∧
      s2.is_mask = true := by
  induction params generalizing s with
  | nil =>
    refine ⟨s, rfl, ?_, ?_, ?_⟩
    · rcases hd with h | ⟨d, h⟩
      · exact h
      · simp at h
    · rcases hm with h | ⟨a, b, c, h, _⟩
      · exact h
      · simp at h
    · rcases hk with h | ⟨x, y, z, h, _⟩
      · exact h
      · simp at h
  | cons kv rest ih =>
    obtain ⟨k, v⟩ := kv
    obtain ⟨s2, hs2, hfd, hfm, hfk⟩ := init_entry_ok s k v
      (fun hkey => by
        subst hkey
        rcases hd with h | ⟨d, h⟩
        · exact Or.inl h
        · rw [lookup_head] at h
          exact Or.inr ⟨d, Option.some.inj h⟩)
      (fun hkey => by
        subst hkey
        rcases hm with h | ⟨a, b, c, h, hr⟩
        · exact Or.inl h
        · rw [lookup_head] at h
          exact Or.inr ⟨a, b, c, Option.some.inj h, hr⟩)
      (fun hkey => by
        subst hkey
        rcases hk with h | ⟨x, y, z, h, hr⟩
        · exact Or.inl h
        · rw [lookup_head] at h
          exact Or.inr ⟨x, y, z, Option.some.inj h, hr⟩)
    have hfr := init_entry_frame s (k, v)
    rw [hs2] at hfr
    simp only [Step.state] at hfr
    obtain ⟨_, _, _, hkd, hkm, hkk⟩ := hfr
    have hd2 : s2.is_dev = true ∨ ∃ d, rest.lookup "dev".toList = some (.string d) := by
      by_cases hkey : k = "dev".toList
      · exact Or.inl (hfd hkey)
      · rcases hd with h | ⟨d, h⟩
        · exact Or.inl ((hkd hkey).trans h)
        · rw [lookup_tail _ _ _ _ hkey] at h
          exact Or.inr ⟨d, h⟩
    have hm2 : s2.is_map = true ∨ ∃ a b c : Int,
        rest.lookup "map".toList = some (.array [.int a, .int b, .int c]) ∧
          (0 ≤ a ∧ a ≤ 2) ∧ (0 ≤ b ∧ b ≤ 2) ∧ (0 ≤ c ∧ c ≤ 2) := by
      by_cases hkey : k = "map".toList
      · exact Or.inl (hfm hkey)
      · rcases hm with h | ⟨a, b, c, h, hr⟩
        · exact Or.inl ((hkm hkey).trans h)
        · rw [lookup_tail _ _ _ _ hkey] at h
          exact Or.inr ⟨a, b, c, h, hr⟩
    have hk2 : s2.is_mask = true ∨ ∃ x y z : json_object,
        rest.lookup "mask".toList = some (.array [x, y, z]) ∧ is_bool_or_int x = true ∧
          is_bool_or_int y = true ∧ is_bool_or_int z = true := by
      by_cases hkey : k = "mask".toList
      · exact Or.inl (hfk hkey)
      · rcases hk with h | ⟨x, y, z, h, hr⟩
        · exact Or.inl ((hkk hkey).trans h)
        · rw [lookup_tail _ _ _ _ hkey] at h
          exact Or.inr ⟨x, y, z, h, hr⟩
    obtain ⟨s3, hs3, hflags⟩ := ih s2 hd2 hm2 hk2
    refine ⟨s3, ?_, hflags⟩
    unfold for_each
    rw [hs2]
    exact hs3

/-- C5 as stated fails: `dev` is a resolvable string, every serial call succeeds, `map`
is an array of 3 integers in [0,2] and `mask` is an array of length 3, yet init
returns 1 and wires no handler, because the `mask` elements are strings. -/
theorem init_string_mask_refused :
    string_mask_params.lookup "dev".toList = some (.string "/dev/ttyACM0".toList) ∧
    string_mask_params.lookup "map".toList = some (.array [.int 0, .int 1, .int 2]) ∧
    (∃ elems, string_mask_params.lookup "mask".toList = some (.array elems) ∧
      elems.length = 3) ∧
    (∀ i, world_ok.rets i = 0) ∧
    (aylp_tl_piezo_init (fresh_device string_mask_params) world_ok).ret = 1 ∧
    (aylp_tl_piezo_init (fresh_device string_mask_params) world_ok).self.proc = none ∧
    (aylp_tl_piezo_init (fresh_device string_mask_params) world_ok).self.fini = none :=
  ⟨rfl, rfl, ⟨_, rfl, rfl⟩, fun _ => rfl, by decide, by decide, by decide⟩

/-- C5, amended: for every configuration in which the value of `dev` is a string, the
value of `map` an array of 3 integers each in [0,2] and the value of `mask` an array
of 3 elements each a boolean or an integer (values taken at the first entry of each
key), and with the eight serial calls of init succeeding, init returns 0 and sets
`proc` to `aylp_tl_piezo_process` and `fini` to `aylp_tl_piezo_close`. -/
theorem init_valid_succeeds (self : aylp_device) (w : World) (d : List Char) (a b c : Int)
    (x y z : json_object)
    (hdev : self.params.lookup "dev".toList = some (.string d))
    (hmap : self.params.lookup "map".toList = some (.array [.int a, .int b, .int c]))
    (ha : 0 ≤ a ∧ a ≤ 2) (hb : 0 ≤ b ∧ b ≤ 2) (hc : 0 ≤ c ∧ c ≤ 2)
    (hmask : self.params.lookup "mask".toList = some (.array [x, y, z]))
    (hx : is_bool_or_int x = true) (hy : is_bool_or_int y = true)
    (hz : is_bool_or_int z = true)
    (hser : ∀ i, i < 8 → w.rets i = 0) :
    (aylp_tl_piezo_init self w).ret = 0 ∧
    (aylp_tl_piezo_init self w).self.proc = some .aylp_tl_piezo_process ∧
    (aylp_tl_piezo_init self w).self.fini = some .aylp_tl_piezo_close := by
  obtain ⟨s2, hs2, hf1, hf2, hf3⟩ := config_loop_ok self.params (init_start w)
    (Or.inr ⟨d, hdev⟩) (Or.inr ⟨a, b, c, hmap, ha, hb, hc⟩)
    (Or.inr ⟨x, y, z, hmask, hx, hy, hz⟩)
  have hcfg : init_config self w = .next s2 := by
    unfold init_config
    rw [hs2]
    simp [Step.bind, hf1, hf2, hf3]
  have hcode : (init_config self w).code = none := by rw [hcfg]; rfl
  have hok := serial_ok (init_config self w).state
    (fun i hi => by rw [(init_config_world self w).1]; exact hser i hi)
  have hnext : (init_steps self w).code = none := by
    rw [init_steps_of_config self w hcode]
    exact hok.1
  exact ⟨by rw [init_ret, hnext]; rfl, init_handlers_of_next self w hnext⟩

/-- The configuration of the first scenario, with every serial call succeeding. -/
theorem init_valid_succeeds_witness :
    (fresh_device scenario1_params).params.lookup "dev".toList =
      some (.string "/dev/ttyACM0".toList) ∧
    (fresh_device scenario1_params).params.lookup "map".toList =
      some (.array [.int 0, .int 1, .int 2]) ∧
    (fresh_device scenario1_params).params.lookup "mask".toList =
      some (.array [.boolean true, .boolean true, .boolean false]) ∧
    (∀ i, i < 8 → world_ok.rets i = 0) ∧
    ((aylp_tl_piezo_init (fresh_device scenario1_params) world_ok).ret = 0 ∧
      (aylp_tl_piezo_init (fresh_device scenario1_params) world_ok).self.proc =
        some .aylp_tl_piezo_process ∧
      (aylp_tl_piezo_init (fresh_device scenario1_params) world_ok).self.fini =
        some .aylp_tl_piezo_close) :=
  ⟨rfl, rfl, rfl, fun _ _ => rfl,
    init_valid_succeeds (fresh_device scenario1_params) world_ok "/dev/ttyACM0".toList 0 1 2
      (.boolean true) (.boolean true) (.boolean false) rfl rfl (by decide) (by decide)
      (by decide) rfl rfl rfl rfl (fun _ _ => rfl)⟩

/-! ## Failure of a serial step, and release -/

theorem calls_since_append (w w2 : World) (rest : List Call)
    (h : w2.trace = w.trace ++ rest) : calls_since w w2 = rest := by
  unfold calls_since
  rw [h, List.drop_left]

/-- C9: for every configuration that passes validation, when the `k`-th of the eight
serial calls of init (name lookup, open, baud rate, bits, parity, stop bits, flow
control, flush) is the first to fail, init returns 1, leaves `proc` and `fini` alone,
sets `data->port` to NULL, and its library calls are exactly: the allocation, the
serial calls up to and including the failing one, then the release (nothing after a
failed lookup; a free and no close after a failed open; one close then one free after
a failed setting or flush). -/
theorem init_serial_failure_releases (self : aylp_device) (w : World) (k : Nat)
    (hcfg : (init_config self w).code = none) (hk : k < 8)
    (hok : ∀ i, i < k → w.rets i = 0) (hbad : w.rets k ≠ 0) :
    (aylp_tl_piezo_init self w).ret = 1 ∧
    (aylp_tl_piezo_init self w).self.device_data.port = none ∧
    (aylp_tl_piezo_init self w).self.proc = self.proc ∧
    (aylp_tl_piezo_init self w).self.fini = self.fini ∧
    calls_since w (aylp_tl_piezo_init self w).w =
      .xcalloc :: ((serial_calls (init_config self w).state.dev).take (k + 1) ++
        cleanup k (some ⟨(init_config self w).state.dev⟩)) := by
  obtain ⟨hr, ht, _⟩ := init_config_world self w
  obtain ⟨h1, h2, h3⟩ := serial_fail (init_config self w).state k hk
    (fun i hi => by rw [hr]; exact hok i hi) (by rw [hr]; exact hbad)
  have hsteps := init_steps_of_config self w hcfg
  have hcode : (init_steps self w).code = some 1 := by rw [hsteps]; exact h1
  refine ⟨by rw [init_ret, hcode]; rfl, by rw [init_data, hsteps]; exact h2,
    (init_handlers_of_ret self w 1 hcode).1, (init_handlers_of_ret self w 1 hcode).2, ?_⟩
  apply calls_since_append
  rw [init_world, hsteps, h3, ht]
  simp

/-- The first scenario with the parity call failing: baud rate, bits and parity are
attempted, then one close and one free, and no stop-bits, flow-control or flush call. -/
theorem init_serial_failure_releases_witness :
    (init_config (fresh_device scenario1_params) (world_fail_at 4)).code = none ∧
    (∀ i, i < 4 → (world_fail_at 4).rets i = 0) ∧ (world_fail_at 4).rets 4 ≠ 0 ∧
    ((aylp_tl_piezo_init (fresh_device scenario1_params) (world_fail_at 4)).ret = 1 ∧
      (aylp_tl_piezo_init (fresh_device scenario1_params) (world_fail_at 4)).self.device_data.port
        = none ∧
      (aylp_tl_piezo_init (fresh_device scenario1_params) (world_fail_at 4)).self.proc =
        (fresh_device scenario1_params).proc ∧
      (aylp_tl_piezo_init (fresh_device scenario1_params) (world_fail_at 4)).self.fini =
        (fresh_device scenario1_params).fini ∧
      calls_since (world_fail_at 4)
          (aylp_tl_piezo_init (fresh_device scenario1_params) (world_fail_at 4)).w =
        .xcalloc :: ((serial_calls
            (init_config (fresh_device scenario1_params) (world_fail_at 4)).state.dev).take (4 + 1) ++
          cleanup 4 (some ⟨(init_config (fresh_device scenario1_params)
            (world_fail_at 4)).state.dev⟩))) ∧
    calls_since (world_fail_at 4)
        (aylp_tl_piezo_init (fresh_device scenario1_params) (world_fail_at 4)).w =
      [.xcalloc, .sp_get_port_by_name "/dev/ttyACM0".toList,
        .sp_open (some ⟨"/dev/ttyACM0".toList⟩) .SP_MODE_READ_WRITE,
        .sp_set_baudrate (some ⟨"/dev/ttyACM0".toList⟩) 115200,
        .sp_set_bits (some ⟨"/dev/ttyACM0".toList⟩) 8,
        .sp_set_parity (some ⟨"/dev/ttyACM0".toList⟩) .SP_PARITY_NONE,
        .sp_close (some ⟨"/dev/ttyACM0".toList⟩),
        .sp_free_port (some ⟨"/dev/ttyACM0".toList⟩)] :=
  ⟨by decide, by decide, by decide,
    init_serial_failure_releases (fresh_device scenario1_params) (world_fail_at 4) 4
      (by decide) (by decide) (by decide) (by decide),
    by decide⟩

/-- C10: over a run of init followed by one close on the same data, whatever the
configuration and whichever serial step failed, the port is closed at most once and
freed at most once; when init returned 0, close returns 0, its calls are one
`sp_close` and one `sp_free_port` on the open port followed by the `xfree` of the
data, and the whole run holds exactly one close and one free. -/
theorem init_close_releases_once (self : aylp_device) (w : World) :
    ((calls_since w (init_then_close self w).2).filter is_close).length ≤ 1 ∧
    ((calls_since w (init_then_close self w).2).filter is_free_port).length ≤ 1 ∧
    ((aylp_tl_piezo_init self w).ret = 0 →
      (init_then_close self w).1 = 0 ∧
      (aylp_tl_piezo_init self w).self.device_data.port.isSome = true ∧
      calls_since (aylp_tl_piezo_init self w).w (init_then_close self w).2 =
        [.sp_close (aylp_tl_piezo_init self w).self.device_data.port,
          .sp_free_port (aylp_tl_piezo_init self w).self.device_data.port, .xfree] ∧
      ((calls_since w (init_then_close self w).2).filter is_close).length = 1 ∧
      ((calls_since w (init_then_close self w).2).filter is_free_port).length = 1) := by
  obtain ⟨hr, ht, hp⟩ := init_config_world self w
  have hclose_none : ∀ (d : aylp_tl_piezo_data) (u : World), d.port = none →
      (aylp_tl_piezo_close d u).2.trace = u.trace ++ [.xfree] := by
    intro d u hd
    simp [aylp_tl_piezo_close, hd, World.callVoid]
  rcases init_config_code self w with hc | hc
  · -- the configuration passed
    have hsteps := init_steps_of_config self w hc
    rcases first_failure (init_config self w).state.w.rets 8 with hall | ⟨k, hk, hok, hbad⟩
    · obtain ⟨h1, h2, _, _, h5⟩ := serial_ok (init_config self w).state hall
      have hcode : (init_steps self w).code = none := by rw [hsteps]; exact h1
      have hport : (aylp_tl_piezo_init self w).self.device_data.port =
          some ⟨(init_config self w).state.dev⟩ := by rw [init_data, hsteps]; exact h2
      have htr : (aylp_tl_piezo_init self w).w.trace =
          w.trace ++ (.xcalloc :: serial_calls (init_config self w).state.dev) := by
        rw [init_world, hsteps, h5, ht]; simp
      have hcl : (init_then_close self w).2.trace = (aylp_tl_piezo_init self w).w.trace ++
          [.sp_close (aylp_tl_piezo_init self w).self.device_data.port,
            .sp_free_port (aylp_tl_piezo_init self w).self.device_data.port, .xfree] := by
        simp [init_then_close, aylp_tl_piezo_close, hport, World.callVoid, World.call]
      have hall2 : calls_since w (init_then_close self w).2 =
          (.xcalloc :: serial_calls (init_config self w).state.dev) ++
          [.sp_close (aylp_tl_piezo_init self w).self.device_data.port,
            .sp_free_port (aylp_tl_piezo_init self w).self.device_data.port, .xfree] := by
        apply calls_since_append
        rw [hcl, htr, List.append_assoc]
      have hc1 : ((calls_since w (init_then_close self w).2).filter is_close).length = 1 := by
        rw [hall2]; simp [serial_calls, is_close]
      have hc2 :
          ((calls_since w (init_then_close self w).2).filter is_free_port).length = 1 := by
        rw [hall2]; simp [serial_calls, is_free_port]
      refine ⟨by omega, by omega, fun _ => ⟨rfl, by rw [hport]; rfl, ?_, hc1, hc2⟩⟩
      exact calls_since_append _ _ _ hcl
    · obtain ⟨h1, h2, h3⟩ := serial_fail (init_config self w).state k hk hok hbad
      have hcode : (init_steps self w).code = some 1 := by rw [hsteps]; exact h1
      have hport : (aylp_tl_piezo_init self w).self.device_data.port = none := by
        rw [init_data, hsteps]; exact h2
      have hall2 : calls_since w (init_then_close self w).2 =
          .xcalloc :: ((serial_calls (init_config self w).state.dev).take (k + 1) ++
            cleanup k (some ⟨(init_config self w).state.dev⟩)) ++ [.xfree] := by
        apply calls_since_append
        unfold init_then_close
        rw [hclose_none _ _ hport, init_world, hsteps, h3, ht]
        simp
      have hret : (aylp_tl_piezo_init self w).ret = 1 := by rw [init_ret, hcode]; rfl
      refine ⟨?_, ?_, fun h0 => by rw [hret] at h0; cases h0⟩
      · rw [hall2]
        interval_cases k <;> simp [serial_calls, cleanup, is_close]
      · rw [hall2]
        interval_cases k <;> simp [serial_calls, cleanup, is_free_port]
  · -- the configuration was refused
    have hsteps := init_steps_of_config_ret self w 1 hc
    have hport : (aylp_tl_piezo_init self w).self.device_data.port = none := by
      rw [init_data, hsteps]; exact hp
    have hall2 : calls_since w (init_then_close self w).2 = [.xcalloc, .xfree] := by
      apply calls_since_append
      unfold init_then_close
      have hst : (Step.ret (1 : Int) (init_config self w).state).state =
          (init_config self w).state := rfl
      rw [hclose_none _ _ hport, init_world, hsteps, hst, ht]
      simp
    have hret : (aylp_tl_piezo_init self w).ret = 1 := by rw [init_ret, hsteps]; rfl
    refine ⟨?_, ?_, fun h0 => by rw [hret] at h0; cases h0⟩
    · rw [hall2]; simp [is_close]
    · rw [hall2]; simp [is_free_port]

/-- The first scenario with every serial call succeeding: init returns 0 and the run
ends with one close, one free and the `xfree` of the data. -/
theorem init_close_releases_once_witness :
    (aylp_tl_piezo_init (fresh_device scenario1_params) world_ok).ret = 0 ∧
    (((calls_since world_ok (init_then_close (fresh_device scenario1_params) world_ok).2).filter
        is_close).length ≤ 1 ∧
      ((calls_since world_ok (init_then_close (fresh_device scenario1_params) world_ok).2).filter
        is_free_port).length ≤ 1 ∧
      ((aylp_tl_piezo_init (fresh_device scenario1_params) world_ok).ret = 0 →
        (init_then_close (fresh_device scenario1_params) world_ok).1 = 0 ∧
        (aylp_tl_piezo_init (fresh_device scenario1_params) world_ok).self.device_data.port.isSome
          = true ∧
        calls_since (aylp_tl_piezo_init (fresh_device scenario1_params) world_ok).w
            (init_then_close (fresh_device scenario1_params) world_ok).2 =
          [.sp_close (aylp_tl_piezo_init (fresh_device scenario1_params) world_ok).self.device_data.port,
            .sp_free_port
              (aylp_tl_piezo_init (fresh_device scenario1_params) world_ok).self.device_data.port,
            .xfree] ∧
        ((calls_since world_ok (init_then_close (fresh_device scenario1_params) world_ok).2).filter
          is_close).length = 1 ∧
        ((calls_since world_ok (init_then_close (fresh_device scenario1_params) world_ok).2).filter
          is_free_port).length = 1)) ∧
    calls_since (aylp_tl_piezo_init (fresh_device scenario1_params) world_ok).w
        (init_then_close (fresh_device scenario1_params) world_ok).2 =
      [.sp_close (some ⟨"/dev/ttyACM0".toList⟩), .sp_free_port (some ⟨"/dev/ttyACM0".toList⟩),
        .xfree] :=
  ⟨by decide, init_close_releases_once (fresh_device scenario1_params) world_ok, by decide⟩

/-! ## The calls of one tick do not depend on their results -/

theorem axis_calls_all_writes (data : aylp_tl_piezo_data) (state : aylp_state) (A : Nat) :
    (axis_calls data state A).length ≤ 1 ∧
    ∀ c ∈ axis_calls data state A, is_write c = true := by
  unfold axis_calls
  split_ifs <;> simp [is_write]

/-- C16: for every device state and input vector there is one list of writes, at most
one per axis, such that for every world (every return value of every serial call) the
library calls of the tick are exactly these writes followed by one `sp_drain` and then
one `sp_flush` of the input buffer: a failed write or drain stops nothing. -/
theorem process_calls_independent (data : aylp_tl_piezo_data) (state : aylp_state) :
    ∃ writes : List Call, writes.length ≤ 3 ∧ (∀ c ∈ writes, is_write c = true) ∧
      ∀ w : World, calls_since w (aylp_tl_piezo_process data state w).2 =
        writes ++ [.sp_drain data.port, .sp_flush data.port .SP_BUF_INPUT] := by
  refine ⟨axis_calls data state AXIS_X ++ axis_calls data state AXIS_Y ++
    axis_calls data state AXIS_Z, ?_, ?_, fun w => process_trace data state w⟩
  · have hx := (axis_calls_all_writes data state AXIS_X).1
    have hy := (axis_calls_all_writes data state AXIS_Y).1
    have hz := (axis_calls_all_writes data state AXIS_Z).1
    simp only [List.length_append]
    omega
  · intro c hc
    simp only [List.mem_append] at hc
    rcases hc with (hc | hc) | hc
    · exact (axis_calls_all_writes data state AXIS_X).2 c hc
    · exact (axis_calls_all_writes data state AXIS_Y).2 c hc
    · exact (axis_calls_all_writes data state AXIS_Z).2 c hc

/-! ## The command fits the buffer -/

theorem in_range_neg_zero (m : Nat) (e : Int) (h : in_range (.finite true m e) = true) :
    m = 0 := by
  rw [in_range_finite_iff] at h
  have h0 := h.1
  simp only [F64.value, if_true] at h0
  have hp : (0 : ℚ) < (2 : ℚ) ^ e := zpow_pos (by norm_num) _
  have hm : (0 : ℚ) ≤ (m : ℚ) := Nat.cast_nonneg m
  by_contra hne
  have hmpos : (0 : ℚ) < (m : ℚ) := by
    have : 0 < m := Nat.pos_of_ne_zero hne
    exact_mod_cast this
  have : (-1 : ℚ) * (m : ℚ) * (2 : ℚ) ^ e < 0 := by
    have := mul_pos hmpos hp
    linarith
  linarith

/-- A voltage that passes the range check prints in at most 6 characters. -/
theorem fmt_2f_length_le_six (v : F64) (h : in_range v = true) : (fmt_2f v).length ≤ 6 := by
  cases v with
  | nan neg => rw [(in_range_not_finite neg).2] at h; cases h
  | inf neg => rw [(in_range_not_finite neg).1] at h; cases h
  | finite neg m e =>
    cases neg with
    | true =>
      have hm := in_range_neg_zero m e h
      subst hm
      simp [fmt_2f, fmt_sign, round_hundredths_zero]
      decide
    | false =>
      have h1 : F64.le (.finite false m e) (F64.ofNat V_MAX) = true := by
        unfold in_range at h
        rw [Bool.and_eq_true] at h
        exact h.2
      have hb := round_hundredths_le m e h1
      have hd := toDigits_length_le (round_hundredths m e / 100) (by omega)
      simp [fmt_2f, fmt_sign]
      omega

theorem command_length_le (A : Nat) (v : F64) (h : in_range v = true) :
    (command A v).length ≤ 17 := by
  have hl := fmt_2f_length_le_six v h
  simp [command]
  omega

/-- C19: for every voltage that passes `0 <= v <= 150` and every axis, the command is
at most 17 characters long, so with its terminator it fits the `LEN_CMD_BUF` buffer
and `snprintf` leaves it whole; and every text a tick writes is such a whole command
for an in-range voltage. -/
theorem command_fits_buffer (A : Nat) (v : F64) (h : in_range v = true) :
    (command A v).length ≤ 17 ∧ (command A v).length + 1 ≤ LEN_CMD_BUF ∧
    snprintf LEN_CMD_BUF (command A v) = command A v ∧
    ∀ (data : aylp_tl_piezo_data) (state : aylp_state) (w : World),
      ∀ text ∈ written (calls_since w (aylp_tl_piezo_process data state w).2),
        ∃ B u, in_range u = true ∧ text = command B u ∧ text.length ≤ 17 := by
  have hl := command_length_le A v h
  refine ⟨hl, by unfold LEN_CMD_BUF; omega, snprintf_command A v h, ?_⟩
  intro data state w text ht
  rw [written_process] at ht
  have hB : ∀ B, text ∈ axis_text data state B →
      ∃ B u, in_range u = true ∧ text = command B u ∧ text.length ≤ 17 := by
    intro B hmem
    unfold axis_text at hmem
    split_ifs at hmem with hc
    · simp only [List.mem_singleton] at hmem
      subst hmem
      exact ⟨B, _, hc.2, rfl, command_length_le B _ hc.2⟩
    · simp at hmem
  simp only [List.mem_append] at ht
  rcases ht with (ht | ht) | ht
  · exact hB _ ht
  · exact hB _ ht
  · exact hB _ ht

/-- The largest command, 150 V on X, is 17 characters and is written whole. -/
theorem command_fits_buffer_witness :
    in_range (volts 150) = true ∧
    ((command AXIS_X (volts 150)).length ≤ 17 ∧
      (command AXIS_X (volts 150)).length + 1 ≤ LEN_CMD_BUF ∧
      snprintf LEN_CMD_BUF (command AXIS_X (volts 150)) = command AXIS_X (volts 150) ∧
      ∀ (data : aylp_tl_piezo_data) (state : aylp_state) (w : World),
        ∀ text ∈ written (calls_since w (aylp_tl_piezo_process data state w).2),
          ∃ B u, in_range u = true ∧ text = command B u ∧ text.length ≤ 17) ∧
    command AXIS_X (volts 150) = "xvoltage=150.00\r\n".toList ∧
    (command AXIS_X (volts 150)).length = 17 :=
  ⟨by decide, command_fits_buffer AXIS_X (volts 150) (by decide), by decide, by decide⟩

/-! ## The text of a command -/

theorem fmt_2f_finite (neg : Bool) (m : Nat) (e : Int) :
    fmt_2f (.finite neg m e) = fmt_sign neg ++ decimal_2 (round_hundredths m e) := by
  have hd : round_hundredths m e % 100 / 10 = round_hundredths m e / 10 % 10 := by omega
  simp only [fmt_2f, decimal_2, hd, List.append_assoc]
  rfl

theorem axis_calls_filter_other (data : aylp_tl_piezo_data) (state : aylp_state) (A B : Nat)
    (hne : axis_letter B ≠ axis_letter A) :
    (axis_calls data state B).filter (is_write_for A) = [] := by
  unfold axis_calls
  split_ifs with hc
  · rw [snprintf_command B _ hc.2]
    simp [is_write_for, command, hne]
  · simp

/-- C11: for every enabled axis A with `map[A]` in [0,2] whose input voltage is the
finite double `(-1)^neg * m * 2^e` with exact value in [0,150], the one write of the
tick for A passes the text: the letter of A, `voltage=`, the sign bit's minus (set
only on negative zero), the voltage rounded to the nearest hundredth and printed with
exactly two digits after the decimal point, then CR LF; the byte count passed is the
length of that text. -/
theorem process_write_format (data : aylp_tl_piezo_data) (state : aylp_state) (w : World)
    (A : Nat) (hA : A < AXIS_COUNT) (hmask : data.mask.get A ≠ 0)
    (hmap : 0 ≤ data.map.get A ∧ data.map.get A ≤ 2) (neg : Bool) (m : Nat) (e : Int)
    (hv : gsl_vector_get state.vector (data.map.get A).toNat = .finite neg m e)
    (h0 : 0 ≤ F64.value neg m e) (h150 : F64.value neg m e ≤ 150) :
    (calls_since w (aylp_tl_piezo_process data state w).2).filter (is_write_for A) =
      [.sp_blocking_write data.port
        (axis_letter A :: ("voltage=".toList ++ fmt_sign neg ++
          decimal_2 (round_hundredths m e) ++ "\r\n".toList))
        (axis_letter A :: ("voltage=".toList ++ fmt_sign neg ++
          decimal_2 (round_hundredths m e) ++ "\r\n".toList)).length 0] ∧
    |(round_hundredths m e : ℚ) - 100 * ((m : ℚ) * (2 : ℚ) ^ e)| ≤ 1 / 2 ∧
    (neg = true → m = 0) := by
  have hr : in_range (.finite neg m e) = true := (in_range_finite_iff neg m e).mpr ⟨h0, h150⟩
  have hres : resolved data state A = .finite neg m e := by
    rw [resolved_of_valid data state A hmap, hv]
  have hself : (axis_calls data state A).filter (is_write_for A) =
      [.sp_blocking_write data.port
        (axis_letter A :: ("voltage=".toList ++ fmt_sign neg ++
          decimal_2 (round_hundredths m e) ++ "\r\n".toList))
        (axis_letter A :: ("voltage=".toList ++ fmt_sign neg ++
          decimal_2 (round_hundredths m e) ++ "\r\n".toList)).length 0] := by
    unfold axis_calls
    rw [hres, if_pos ⟨hmask, hr⟩, snprintf_command A _ hr]
    simp [is_write_for, command, fmt_2f_finite, strlen]
  refine ⟨?_, round_hundredths_nearest m e, fun hn => ?_⟩
  · rw [process_trace]
    simp only [List.filter_append]
    have htail : List.filter (is_write_for A)
        [Call.sp_drain data.port, Call.sp_flush data.port sp_buffer.SP_BUF_INPUT] = [] := by
      simp [is_write_for]
    rw [htail]
    unfold AXIS_COUNT at hA
    interval_cases A
    · rw [show AXIS_X = 0 from rfl, hself,
        axis_calls_filter_other data state 0 AXIS_Y (by decide),
        axis_calls_filter_other data state 0 AXIS_Z (by decide)]
      rfl
    · rw [show AXIS_Y = 1 from rfl, hself,
        axis_calls_filter_other data state 1 AXIS_X (by decide),
        axis_calls_filter_other data state 1 AXIS_Z (by decide)]
      rfl
    · rw [show AXIS_Z = 2 from rfl, hself,
        axis_calls_filter_other data state 2 AXIS_X (by decide),
        axis_calls_filter_other data state 2 AXIS_Y (by decide)]
      rfl
  · subst hn
    exact in_range_neg_zero m e hr

/-- The example of the specification: 75.0 V on X is written as `xvoltage=75.00`
with CR LF, 16 bytes. -/
theorem process_write_format_witness :
    (AXIS_X < AXIS_COUNT ∧ x_only_data.mask.get AXIS_X ≠ 0 ∧
      (0 ≤ x_only_data.map.get AXIS_X ∧ x_only_data.map.get AXIS_X ≤ 2) ∧
      gsl_vector_get state_75.vector (x_only_data.map.get AXIS_X).toNat = .finite false 75 0 ∧
      0 ≤ F64.value false 75 0 ∧ F64.value false 75 0 ≤ 150) ∧
    ((calls_since world_fail (aylp_tl_piezo_process x_only_data state_75 world_fail).2).filter
        (is_write_for AXIS_X) =
      [.sp_blocking_write x_only_data.port
        (axis_letter AXIS_X :: ("voltage=".toList ++ fmt_sign false ++
          decimal_2 (round_hundredths 75 0) ++ "\r\n".toList))
        (axis_letter AXIS_X :: ("voltage=".toList ++ fmt_sign false ++
          decimal_2 (round_hundredths 75 0) ++ "\r\n".toList)).length 0] ∧
      |(round_hundredths 75 0 : ℚ) - 100 * (((75 : Nat) : ℚ) * (2 : ℚ) ^ (0 : Int))| ≤ 1 / 2 ∧
      (false = true → 75 = 0)) ∧
    (calls_since world_fail (aylp_tl_piezo_process x_only_data state_75 world_fail).2).filter
        (is_write_for AXIS_X) =
      [.sp_blocking_write (some ⟨"/dev/ttyACM0".toList⟩) "xvoltage=75.00\r\n".toList 16 0] :=
  ⟨⟨by decide, by decide, by decide, by decide, by norm_num [F64.value],
      by norm_num [F64.value]⟩,
    process_write_format x_only_data state_75 world_fail AXIS_X (by decide) (by decide)
      (by decide) false 75 0 (by decide) (by norm_num [F64.value]) (by norm_num [F64.value]),
    by decide⟩

/-! ## The log of one tick -/

theorem process_axis_x_log (data : aylp_tl_piezo_data) (state : aylp_state) (w : World) :
    (process_axis_x data state (F64.ofNat 0) w).1 = shown data state AXIS_X ∧
    (process_axis_x data state (F64.ofNat 0) w).2.log =
      w.log ++ axis_log data state AXIS_X (w.rets 0) ∧
    (process_axis_x data state (F64.ofNat 0) w).2.rets =
      fun i => w.rets (i + (axis_calls data state AXIS_X).length) := by
  refine ⟨?_, ?_, ?_⟩
  · unfold process_axis_x shown resolved
    by_cases hm : data.mask.get AXIS_X = 0
    · simp [hm]
    · simp only [ne_eq, hm, not_false_eq_true, if_true]
      split_ifs <;> rfl
  · unfold process_axis_x axis_log resolved in_range
    by_cases hm : data.mask.get AXIS_X = 0
    · simp [hm]
    · simp only [ne_eq, hm, not_false_eq_true, if_true, Bool.and_eq_true]
      split_ifs <;>
        simp_all [World.call, World.logf, axis_name, AXIS_X, AXIS_Y, AXIS_Z] <;> omega
  · unfold process_axis_x axis_calls resolved in_range
    by_cases hm : data.mask.get AXIS_X = 0
    · simp [hm]
    · simp only [ne_eq, hm, not_false_eq_true, if_true, true_and, Bool.and_eq_true]
      split_ifs <;> simp_all [World.call, World.logf, AXIS_X, AXIS_Y, AXIS_Z]

theorem process_axis_y_log (data : aylp_tl_piezo_data) (state : aylp_state) (w : World) :
    (process_axis_y data state (F64.ofNat 0) w).1 = shown data state AXIS_Y ∧
    (process_axis_y data state (F64.ofNat 0) w).2.log =
      w.log ++ axis_log data state AXIS_Y (w.rets 0) ∧
    (process_axis_y data state (F64.ofNat 0) w).2.rets =
      fun i => w.rets (i + (axis_calls data state AXIS_Y).length) := by
  refine ⟨?_, ?_, ?_⟩
  · unfold process_axis_y shown resolved
    by_cases hm : data.mask.get AXIS_Y = 0
    · simp [hm]
    · simp only [ne_eq, hm, not_false_eq_true, if_true]
      split_ifs <;> rfl
  · unfold process_axis_y axis_log resolved in_range
    by_cases hm : data.mask.get AXIS_Y = 0
    · simp [hm]
    · simp only [ne_eq, hm, not_false_eq_true, if_true, Bool.and_eq_true]
      split_ifs <;>
        simp_all [World.call, World.logf, axis_name, AXIS_X, AXIS_Y, AXIS_Z] <;> omega
  · unfold process_axis_y axis_calls resolved in_range
    by_cases hm : data.mask.get AXIS_Y = 0
    · simp [hm]
    · simp only [ne_eq, hm, not_false_eq_true, if_true, true_and, Bool.and_eq_true]
      split_ifs <;> simp_all [World.call, World.logf, AXIS_X, AXIS_Y, AXIS_Z]

theorem process_axis_z_log (data : aylp_tl_piezo_data) (state : aylp_state) (w : World) :
    (process_axis_z data state (F64.ofNat 0) w).1 = shown data state AXIS_Z ∧
    (process_axis_z data state (F64.ofNat 0) w).2.log =
      w.log ++ axis_log data state AXIS_Z (w.rets 0) ∧
    (process_axis_z data state (F64.ofNat 0) w).2.rets =
      fun i => w.rets (i + (axis_calls data state AXIS_Z).length) := by
  refine ⟨?_, ?_, ?_⟩
  · unfold process_axis_z shown resolved
    by_cases hm : data.mask.get AXIS_Z = 0
    · simp [hm]
    · simp only [ne_eq, hm, not_false_eq_true, if_true]
      split_ifs <;> rfl
  · unfold process_axis_z axis_log resolved in_range
    by_cases hm : data.mask.get AXIS_Z = 0
    · simp [hm]
    · simp only [ne_eq, hm, not_false_eq_true, if_true, Bool.and_eq_true]
      split_ifs <;>
        simp_all [World.call, World.logf, axis_name, AXIS_X, AXIS_Y, AXIS_Z] <;> omega
  · unfold process_axis_z axis_calls resolved in_range
    by_cases hm : data.mask.get AXIS_Z = 0
    · simp [hm]
    · simp only [ne_eq, hm, not_false_eq_true, if_true, true_and, Bool.and_eq_true]
      split_ifs <;> simp_all [World.call, World.logf, AXIS_X, AXIS_Y, AXIS_Z]

theorem process_finish_log (data : aylp_tl_piezo_data) (v_x v_y v_z : F64) (w : World) :
    (process_finish data v_x v_y v_z w).2.log =
      w.log ++ (.info, snprintf LEN_CMD_BUF (log_line v_x v_y v_z)) ::
        tail_log (w.rets 0) (w.rets 1) := by
  unfold process_finish tail_log log_line
  simp only [World.call, World.logf]
  split_ifs <;> simp_all

theorem axis_text_length (data : aylp_tl_piezo_data) (state : aylp_state) (A : Nat) :
    (axis_text data state A).length = (axis_calls data state A).length := by
  unfold axis_text axis_calls
  split_ifs <;> rfl

/-- The number of writes of one tick. -/
theorem written_length (data : aylp_tl_piezo_data) (state : aylp_state) (w : World) :
    (written (calls_since w (aylp_tl_piezo_process data state w).2)).length =
      (axis_calls data state AXIS_X).length + (axis_calls data state AXIS_Y).length +
        (axis_calls data state AXIS_Z).length := by
  rw [written_process]
  simp only [List.length_append, axis_text_length]

/-- The log calls of one tick, in order: the errors of the three blocks, the aggregate
line, then the errors of drain and flush. The `k`-th library call of the tick returns
`w.rets k`; the drain is the call after the writes. -/
theorem process_log_explicit (data : aylp_tl_piezo_data) (state : aylp_state) (w : World) :
    log_since w (aylp_tl_piezo_process data state w).2 =
      axis_log data state AXIS_X (w.rets 0) ++
        axis_log data state AXIS_Y (w.rets (axis_calls data state AXIS_X).length) ++
        axis_log data state AXIS_Z (w.rets ((axis_calls data state AXIS_X).length +
          (axis_calls data state AXIS_Y).length)) ++
        (.info, snprintf LEN_CMD_BUF (log_line (shown data state AXIS_X)
          (shown data state AXIS_Y) (shown data state AXIS_Z))) ::
          tail_log
            (w.rets (written (calls_since w (aylp_tl_piezo_process data state w).2)).length)
            (w.rets ((written
              (calls_since w (aylp_tl_piezo_process data state w).2)).length + 1)) := by
  obtain ⟨hx1, hx2, hx3⟩ := process_axis_x_log data state w
  obtain ⟨hy1, hy2, hy3⟩ := process_axis_y_log data state
    (process_axis_x data state (F64.ofNat 0) w).2
  obtain ⟨hz1, hz2, hz3⟩ := process_axis_z_log data state
    (process_axis_y data state (F64.ofNat 0) (process_axis_x data state (F64.ofNat 0) w).2).2
  have hf := process_finish_log data
    (process_axis_x data state (F64.ofNat 0) w).1
    (process_axis_y data state (F64.ofNat 0) (process_axis_x data state (F64.ofNat 0) w).2).1
    (process_axis_z data state (F64.ofNat 0)
      (process_axis_y data state (F64.ofNat 0) (process_axis_x data state (F64.ofNat 0) w).2).2).1
    (process_axis_z data state (F64.ofNat 0)
      (process_axis_y data state (F64.ofNat 0) (process_axis_x data state (F64.ofNat 0) w).2).2).2
  rw [written_length]
  unfold log_since aylp_tl_piezo_process
  simp only []
  rw [hf, hz2, hz3, hy2, hy3, hx2, hx3, hx1, hy1, hz1]
  simp only [List.append_assoc, List.drop_left, Nat.zero_add]
  have e1 : (axis_calls data state AXIS_Y).length + (axis_calls data state AXIS_X).length =
      (axis_calls data state AXIS_X).length + (axis_calls data state AXIS_Y).length := by omega
  have e2 : (axis_calls data state AXIS_Z).length + (axis_calls data state AXIS_Y).length +
      (axis_calls data state AXIS_X).length =
      (axis_calls data state AXIS_X).length + (axis_calls data state AXIS_Y).length +
        (axis_calls data state AXIS_Z).length := by omega
  have e3 : 1 + (axis_calls data state AXIS_Z).length + (axis_calls data state AXIS_Y).length +
      (axis_calls data state AXIS_X).length =
      (axis_calls data state AXIS_X).length + (axis_calls data state AXIS_Y).length +
        (axis_calls data state AXIS_Z).length + 1 := by omega
  rw [e1, e2, e3]

/-- The log calls of one tick: the errors of the three blocks, the aggregate line,
then the errors of drain and flush. -/
theorem process_log (data : aylp_tl_piezo_data) (state : aylp_state) (w : World) :
    ∃ r1 r2 r3 rd rf, log_since w (aylp_tl_piezo_process data state w).2 =
      axis_log data state AXIS_X r1 ++ axis_log data state AXIS_Y r2 ++
        axis_log data state AXIS_Z r3 ++
        (.info, snprintf LEN_CMD_BUF (log_line (shown data state AXIS_X)
          (shown data state AXIS_Y) (shown data state AXIS_Z))) :: tail_log rd rf :=
  ⟨_, _, _, _, _, process_log_explicit data state w⟩

theorem axis_log_error (data : aylp_tl_piezo_data) (state : aylp_state) (A : Nat) (r : Int) :
    ∀ e ∈ axis_log data state A r, e.1 = .error := by
  intro e he
  unfold axis_log at he
  split_ifs at he <;>
    simp only [List.append_nil, List.nil_append, List.mem_append, List.mem_singleton,
      List.not_mem_nil, or_false, false_or] at he <;>
    first
    | rw [he]
    | (rcases he with h | h <;> rw [h])

theorem tail_log_error (rd rf : Int) : ∀ e ∈ tail_log rd rf, e.1 = .error := by
  intro e he
  unfold tail_log at he
  split_ifs at he <;>
    simp only [List.append_nil, List.nil_append, List.mem_append, List.mem_singleton,
      List.not_mem_nil, or_false, false_or] at he <;>
    first
    | rw [he]
    | (rcases he with h | h <;> rw [h])

theorem starts_with_append (p r : List Char) : starts_with p (p ++ r) = true := by
  simp [starts_with]

theorem axis_log_kind (data : aylp_tl_piezo_data) (state : aylp_state) (A : Nat) (r : Int) :
    ∀ e ∈ axis_log data state A r,
      starts_with "An invalid axis index was given: ".toList e.2 = true ∨
        starts_with "An error occurred while writing the ".toList e.2 = true ∨
        starts_with "An invalid voltage was provided for the ".toList e.2 = true := by
  intro e he
  unfold axis_log at he
  split_ifs at he <;>
    simp only [List.append_nil, List.nil_append, List.mem_append, List.mem_singleton,
      List.not_mem_nil, or_false, false_or] at he <;>
    first
    | (rw [he]; first
        | exact Or.inl (starts_with_append _ _)
        | exact Or.inr (Or.inl (starts_with_append _ _))
        | exact Or.inr (Or.inr (starts_with_append _ _)))
    | (rcases he with h | h <;> rw [h] <;> first
        | exact Or.inl (starts_with_append _ _)
        | exact Or.inr (Or.inl (starts_with_append _ _))
        | exact Or.inr (Or.inr (starts_with_append _ _)))

theorem axis_log_invalid_mem (data : aylp_tl_piezo_data) (state : aylp_state) (A : Nat)
    (r : Int) (hmask : data.mask.get A ≠ 0)
    (hmap : ¬ (0 ≤ data.map.get A ∧ data.map.get A ≤ 2)) :
    (LogLevel.error, "An invalid axis index was given: ".toList ++ fmt_d (data.map.get A)) ∈
      axis_log data state A r := by
  unfold axis_log
  rw [if_pos hmask, if_neg hmap]
  exact List.mem_append_left _ (List.mem_singleton.mpr rfl)

theorem axis_log_filter_info (data : aylp_tl_piezo_data) (state : aylp_state) (A : Nat)
    (r : Int) : (axis_log data state A r).filter is_info = [] := by
  rw [List.filter_eq_nil_iff]
  intro e he
  simp [is_info, axis_log_error data state A r e he]

theorem tail_log_filter_info (rd rf : Int) : (tail_log rd rf).filter is_info = [] := by
  rw [List.filter_eq_nil_iff]
  intro e he
  simp [is_info, tail_log_error rd rf e he]

theorem shown_cases (data : aylp_tl_piezo_data) (state : aylp_state) (A : Nat) :
    shown data state A =
      if data.mask.get A = 0 then F64.ofNat 0
      else if 0 ≤ data.map.get A ∧ data.map.get A ≤ 2 then
        gsl_vector_get state.vector (data.map.get A).toNat
      else F64.ofNat 0 := by
  unfold shown
  by_cases hm : data.mask.get A = 0
  · simp [hm]
  · by_cases hv : 0 ≤ data.map.get A ∧ data.map.get A ≤ 2
    · simp [hm, hv, resolved_of_valid data state A hv]
    · simp only [ne_eq, hm, not_false_eq_true, if_true, if_false, hv]
      exact resolved_of_invalid data state A hv

theorem log_line_fits (v_x v_y v_z : F64) (hx : in_range v_x = true) (hy : in_range v_y = true)
    (hz : in_range v_z = true) :
    snprintf LEN_CMD_BUF (log_line v_x v_y v_z) = log_line v_x v_y v_z := by
  have h1 := fmt_2f_length_le_six v_x hx
  have h2 := fmt_2f_length_le_six v_y hy
  have h3 := fmt_2f_length_le_six v_z hz
  unfold snprintf
  apply List.take_of_length_le
  simp [log_line, LEN_CMD_BUF]
  omega

/-- C18 as stated fails: with all axes enabled and input `[-1, 151, 75]` the one
informational line shows -1.00 and 151.00 for the two out-of-range axes, not 0; and
with the input `2^200` on X the line is cut to the 63 characters the buffer holds,
before any `yvoltage`. -/
theorem process_log_shows_out_of_range :
    (log_since world_ok
        (aylp_tl_piezo_process all_axes_data out_of_range_state world_ok).2).filter is_info =
      [(.info, "xvoltage=-1.00 yvoltage=151.00 zvoltage=75.00".toList)] ∧
    (log_since world_ok
        (aylp_tl_piezo_process all_axes_data out_of_range_state world_ok).2).filter is_info ≠
      [(.info, "xvoltage=0.00 yvoltage=0.00 zvoltage=75.00".toList)] ∧
    (log_since world_ok
        (aylp_tl_piezo_process x_only_data huge_state world_ok).2).filter is_info =
      [(.info, "xvoltage=160693804425899027554196209234116260252220299378279283".toList)] := by
  decide

/-- C18, amended: for every device state, input vector and outcome of the serial
calls, the log entries of one tick are, in this order: the errors of the X block, of
the Y block and of the Z block (each of them error-level: an invalid axis index, a
failed write or an invalid voltage), then one informational line, then the drain
error when `sp_drain` did not return `SP_OK`, then the flush error when `sp_flush`
did not return 0; drain and flush are the two library calls after the writes of the
tick. The informational line is the only one of the tick: the text `xvoltage=<vx>
yvoltage=<vy> zvoltage=<vz>` with two decimals each, cut to the 63 characters that
fit the `LEN_CMD_BUF` buffer, where the value shown for an axis is 0 when the axis is
masked or its mapping is out of range, and the mapped input value otherwise, also
when that value lies outside [0,150]. When the three shown values are in [0,150] the
line is whole. -/
theorem process_log_line (data : aylp_tl_piezo_data) (state : aylp_state) (w : World) :
    (log_since w (aylp_tl_piezo_process data state w).2).filter is_info =
      [(.info, snprintf LEN_CMD_BUF (log_line (shown data state AXIS_X)
        (shown data state AXIS_Y) (shown data state AXIS_Z)))] ∧
    (log_since w (aylp_tl_piezo_process data state w).2 =
      (axis_log data state AXIS_X (w.rets 0) ++
        axis_log data state AXIS_Y (w.rets (axis_calls data state AXIS_X).length) ++
        axis_log data state AXIS_Z (w.rets ((axis_calls data state AXIS_X).length +
          (axis_calls data state AXIS_Y).length))) ++
      (.info, snprintf LEN_CMD_BUF (log_line (shown data state AXIS_X)
        (shown data state AXIS_Y) (shown data state AXIS_Z))) ::
      ((if w.rets (written (calls_since w (aylp_tl_piezo_process data state w).2)).length
            ≠ SP_OK then
          [(.error, "An error occurred while draining the output buffer.".toList)]
        else []) ++
       (if w.rets ((written (calls_since w (aylp_tl_piezo_process data state w).2)).length
            + 1) ≠ 0 then
          [(.error, "An error occurred while flushing the input buffer.".toList)]
        else [])) ∧
      ∀ A r, ∀ e ∈ axis_log data state A r, e.1 = .error ∧
        (starts_with "An invalid axis index was given: ".toList e.2 = true ∨
          starts_with "An error occurred while writing the ".toList e.2 = true ∨
          starts_with "An invalid voltage was provided for the ".toList e.2 = true)) ∧
    (∀ A, shown data state A =
      if data.mask.get A = 0 then F64.ofNat 0
      else if 0 ≤ data.map.get A ∧ data.map.get A ≤ 2 then
        gsl_vector_get state.vector (data.map.get A).toNat
      else F64.ofNat 0) ∧
    (in_range (shown data state AXIS_X) = true → in_range (shown data state AXIS_Y) = true →
      in_range (shown data state AXIS_Z) = true →
      snprintf LEN_CMD_BUF (log_line (shown data state AXIS_X) (shown data state AXIS_Y)
          (shown data state AXIS_Z)) =
        log_line (shown data state AXIS_X) (shown data state AXIS_Y)
          (shown data state AXIS_Z)) := by
  have hlog := process_log_explicit data state w
  refine ⟨?_, ⟨?_, fun A r e he => ⟨axis_log_error data state A r e he,
    axis_log_kind data state A r e he⟩⟩, shown_cases data state, log_line_fits _ _ _⟩
  · rw [hlog]
    simp only [List.filter_append, List.filter_cons, axis_log_filter_info,
      tail_log_filter_info, List.nil_append]
    simp [is_info]
  · rw [hlog]
    rfl

/-! ## An enabled axis with an invalid mapping -/

/-- C4, amended: for every enabled axis A whose `map[A]` is none of 0, 1, 2, and for
every input vector and outcome of the serial calls, the tick logs the error
`An invalid axis index was given: <map[A]>` and writes exactly one text beginning
with the letter of A, the command for the voltage 0, `<letter>voltage=0.00` followed
by CR LF. -/
theorem process_bad_map_default (data : aylp_tl_piezo_data) (state : aylp_state) (w : World)
    (A : Nat) (hA : A < AXIS_COUNT) (hmask : data.mask.get A ≠ 0)
    (hmap : ¬ (0 ≤ data.map.get A ∧ data.map.get A ≤ 2)) :
    (written (calls_since w (aylp_tl_piezo_process data state w).2)).filter
        (fun text => decide (text.head? = some (axis_letter A))) =
      [axis_letter A :: "voltage=0.00\r\n".toList] ∧
    (LogLevel.error, "An invalid axis index was given: ".toList ++ fmt_d (data.map.get A)) ∈
      log_since w (aylp_tl_piezo_process data state w).2 := by
  have hone : axis_text data state A = [axis_letter A :: "voltage=0.00\r\n".toList] := by
    unfold axis_text
    rw [resolved_of_invalid data state A hmap]
    have hr : in_range (F64.ofNat 0) = true := by decide
    rw [if_pos ⟨hmask, hr⟩]
    have hf : fmt_2f (F64.ofNat 0) = "0.00".toList := by decide
    simp [command, hf]
  have hself : (axis_text data state A).filter
      (fun text => decide (text.head? = some (axis_letter A))) =
      [axis_letter A :: "voltage=0.00\r\n".toList] := by
    rw [hone]
    simp
  have hmem := fun r => axis_log_invalid_mem data state A r hmask hmap
  refine ⟨?_, ?_⟩
  · rw [written_process, List.filter_append, List.filter_append]
    unfold AXIS_COUNT at hA
    interval_cases A
    · rw [show AXIS_X = 0 from rfl, hself,
        axis_text_filter_other data state 0 AXIS_Y (by decide),
        axis_text_filter_other data state 0 AXIS_Z (by decide)]
      rfl
    · rw [show AXIS_Y = 1 from rfl, hself,
        axis_text_filter_other data state 1 AXIS_X (by decide),
        axis_text_filter_other data state 1 AXIS_Z (by decide)]
      rfl
    · rw [show AXIS_Z = 2 from rfl, hself,
        axis_text_filter_other data state 2 AXIS_X (by decide),
        axis_text_filter_other data state 2 AXIS_Y (by decide)]
      rfl
  · rw [process_log_explicit data state w]
    unfold AXIS_COUNT at hA
    interval_cases A
    · exact List.mem_append_left _ (List.mem_append_left _ (List.mem_append_left _ (hmem _)))
    · exact List.mem_append_left _ (List.mem_append_left _ (List.mem_append_right _ (hmem _)))
    · exact List.mem_append_left _ (List.mem_append_right _ (hmem _))

/-- With X enabled and `map[X] = 3`, the one text for X is the zero command and the
index 3 is logged as invalid, whatever the input vector holds and also when every
serial call fails. -/
theorem process_bad_map_default_witness :
    AXIS_X < AXIS_COUNT ∧ bad_map_data.mask.get AXIS_X ≠ 0 ∧
    ¬ (0 ≤ bad_map_data.map.get AXIS_X ∧ bad_map_data.map.get AXIS_X ≤ 2) ∧
    ((written (calls_since world_fail
        (aylp_tl_piezo_process bad_map_data scenario2_state world_fail).2)).filter
        (fun text => decide (text.head? = some (axis_letter AXIS_X))) =
      [axis_letter AXIS_X :: "voltage=0.00\r\n".toList] ∧
    (LogLevel.error, "An invalid axis index was given: 3".toList) ∈
      log_since world_fail
        (aylp_tl_piezo_process bad_map_data scenario2_state world_fail).2) ∧
    log_since world_fail (aylp_tl_piezo_process bad_map_data scenario2_state world_fail).2 =
      [(.error, "An invalid axis index was given: 3".toList),
       (.error, "An error occurred while writing the X voltage to the piezo controller.".toList),
       (.info, "xvoltage=0.00 yvoltage=0.00 zvoltage=0.00".toList),
       (.error, "An error occurred while draining the output buffer.".toList),
       (.error, "An error occurred while flushing the input buffer.".toList)] :=
  ⟨by decide, by decide, by decide,
    process_bad_map_default bad_map_data scenario2_state world_fail AXIS_X (by decide)
      (by decide) (by decide), by decide⟩

/-! ## What an entry that falls through has read -/

theorem for_each_cons_next {α σ : Type} (body : σ → α → Step σ) (x : α) (xs : List α)
    (s s2 : σ) (h : for_each (x :: xs) body s = .next s2) :
    ∃ t, body s x = .next t ∧ for_each xs body t = .next s2 := by
  unfold for_each at h
  cases hb : body s x with
  | next t =>
    rw [hb] at h
    exact ⟨t, rfl, h⟩
  | ret code t =>
    rw [hb] at h
    cases h

theorem bind_next {σ : Type} (x : Step σ) (f : σ → Step σ) (s2 : σ)
    (h : x.bind f = .next s2) : ∃ t, x = .next t ∧ f t = .next s2 := by
  cases x with
  | next t => exact ⟨t, rfl, h⟩
  | ret code t => cases h

/-- The `map` loop body falls through only on an integer in [0,2], which it stores. -/
theorem map_body_next_state (elems : List json_object) (s s2 : init_locals) (i : Nat)
    (h : map_body (.array elems) s i = .next s2) :
    ∃ m : Int, elems[i]? = some (.int m) ∧ (0 ≤ m ∧ m ≤ 2) ∧
      s2 = { s with data := { s.data with map := s.data.map.set i m } } := by
  obtain ⟨m, hm, h0, h2⟩ := map_body_next elems s s2 i h
  rw [map_body_ok elems s i m hm ⟨h0, h2⟩] at h
  exact ⟨m, hm, ⟨h0, h2⟩, (Step.next.inj h).symm⟩

/-- The `mask` loop body falls through only on a boolean or an integer, whose
conversion it stores. -/
theorem mask_body_next_state (elems : List json_object) (s s2 : init_locals) (i : Nat)
    (h : mask_body (.array elems) s i = .next s2) :
    ∃ e, elems[i]? = some e ∧ is_bool_or_int e = true ∧
      s2 = { s with data := { s.data with mask := s.data.mask.set i (json_object_get_int e) } } := by
  cases he : elems[i]? with
  | none => simp [mask_body, json_object_array_get_idx, he] at h
  | some e =>
    have hbi : is_bool_or_int e = true := by
      cases e <;>
        simp [mask_body, json_object_array_get_idx, he, json_object_is_type,
          json_object_get_type, is_bool_or_int] at h ⊢
    rw [mask_body_ok elems s i e he hbi] at h
    exact ⟨e, rfl, hbi, (Step.next.inj h).symm⟩

/-- An entry `dev` met with the flag unset falls through only on a string, which
becomes the device name. -/
theorem init_entry_dev_next (s s1 : init_locals) (v : json_object) (hf : s.is_dev = false)
    (h : init_entry s ("dev".toList, v) = .next s1) :
    ∃ d, v = .string d ∧ s1 = { s with is_dev := true, dev := d } := by
  cases v with
  | string d =>
    rw [init_entry_dev_ok s d hf] at h
    exact ⟨d, rfl, (Step.next.inj h).symm⟩
  | null => simp [init_entry, hf, json_object_is_type, json_object_get_type] at h
  | boolean b => simp [init_entry, hf, json_object_is_type, json_object_get_type] at h
  | double d => simp [init_entry, hf, json_object_is_type, json_object_get_type] at h
  | int i => simp [init_entry, hf, json_object_is_type, json_object_get_type] at h
  | object f => simp [init_entry, hf, json_object_is_type, json_object_get_type] at h
  | array a => simp [init_entry, hf, json_object_is_type, json_object_get_type] at h

theorem init_entry_map_shape (s s1 : init_locals) (v : json_object) (hf : s.is_map = false)
    (h : init_entry s ("map".toList, v) = .next s1) :
    ∃ x y z, v = .array [x, y, z] ∧
      ∃ t msg, for_each [0, 1, 2] (map_body (.array [x, y, z])) { s with is_map := true } =
          .next t ∧ s1 = t.logf .trace msg := by
  have hr : List.range AXIS_COUNT = [0, 1, 2] := rfl
  cases v with
  | array elems =>
    by_cases hlen : elems.length = AXIS_COUNT
    · obtain ⟨x, y, z, hxyz⟩ := List.length_eq_three.mp hlen
      subst hxyz
      refine ⟨x, y, z, rfl, ?_⟩
      simp only [init_entry, hf, hr, json_object_is_type, json_object_get_type,
        json_object_array_length, AXIS_COUNT] at h
      simp at h
      obtain ⟨t, ht, hs1⟩ := bind_next _ _ _ h
      exact ⟨t, _, ht, (Step.next.inj hs1).symm⟩
    · simp [init_entry, hf, json_object_is_type, json_object_get_type,
        json_object_array_length, hlen] at h
  | null => simp [init_entry, hf, json_object_is_type, json_object_get_type] at h
  | boolean b => simp [init_entry, hf, json_object_is_type, json_object_get_type] at h
  | double d => simp [init_entry, hf, json_object_is_type, json_object_get_type] at h
  | int i => simp [init_entry, hf, json_object_is_type, json_object_get_type] at h
  | object f => simp [init_entry, hf, json_object_is_type, json_object_get_type] at h
  | string a => simp [init_entry, hf, json_object_is_type, json_object_get_type] at h

theorem init_entry_mask_shape (s s1 : init_locals) (v : json_object) (hf : s.is_mask = false)
    (h : init_entry s ("mask".toList, v) = .next s1) :
    ∃ x y z, v = .array [x, y, z] ∧
      ∃ t msg, for_each [0, 1, 2] (mask_body (.array [x, y, z])) { s with is_mask := true } =
          .next t ∧ s1 = t.logf .trace msg := by
  have hr : List.range AXIS_COUNT = [0, 1, 2] := rfl
  cases v with
  | array elems =>
    by_cases hlen : elems.length = AXIS_COUNT
    · obtain ⟨x, y, z, hxyz⟩ := List.length_eq_three.mp hlen
      subst hxyz
      refine ⟨x, y, z, rfl, ?_⟩
      simp only [init_entry, hf, hr, json_object_is_type, json_object_get_type,
        json_object_array_length, AXIS_COUNT] at h
      simp at h
      obtain ⟨t, ht, hs1⟩ := bind_next _ _ _ h
      exact ⟨t, _, ht, (Step.next.inj hs1).symm⟩
    · simp [init_entry, hf, json_object_is_type, json_object_get_type,
        json_object_array_length, hlen] at h
  | null => simp [init_entry, hf, json_object_is_type, json_object_get_type] at h
  | boolean b => simp [init_entry, hf, json_object_is_type, json_object_get_type] at h
  | double d => simp [init_entry, hf, json_object_is_type, json_object_get_type] at h
  | int i => simp [init_entry, hf, json_object_is_type, json_object_get_type] at h
  | object f => simp [init_entry, hf, json_object_is_type, json_object_get_type] at h
  | string a => simp [init_entry, hf, json_object_is_type, json_object_get_type] at h

/-- An entry `map` met with the flag unset falls through only on an array of exactly
three integers each in [0,2], which become `data->map`. -/
theorem init_entry_map_next (s s1 : init_locals) (v : json_object) (hf : s.is_map = false)
    (h : init_entry s ("map".toList, v) = .next s1) :
    ∃ a b c : Int, v = .array [.int a, .int b, .int c] ∧
      (0 ≤ a ∧ a ≤ 2) ∧ (0 ≤ b ∧ b ≤ 2) ∧ (0 ≤ c ∧ c ≤ 2) ∧
      s1.is_map = true ∧ s1.data.map = ⟨a, b, c⟩ := by
  obtain ⟨x, y, z, hv, t, msg, ht, hs1⟩ := init_entry_map_shape s s1 v hf h
  obtain ⟨t0, hb0, ht⟩ := for_each_cons_next _ _ _ _ _ ht
  obtain ⟨t1, hb1, ht⟩ := for_each_cons_next _ _ _ _ _ ht
  obtain ⟨t2, hb2, ht⟩ := for_each_cons_next _ _ _ _ _ ht
  obtain ⟨a, ha, har, hs0⟩ := map_body_next_state _ _ _ _ hb0
  obtain ⟨b, hb, hbr, hs1b⟩ := map_body_next_state _ _ _ _ hb1
  obtain ⟨c, hc, hcr, hs2⟩ := map_body_next_state _ _ _ _ hb2
  simp only [List.getElem?_cons_zero, List.getElem?_cons_succ, Option.some.injEq] at ha hb hc
  subst ha hb hc
  have ht2 : t = t2 := (Step.next.inj ht).symm
  subst hv
  refine ⟨a, b, c, rfl, har, hbr, hcr, ?_, ?_⟩
  · rw [hs1, ht2, hs2, hs1b, hs0]
    rfl
  · rw [hs1, ht2, hs2, hs1b, hs0]
    simp [init_locals.logf, int3.set]

/-- An entry `mask` met with the flag unset falls through only on an array of exactly
three elements each a boolean or an integer, whose conversions become `data->mask`. -/
theorem init_entry_mask_next (s s1 : init_locals) (v : json_object) (hf : s.is_mask = false)
    (h : init_entry s ("mask".toList, v) = .next s1) :
    ∃ x y z : json_object, v = .array [x, y, z] ∧
      is_bool_or_int x = true ∧ is_bool_or_int y = true ∧ is_bool_or_int z = true ∧
      s1.is_mask = true ∧
      s1.data.mask = ⟨json_object_get_int x, json_object_get_int y, json_object_get_int z⟩ := by
  obtain ⟨x, y, z, hv, t, msg, ht, hs1⟩ := init_entry_mask_shape s s1 v hf h
  obtain ⟨t0, hb0, ht⟩ := for_each_cons_next _ _ _ _ _ ht
  obtain ⟨t1, hb1, ht⟩ := for_each_cons_next _ _ _ _ _ ht
  obtain ⟨t2, hb2, ht⟩ := for_each_cons_next _ _ _ _ _ ht
  obtain ⟨a, ha, har, hs0⟩ := mask_body_next_state _ _ _ _ hb0
  obtain ⟨b, hb, hbr, hs1b⟩ := mask_body_next_state _ _ _ _ hb1
  obtain ⟨c, hc, hcr, hs2⟩ := mask_body_next_state _ _ _ _ hb2
  simp only [List.getElem?_cons_zero, List.getElem?_cons_succ, Option.some.injEq] at ha hb hc
  subst ha hb hc
  have ht2 : t = t2 := (Step.next.inj ht).symm
  subst hv
  refine ⟨_, _, _, rfl, har, hbr, hcr, ?_, ?_⟩
  · rw [hs1, ht2, hs2, hs1b, hs0]
    rfl
  · rw [hs1, ht2, hs2, hs1b, hs0]
    simp [init_locals.logf, int3.set]

/-! ## Fields an entry leaves alone -/

theorem bind_log_invariant (P : init_locals → Prop)
    (hP : ∀ t lvl msg, P t → P (t.logf lvl msg)) (x : Step init_locals)
    (f : init_locals → List Char) (lvl : LogLevel) (h : P x.state) :
    P (x.bind fun s => .next (s.logf lvl (f s))).state := by
  cases x with
  | next s => exact hP s lvl (f s) h
  | ret code s => exact h

theorem map_body_mask (v : json_object) (s : init_locals) (i : Nat) :
    (map_body v s i).state.data.mask = s.data.mask := by
  unfold map_body
  split
  · rfl
  · simp only [apply_ite Step.state, Step.state]
    split_ifs <;> rfl

theorem mask_body_map (v : json_object) (s : init_locals) (i : Nat) :
    (mask_body v s i).state.data.map = s.data.map := by
  unfold mask_body
  split
  · rfl
  · simp only [apply_ite Step.state, Step.state]
    split_ifs <;> rfl

/-- The `map` loop with its trace line keeps the flags, the device name and
`data->mask`. -/
theorem map_loop_keeps (v : json_object) (s : init_locals) (f : init_locals → List Char) :
    frame s ((for_each (List.range AXIS_COUNT) (map_body v) s).bind
      fun t => .next (t.logf .trace (f t))).state ∧
    ((for_each (List.range AXIS_COUNT) (map_body v) s).bind
      fun t => .next (t.logf .trace (f t))).state.data.mask = s.data.mask := by
  refine bind_log_invariant (fun t => frame s t ∧ t.data.mask = s.data.mask)
    (fun t lvl msg ht => ht) _ f .trace ?_
  exact for_each_invariant (fun t => frame s t ∧ t.data.mask = s.data.mask) (map_body v)
    (List.range AXIS_COUNT)
    (fun i _ t ht => ⟨map_body_frame s v i t ht.1, (map_body_mask v t i).trans ht.2⟩) s
    ⟨⟨rfl, rfl, rfl, rfl, rfl, rfl, rfl⟩, rfl⟩

/-- The `mask` loop with its trace line keeps the flags, the device name and
`data->map`. -/
theorem mask_loop_keeps (v : json_object) (s : init_locals) (f : init_locals → List Char) :
    frame s ((for_each (List.range AXIS_COUNT) (mask_body v) s).bind
      fun t => .next (t.logf .trace (f t))).state ∧
    ((for_each (List.range AXIS_COUNT) (mask_body v) s).bind
      fun t => .next (t.logf .trace (f t))).state.data.map = s.data.map := by
  refine bind_log_invariant (fun t => frame s t ∧ t.data.map = s.data.map)
    (fun t lvl msg ht => ht) _ f .trace ?_
  exact for_each_invariant (fun t => frame s t ∧ t.data.map = s.data.map) (mask_body v)
    (List.range AXIS_COUNT)
    (fun i _ t ht => ⟨mask_body_frame s v i t ht.1, (mask_body_map v t i).trans ht.2⟩) s
    ⟨⟨rfl, rfl, rfl, rfl, rfl, rfl, rfl⟩, rfl⟩

/-- One configuration entry changes the device name, `data->map` or `data->mask` only
when it is the first entry of that key, and never unsets a flag. -/
theorem init_entry_fields (s : init_locals) (kv : List Char × json_object) :
    ((kv.1 ≠ "dev".toList ∨ s.is_dev = true) → (init_entry s kv).state.dev = s.dev) ∧
    ((kv.1 ≠ "map".toList ∨ s.is_map = true) →
      (init_entry s kv).state.data.map = s.data.map) ∧
    ((kv.1 ≠ "mask".toList ∨ s.is_mask = true) →
      (init_entry s kv).state.data.mask = s.data.mask) ∧
    (s.is_dev = true → (init_entry s kv).state.is_dev = true) ∧
    (s.is_map = true → (init_entry s kv).state.is_map = true) ∧
    (s.is_mask = true → (init_entry s kv).state.is_mask = true) := by
  obtain ⟨k, v⟩ := kv
  have hfr := init_entry_frame s (k, v)
  by_cases h0 : k.head? = some '_'
  · have he : init_entry s (k, v) = .next s := by simp [init_entry, h0]
    rw [he]
    simp [Step.state]
  by_cases h1 : k = "dev".toList
  · subst h1
    have hm2 : "dev".toList ≠ "map".toList := by decide
    have hm3 : "dev".toList ≠ "mask".toList := by decide
    by_cases hf : s.is_dev = true
    · rw [init_entry_dev_dup s v hf]
      simp [Step.state, init_locals.logf, hf]
    · have hf2 : s.is_dev = false := by simpa using hf
      have hst : (init_entry s ("dev".toList, v)).state.data = s.data ∧
          (init_entry s ("dev".toList, v)).state.is_dev = true := by
        simp only [init_entry, h0, if_false, if_true, hf2, Bool.false_eq_true]
        simp only [apply_ite Step.state, Step.state]
        split_ifs <;> simp [init_locals.logf]
      refine ⟨?_, ?_, ?_, ?_, ?_, ?_⟩
      · intro h
        rcases h with h | h
        · exact absurd rfl h
        · exact absurd h hf
      · intro _; rw [hst.1]
      · intro _; rw [hst.1]
      · intro _; exact hst.2
      · intro h; exact (hfr.2.2.2.2.1 hm2).trans h
      · intro h; exact (hfr.2.2.2.2.2 hm3).trans h
  by_cases h2 : k = "map".toList
  · subst h2
    have hm3 : "map".toList ≠ "mask".toList := by decide
    by_cases hf : s.is_map = true
    · rw [init_entry_map_dup s v hf]
      simp [Step.state, init_locals.logf, hf]
    · have hf2 : s.is_map = false := by simpa using hf
      have hk := map_loop_keeps v { s with is_map := true }
        (fun s => "map = [".toList ++ fmt_d (s.data.map.get 0) ++ ", ".toList ++
          fmt_d (s.data.map.get 1) ++ ", ".toList ++ fmt_d (s.data.map.get 2) ++ "]".toList)
      have hst : (init_entry s ("map".toList, v)).state.dev = s.dev ∧
          (init_entry s ("map".toList, v)).state.data.mask = s.data.mask ∧
          (init_entry s ("map".toList, v)).state.is_map = true := by
        simp only [init_entry, h0, h1, if_false, if_true, hf2, Bool.false_eq_true]
        simp only [apply_ite Step.state, Step.state]
        split_ifs <;> first
          | (simp [init_locals.logf]; done)
          | exact ⟨hk.1.2.2.2.1, hk.2, hk.1.2.1⟩
      refine ⟨?_, ?_, ?_, ?_, ?_, ?_⟩
      · intro _; exact hst.1
      · intro h
        rcases h with h | h
        · exact absurd rfl h
        · exact absurd h hf
      · intro _; exact hst.2.1
      · intro h; exact (hfr.2.2.2.1 h1).trans h
      · intro _; exact hst.2.2
      · intro h; exact (hfr.2.2.2.2.2 hm3).trans h
  by_cases h3 : k = "mask".toList
  · subst h3
    by_cases hf : s.is_mask = true
    · rw [init_entry_mask_dup s v hf]
      simp [Step.state, init_locals.logf, hf]
    · have hf2 : s.is_mask = false := by simpa using hf
      have hk := mask_loop_keeps v { s with is_mask := true }
        (fun s => "mask = [".toList ++ fmt_d (s.data.mask.get 0) ++ ", ".toList ++
          fmt_d (s.data.mask.get 1) ++ ", ".toList ++ fmt_d (s.data.mask.get 2) ++ "]".toList)
      have hst : (init_entry s ("mask".toList, v)).state.dev = s.dev ∧
          (init_entry s ("mask".toList, v)).state.data.map = s.data.map ∧
          (init_entry s ("mask".toList, v)).state.is_mask = true := by
        simp only [init_entry, h0, h1, h2, if_false, if_true, hf2, Bool.false_eq_true]
        simp only [apply_ite Step.state, Step.state]
        split_ifs <;> first
          | (simp [init_locals.logf]; done)
          | exact ⟨hk.1.2.2.2.1, hk.2, hk.1.2.2.1⟩
      refine ⟨?_, ?_, ?_, ?_, ?_, ?_⟩
      · intro _; exact hst.1
      · intro _; exact hst.2.1
      · intro h
        rcases h with h | h
        · exact absurd rfl h
        · exact absurd h hf
      · intro h; exact (hfr.2.2.2.1 h1).trans h
      · intro h; exact (hfr.2.2.2.2.1 h2).trans h
      · intro _; exact hst.2.2
  rw [init_entry_unknown s k v h0 h1 h2 h3]
  simp [Step.state, init_locals.logf]

/-! ## What the configuration loop has read when it falls through -/

theorem init_entry_next_state (s s1 : init_locals) (kv : List Char × json_object)
    (h : init_entry s kv = .next s1) : (init_entry s kv).state = s1 := by
  rw [h]
  rfl

/-- The device name after the loop is the string of the first `dev` entry. -/
theorem config_loop_dev (params : List (List Char × json_object)) (s s2 : init_locals)
    (h : for_each params init_entry s = .next s2) :
    (s.is_dev = true → s2.is_dev = true ∧ s2.dev = s.dev) ∧
    (s.is_dev = false → s2.is_dev = true →
      ∃ d, params.lookup "dev".toList = some (.string d) ∧ s2.dev = d) := by
  induction params generalizing s with
  | nil =>
    have hs : s2 = s := (Step.next.inj h).symm
    subst hs
    exact ⟨fun hf => ⟨hf, rfl⟩, fun hf ht => by rw [hf] at ht; cases ht⟩
  | cons kv rest ih =>
    obtain ⟨k, v⟩ := kv
    obtain ⟨s1, he, hrest⟩ := for_each_cons_next _ _ _ _ _ h
    have hst := init_entry_next_state s s1 (k, v) he
    have hfld := init_entry_fields s (k, v)
    have hfr := init_entry_frame s (k, v)
    rw [hst] at hfld hfr
    obtain ⟨ih1, ih2⟩ := ih s1 hrest
    refine ⟨fun hf => ?_, fun hf ht => ?_⟩
    · obtain ⟨h1, h2⟩ := ih1 (hfld.2.2.2.1 hf)
      exact ⟨h1, h2.trans (hfld.1 (Or.inr hf))⟩
    · by_cases hk : k = "dev".toList
      · subst hk
        obtain ⟨d, hv, hs1⟩ := init_entry_dev_next s s1 v hf he
        subst hv
        have h1 : s1.is_dev = true := by rw [hs1]
        obtain ⟨_, h2⟩ := ih1 h1
        exact ⟨d, lookup_head _ _ _, by rw [h2, hs1]⟩
      · have h1 : s1.is_dev = false := (hfr.2.2.2.1 hk).trans hf
        obtain ⟨d, hd, hdev⟩ := ih2 h1 ht
        exact ⟨d, by rw [lookup_tail _ _ _ _ hk]; exact hd, hdev⟩

/-- The map after the loop is the three integers, each in [0,2], of the first `map`
entry. -/
theorem config_loop_map (params : List (List Char × json_object)) (s s2 : init_locals)
    (h : for_each params init_entry s = .next s2) :
    (s.is_map = true → s2.is_map = true ∧ s2.data.map = s.data.map) ∧
    (s.is_map = false → s2.is_map = true →
      ∃ a b c : Int, params.lookup "map".toList = some (.array [.int a, .int b, .int c]) ∧
        (0 ≤ a ∧ a ≤ 2) ∧ (0 ≤ b ∧ b ≤ 2) ∧ (0 ≤ c ∧ c ≤ 2) ∧ s2.data.map = ⟨a, b, c⟩) := by
  induction params generalizing s with
  | nil =>
    have hs : s2 = s := (Step.next.inj h).symm
    subst hs
    exact ⟨fun hf => ⟨hf, rfl⟩, fun hf ht => by rw [hf] at ht; cases ht⟩
  | cons kv rest ih =>
    obtain ⟨k, v⟩ := kv
    obtain ⟨s1, he, hrest⟩ := for_each_cons_next _ _ _ _ _ h
    have hst := init_entry_next_state s s1 (k, v) he
    have hfld := init_entry_fields s (k, v)
    have hfr := init_entry_frame s (k, v)
    rw [hst] at hfld hfr
    obtain ⟨ih1, ih2⟩ := ih s1 hrest
    refine ⟨fun hf => ?_, fun hf ht => ?_⟩
    · obtain ⟨h1, h2⟩ := ih1 (hfld.2.2.2.2.1 hf)
      exact ⟨h1, h2.trans (hfld.2.1 (Or.inr hf))⟩
    · by_cases hk : k = "map".toList
      · subst hk
        obtain ⟨a, b, c, hv, ha, hb, hc, h1, hm⟩ := init_entry_map_next s s1 v hf he
        subst hv
        obtain ⟨_, h2⟩ := ih1 h1
        exact ⟨a, b, c, lookup_head _ _ _, ha, hb, hc, by rw [h2, hm]⟩
      · have h1 : s1.is_map = false := (hfr.2.2.2.2.1 hk).trans hf
        obtain ⟨a, b, c, hd, hr⟩ := ih2 h1 ht
        exact ⟨a, b, c, by rw [lookup_tail _ _ _ _ hk]; exact hd, hr⟩

/-- The mask after the loop is the conversion of the three elements, each a boolean
or an integer, of the first `mask` entry. -/
theorem config_loop_mask (params : List (List Char × json_object)) (s s2 : init_locals)
    (h : for_each params init_entry s = .next s2) :
    (s.is_mask = true → s2.is_mask = true ∧ s2.data.mask = s.data.mask) ∧
    (s.is_mask = false → s2.is_mask = true →
      ∃ x y z : json_object, params.lookup "mask".toList = some (.array [x, y, z]) ∧
        is_bool_or_int x = true ∧ is_bool_or_int y = true ∧ is_bool_or_int z = true ∧
        s2.data.mask =
          ⟨json_object_get_int x, json_object_get_int y, json_object_get_int z⟩) := by
  induction params generalizing s with
  | nil =>
    have hs : s2 = s := (Step.next.inj h).symm
    subst hs
    exact ⟨fun hf => ⟨hf, rfl⟩, fun hf ht => by rw [hf] at ht; cases ht⟩
  | cons kv rest ih =>
    obtain ⟨k, v⟩ := kv
    obtain ⟨s1, he, hrest⟩ := for_each_cons_next _ _ _ _ _ h
    have hst := init_entry_next_state s s1 (k, v) he
    have hfld := init_entry_fields s (k, v)
    have hfr := init_entry_frame s (k, v)
    rw [hst] at hfld hfr
    obtain ⟨ih1, ih2⟩ := ih s1 hrest
    refine ⟨fun hf => ?_, fun hf ht => ?_⟩
    · obtain ⟨h1, h2⟩ := ih1 (hfld.2.2.2.2.2 hf)
      exact ⟨h1, h2.trans (hfld.2.2.1 (Or.inr hf))⟩
    · by_cases hk : k = "mask".toList
      · subst hk
        obtain ⟨x, y, z, hv, hx, hy, hz, h1, hm⟩ := init_entry_mask_next s s1 v hf he
        subst hv
        obtain ⟨_, h2⟩ := ih1 h1
        exact ⟨x, y, z, lookup_head _ _ _, hx, hy, hz, by rw [h2, hm]⟩
      · have h1 : s1.is_mask = false := (hfr.2.2.2.2.2 hk).trans hf
        obtain ⟨x, y, z, hd, hr⟩ := ih2 h1 ht
        exact ⟨x, y, z, by rw [lookup_tail _ _ _ _ hk]; exact hd, hr⟩

/-! ## The configurations that pass the configuration phase -/

/-- When the configuration phase falls through, the device name, map and mask it
leaves are those of the first `dev`, `map` and `mask` entries, which are well-formed. -/
theorem config_values (self : aylp_device) (w : World)
    (h : (init_config self w).code = none) :
    ∃ (d : List Char) (a b c : Int) (x y z : json_object),
      self.params.lookup "dev".toList = some (.string d) ∧
      self.params.lookup "map".toList = some (.array [.int a, .int b, .int c]) ∧
      ((0 ≤ a ∧ a ≤ 2) ∧ (0 ≤ b ∧ b ≤ 2) ∧ (0 ≤ c ∧ c ≤ 2)) ∧
      self.params.lookup "mask".toList = some (.array [x, y, z]) ∧
      (is_bool_or_int x = true ∧ is_bool_or_int y = true ∧ is_bool_or_int z = true) ∧
      (init_config self w).state.dev = d ∧
      (init_config self w).state.data.map = ⟨a, b, c⟩ ∧
      (init_config self w).state.data.mask =
        ⟨json_object_get_int x, json_object_get_int y, json_object_get_int z⟩ := by
  have hn := Step.code_none _ h
  unfold init_config at hn
  obtain ⟨t, hloop, hcheck⟩ := bind_next _ _ _ hn
  have hflags : t.is_dev = true ∧ t.is_map = true ∧ t.is_mask = true ∧
      (init_config self w).state = t := by
    by_cases hc : (!t.is_dev || !t.is_map || !t.is_mask) = true
    · rw [if_pos hc] at hcheck
      cases hcheck
    · rw [if_neg hc] at hcheck
      have ht := (Step.next.inj hcheck).symm
      simp only [Bool.or_eq_true, Bool.not_eq_true', not_or, Bool.not_eq_false] at hc
      exact ⟨hc.1.1, hc.1.2, hc.2, ht⟩
  obtain ⟨hd, hm, hk, hst⟩ := hflags
  obtain ⟨d, hd1, hd2⟩ := (config_loop_dev _ _ _ hloop).2 rfl hd
  obtain ⟨a, b, c, hm1, ha, hb, hc, hm2⟩ := (config_loop_map _ _ _ hloop).2 rfl hm
  obtain ⟨x, y, z, hk1, hx, hy, hz, hk2⟩ := (config_loop_mask _ _ _ hloop).2 rfl hk
  refine ⟨d, a, b, c, x, y, z, hd1, hm1, ⟨ha, hb, hc⟩, hk1, ⟨hx, hy, hz⟩, ?_, ?_, ?_⟩
  · rw [hst]; exact hd2
  · rw [hst]; exact hm2
  · rw [hst]; exact hk2

/-- The configuration phase falls through exactly on the well-formed configurations. -/
theorem config_passes_iff (self : aylp_device) (w : World) :
    (init_config self w).code = none ↔ well_formed self.params := by
  constructor
  · intro h
    obtain ⟨d, a, b, c, x, y, z, h1, h2, h3, h4, h5, _⟩ := config_values self w h
    exact ⟨⟨d, h1⟩, ⟨a, b, c, h2, h3⟩, ⟨x, y, z, h4, h5⟩⟩
  · rintro ⟨hd, hm, hk⟩
    obtain ⟨s2, hs2, hf1, hf2, hf3⟩ := config_loop_ok self.params (init_start w)
      (Or.inr hd) (Or.inr hm) (Or.inr hk)
    unfold init_config
    rw [hs2]
    simp [Step.bind, Step.code, hf1, hf2, hf3]

/-- On a configuration that is not well-formed the configuration phase returns 1. -/
theorem config_refused (self : aylp_device) (w : World) (h : ¬ well_formed self.params) :
    (init_config self w).code = some 1 := by
  rcases init_config_code self w with hc | hc
  · exact absurd ((config_passes_iff self w).mp hc) h
  · exact hc

theorem init_fields_of_ret (self : aylp_device) (w : World) (c : Int)
    (h : (init_steps self w).code = some c) :
    (aylp_tl_piezo_init self w).self.type_in = self.type_in ∧
    (aylp_tl_piezo_init self w).self.units_in = self.units_in ∧
    (aylp_tl_piezo_init self w).self.type_out = self.type_out ∧
    (aylp_tl_piezo_init self w).self.units_out = self.units_out := by
  unfold aylp_tl_piezo_init
  rw [Step.code_some _ c h]
  exact ⟨rfl, rfl, rfl, rfl⟩

/-- What init leaves when the configuration phase returns: the code 1, the lone
`xcalloc` call, a null port and an untouched device. -/
theorem init_refused (self : aylp_device) (w : World)
    (h : (init_config self w).code = some 1) :
    (aylp_tl_piezo_init self w).ret = 1 ∧
    calls_since w (aylp_tl_piezo_init self w).w = [.xcalloc] ∧
    (aylp_tl_piezo_init self w).self.device_data.port = none ∧
    (aylp_tl_piezo_init self w).self.proc = self.proc ∧
    (aylp_tl_piezo_init self w).self.fini = self.fini ∧
    (aylp_tl_piezo_init self w).self.type_in = self.type_in ∧
    (aylp_tl_piezo_init self w).self.units_in = self.units_in ∧
    (aylp_tl_piezo_init self w).self.type_out = self.type_out ∧
    (aylp_tl_piezo_init self w).self.units_out = self.units_out := by
  have hsteps := init_steps_of_config_ret self w 1 h
  have hcode : (init_steps self w).code = some 1 := by rw [hsteps]; rfl
  obtain ⟨_, ht, hp⟩ := init_config_world self w
  have hst : (Step.ret (1 : Int) (init_config self w).state).state =
      (init_config self w).state := rfl
  refine ⟨by rw [init_ret, hcode]; rfl, ?_, ?_, (init_handlers_of_ret self w 1 hcode).1,
    (init_handlers_of_ret self w 1 hcode).2, init_fields_of_ret self w 1 hcode⟩
  · apply calls_since_append
    rw [init_world, hsteps, hst, ht]
  · rw [init_data, hsteps, hst, hp]

/-- C12: for every configuration in which the value of `dev` is not a string, or the
value of `map` is not an array of exactly 3 integers, or the value of `mask` is not an
array of exactly 3 elements each a boolean or an integer (values read at the first
entry of the key; an absent key counts as a mismatch), init returns 1 (nonzero). -/
theorem init_malformed_fails (self : aylp_device) (w : World)
    (h : (¬ ∃ d, self.params.lookup "dev".toList = some (.string d)) ∨
      (¬ ∃ a b c : Int,
        self.params.lookup "map".toList = some (.array [.int a, .int b, .int c])) ∨
      (¬ ∃ x y z : json_object, self.params.lookup "mask".toList = some (.array [x, y, z]) ∧
        is_bool_or_int x = true ∧ is_bool_or_int y = true ∧ is_bool_or_int z = true)) :
    (aylp_tl_piezo_init self w).ret = 1 ∧ (aylp_tl_piezo_init self w).ret ≠ 0 := by
  have hnw : ¬ well_formed self.params := by
    rintro ⟨hd, ⟨a, b, c, hm, _⟩, hk⟩
    rcases h with h | h | h
    · exact h hd
    · exact h ⟨a, b, c, hm⟩
    · exact h hk
  have h1 := (init_refused self w (config_refused self w hnw)).1
  exact ⟨h1, by rw [h1]; decide⟩

/-- A `dev` that is a number is refused although `map` and `mask` are well-formed and
every serial call would succeed. -/
theorem init_malformed_fails_witness :
    ((¬ ∃ d, (fresh_device number_dev_params).params.lookup "dev".toList = some (.string d)) ∨
      (¬ ∃ a b c : Int, (fresh_device number_dev_params).params.lookup "map".toList =
        some (.array [.int a, .int b, .int c])) ∨
      (¬ ∃ x y z : json_object, (fresh_device number_dev_params).params.lookup "mask".toList =
          some (.array [x, y, z]) ∧
        is_bool_or_int x = true ∧ is_bool_or_int y = true ∧ is_bool_or_int z = true)) ∧
    ((aylp_tl_piezo_init (fresh_device number_dev_params) world_ok).ret = 1 ∧
      (aylp_tl_piezo_init (fresh_device number_dev_params) world_ok).ret ≠ 0) :=
  ⟨Or.inl (by rintro ⟨d, hd⟩; cases hd),
    init_malformed_fails (fresh_device number_dev_params) world_ok
      (Or.inl (by rintro ⟨d, hd⟩; cases hd))⟩

/-- C20: for every configuration that is not well-formed (a required key missing, or
its first value malformed), init returns 1 having made no serial-port call at all
(its only library call is the `xcalloc` of the data struct), `data->port` is NULL,
and `proc`, `fini` and the four type and unit fields of the device are as they were. -/
theorem init_refused_before_serial (self : aylp_device) (w : World)
    (h : ¬ well_formed self.params) :
    (aylp_tl_piezo_init self w).ret = 1 ∧
    calls_since w (aylp_tl_piezo_init self w).w = [.xcalloc] ∧
    (aylp_tl_piezo_init self w).self.device_data.port = none ∧
    (aylp_tl_piezo_init self w).self.proc = self.proc ∧
    (aylp_tl_piezo_init self w).self.fini = self.fini ∧
    (aylp_tl_piezo_init self w).self.type_in = self.type_in ∧
    (aylp_tl_piezo_init self w).self.units_in = self.units_in ∧
    (aylp_tl_piezo_init self w).self.type_out = self.type_out ∧
    (aylp_tl_piezo_init self w).self.units_out = self.units_out :=
  init_refused self w (config_refused self w h)

/-- A configuration without `mask`, in a world where every serial call would succeed. -/
theorem init_refused_before_serial_witness :
    ¬ well_formed (fresh_device no_mask_params).params ∧
    ((aylp_tl_piezo_init (fresh_device no_mask_params) world_ok).ret = 1 ∧
      calls_since world_ok (aylp_tl_piezo_init (fresh_device no_mask_params) world_ok).w =
        [.xcalloc] ∧
      (aylp_tl_piezo_init (fresh_device no_mask_params) world_ok).self.device_data.port = none ∧
      (aylp_tl_piezo_init (fresh_device no_mask_params) world_ok).self.proc =
        (fresh_device no_mask_params).proc ∧
      (aylp_tl_piezo_init (fresh_device no_mask_params) world_ok).self.fini =
        (fresh_device no_mask_params).fini ∧
      (aylp_tl_piezo_init (fresh_device no_mask_params) world_ok).self.type_in =
        (fresh_device no_mask_params).type_in ∧
      (aylp_tl_piezo_init (fresh_device no_mask_params) world_ok).self.units_in =
        (fresh_device no_mask_params).units_in ∧
      (aylp_tl_piezo_init (fresh_device no_mask_params) world_ok).self.type_out =
        (fresh_device no_mask_params).type_out ∧
      (aylp_tl_piezo_init (fresh_device no_mask_params) world_ok).self.units_out =
        (fresh_device no_mask_params).units_out) :=
  ⟨(by rintro ⟨_, _, x, y, z, hk, _⟩; cases hk),
    init_refused_before_serial (fresh_device no_mask_params) world_ok
      (by rintro ⟨_, _, x, y, z, hk, _⟩; cases hk)⟩

/-! ## What a successful init has stored -/

theorem bind_invariant {σ : Type} (P : σ → Prop) (x : Step σ) (f : σ → Step σ)
    (hx : P x.state) (hf : ∀ s, P s → P (f s).state) : P (x.bind f).state := by
  cases x with
  | next s => exact hf s hx
  | ret code s => exact hx

theorem CHECK_SP_keeps (s : init_locals) (c : Call) (msg : List Char) :
    (CHECK_SP s c msg).state.data.map = s.data.map ∧
    (CHECK_SP s c msg).state.data.mask = s.data.mask := by
  unfold CHECK_SP
  simp only [apply_ite Step.state, Step.state]
  split_ifs <;> exact ⟨rfl, rfl⟩

theorem init_open_keeps (s : init_locals) :
    (init_open s).state.data.map = s.data.map ∧
    (init_open s).state.data.mask = s.data.mask := by
  unfold init_open
  simp only [apply_ite Step.state, Step.state]
  split_ifs <;> exact ⟨rfl, rfl⟩

/-- The serial phase changes neither `data->map` nor `data->mask`. -/
theorem serial_keeps (s : init_locals) :
    ((init_open s).bind init_settings).state.data.map = s.data.map ∧
    ((init_open s).bind init_settings).state.data.mask = s.data.mask := by
  have hstep : ∀ (c : init_locals → Call) (msg : List Char) (t : init_locals),
      (t.data.map = s.data.map ∧ t.data.mask = s.data.mask) →
      ((CHECK_SP t (c t) msg).state.data.map = s.data.map ∧
        (CHECK_SP t (c t) msg).state.data.mask = s.data.mask) := by
    intro c msg t ht
    obtain ⟨h1, h2⟩ := CHECK_SP_keeps t (c t) msg
    exact ⟨h1.trans ht.1, h2.trans ht.2⟩
  refine bind_invariant
    (fun t : init_locals => t.data.map = s.data.map ∧ t.data.mask = s.data.mask) _ _
    (init_open_keeps s) (fun t ht => ?_)
  unfold init_settings
  refine bind_invariant
    (fun t : init_locals => t.data.map = s.data.map ∧ t.data.mask = s.data.mask) _ _
    (hstep (fun t => .sp_set_baudrate t.data.port 115200) _ t ht) (fun t ht => ?_)
  refine bind_invariant
    (fun t : init_locals => t.data.map = s.data.map ∧ t.data.mask = s.data.mask) _ _
    (hstep (fun t => .sp_set_bits t.data.port 8) _ t ht) (fun t ht => ?_)
  refine bind_invariant
    (fun t : init_locals => t.data.map = s.data.map ∧ t.data.mask = s.data.mask) _ _
    (hstep (fun t => .sp_set_parity t.data.port .SP_PARITY_NONE) _ t ht) (fun t ht => ?_)
  refine bind_invariant
    (fun t : init_locals => t.data.map = s.data.map ∧ t.data.mask = s.data.mask) _ _
    (hstep (fun t => .sp_set_stopbits t.data.port 1) _ t ht) (fun t ht => ?_)
  refine bind_invariant
    (fun t : init_locals => t.data.map = s.data.map ∧ t.data.mask = s.data.mask) _ _
    (hstep (fun t => .sp_set_flowcontrol t.data.port .SP_FLOWCONTROL_NONE) _ t ht)
    (fun t ht => ?_)
  exact hstep (fun t => .sp_flush t.data.port .SP_BUF_BOTH) _ t ht

theorem config_passed_of_ret_zero (self : aylp_device) (w : World)
    (hret : (aylp_tl_piezo_init self w).ret = 0) : (init_config self w).code = none := by
  rcases init_config_code self w with hc | hc
  · exact hc
  · have h1 := (init_refused self w hc).1
    rw [h1] at hret
    cases hret

/-- After a successful init the stored map and mask are those the configuration
phase read from the first `map` and `mask` entries. -/
theorem init_stored (self : aylp_device) (w : World)
    (hret : (aylp_tl_piezo_init self w).ret = 0) :
    ∃ (a b c : Int) (x y z : json_object),
      self.params.lookup "map".toList = some (.array [.int a, .int b, .int c]) ∧
      ((0 ≤ a ∧ a ≤ 2) ∧ (0 ≤ b ∧ b ≤ 2) ∧ (0 ≤ c ∧ c ≤ 2)) ∧
      self.params.lookup "mask".toList = some (.array [x, y, z]) ∧
      (is_bool_or_int x = true ∧ is_bool_or_int y = true ∧ is_bool_or_int z = true) ∧
      (aylp_tl_piezo_init self w).self.device_data.map = ⟨a, b, c⟩ ∧
      (aylp_tl_piezo_init self w).self.device_data.mask =
        ⟨json_object_get_int x, json_object_get_int y, json_object_get_int z⟩ := by
  have hc := config_passed_of_ret_zero self w hret
  obtain ⟨d, a, b, c, x, y, z, _, hm, hr, hk, hbi, _, hmap, hmask⟩ := config_values self w hc
  have hsteps := init_steps_of_config self w hc
  obtain ⟨k1, k2⟩ := serial_keeps (init_config self w).state
  refine ⟨a, b, c, x, y, z, hm, hr, hk, hbi, ?_, ?_⟩
  · rw [init_data, hsteps, k1, hmap]
  · rw [init_data, hsteps, k2, hmask]

theorem get_int_nonzero_iff (x : json_object) (h : is_bool_or_int x = true) :
    json_object_get_int x ≠ 0 ↔ truthy x = true := by
  cases x with
  | boolean b => cases b <;> simp [json_object_get_int, truthy]
  | int n =>
    simp only [json_object_get_int, truthy, INT32_MIN, INT32_MAX, decide_eq_true_eq]
    split_ifs <;> omega
  | null => simp [is_bool_or_int] at h
  | double d => simp [is_bool_or_int] at h
  | object f => simp [is_bool_or_int] at h
  | array a => simp [is_bool_or_int] at h
  | string t => simp [is_bool_or_int] at h

/-- C15: whenever init returns 0, the configuration's `map` value is an array of three
integers and its `mask` value an array of three elements (values read at the first
entry of the key), the stored `map[i]` equals the i-th integer of the `map` array,
and the stored `mask[i]` is nonzero exactly when the i-th element of the `mask` array
is the boolean true or a nonzero integer, whatever the size of that integer. -/
theorem init_stores_config (self : aylp_device) (w : World)
    (hret : (aylp_tl_piezo_init self w).ret = 0) :
    ∃ (a b c : Int) (x y z : json_object),
      self.params.lookup "map".toList = some (.array [.int a, .int b, .int c]) ∧
      self.params.lookup "mask".toList = some (.array [x, y, z]) ∧
      (aylp_tl_piezo_init self w).self.device_data.map.get 0 = a ∧
      (aylp_tl_piezo_init self w).self.device_data.map.get 1 = b ∧
      (aylp_tl_piezo_init self w).self.device_data.map.get 2 = c ∧
      ((aylp_tl_piezo_init self w).self.device_data.mask.get 0 ≠ 0 ↔ truthy x = true) ∧
      ((aylp_tl_piezo_init self w).self.device_data.mask.get 1 ≠ 0 ↔ truthy y = true) ∧
      ((aylp_tl_piezo_init self w).self.device_data.mask.get 2 ≠ 0 ↔ truthy z = true) := by
  obtain ⟨a, b, c, x, y, z, hm, _, hk, ⟨hx, hy, hz⟩, hmap, hmask⟩ := init_stored self w hret
  refine ⟨a, b, c, x, y, z, hm, hk, ?_, ?_, ?_, ?_, ?_, ?_⟩
  · rw [hmap]; rfl
  · rw [hmap]; rfl
  · rw [hmap]; rfl
  · rw [hmask]; exact get_int_nonzero_iff x hx
  · rw [hmask]; exact get_int_nonzero_iff y hy
  · rw [hmask]; exact get_int_nonzero_iff z hz

/-- A `mask` of `[2^32, 0, true]` with `map` `[2, 0, 1]`: the stored map is `[2, 0, 1]`
and the stored mask is nonzero, zero, nonzero; the integer `2^32` is stored as
`INT32_MAX`, not as its low 32 bits. -/
theorem init_stores_config_witness :
    (aylp_tl_piezo_init (fresh_device int_mask_params) world_ok).ret = 0 ∧
    (∃ (a b c : Int) (x y z : json_object),
      (fresh_device int_mask_params).params.lookup "map".toList =
        some (.array [.int a, .int b, .int c]) ∧
      (fresh_device int_mask_params).params.lookup "mask".toList = some (.array [x, y, z]) ∧
      (aylp_tl_piezo_init (fresh_device int_mask_params) world_ok).self.device_data.map.get 0
        = a ∧
      (aylp_tl_piezo_init (fresh_device int_mask_params) world_ok).self.device_data.map.get 1
        = b ∧
      (aylp_tl_piezo_init (fresh_device int_mask_params) world_ok).self.device_data.map.get 2
        = c ∧
      ((aylp_tl_piezo_init (fresh_device int_mask_params) world_ok).self.device_data.mask.get 0
        ≠ 0 ↔ truthy x = true) ∧
      ((aylp_tl_piezo_init (fresh_device int_mask_params) world_ok).self.device_data.mask.get 1
        ≠ 0 ↔ truthy y = true) ∧
      ((aylp_tl_piezo_init (fresh_device int_mask_params) world_ok).self.device_data.mask.get 2
        ≠ 0 ↔ truthy z = true)) ∧
    (aylp_tl_piezo_init (fresh_device int_mask_params) world_ok).self.device_data =
      ⟨some ⟨"/dev/ttyACM0".toList⟩, ⟨2147483647, 0, 1⟩, ⟨2, 0, 1⟩⟩ :=
  ⟨by decide, init_stores_config (fresh_device int_mask_params) world_ok (by decide),
    by decide⟩

/-! ## The defensive branch after a successful init -/

theorem axis_log_no_invalid_axis (data : aylp_tl_piezo_data) (state : aylp_state) (A : Nat)
    (r : Int) (hA : A < AXIS_COUNT) (hmap : 0 ≤ data.map.get A ∧ data.map.get A ≤ 2) :
    ∀ e ∈ axis_log data state A r,
      starts_with "An invalid axis index was given: ".toList e.2 = false := by
  intro e he
  unfold axis_log at he
  rw [if_pos hmap] at he
  unfold AXIS_COUNT at hA
  interval_cases A <;>
    (split_ifs at he <;>
      simp only [List.append_nil, List.nil_append, List.mem_append, List.mem_singleton,
        List.not_mem_nil, or_false, false_or] at he <;>
      (rw [he]; decide))

theorem tail_log_no_invalid_axis (rd rf : Int) :
    ∀ e ∈ tail_log rd rf,
      starts_with "An invalid axis index was given: ".toList e.2 = false := by
  intro e he
  unfold tail_log at he
  split_ifs at he <;>
    simp only [List.append_nil, List.nil_append, List.mem_append, List.mem_singleton,
      List.not_mem_nil, or_false, false_or] at he <;>
    first
    | (rw [he]; decide)
    | (rcases he with h | h <;> rw [h] <;> decide)

theorem log_line_no_invalid_axis (v_x v_y v_z : F64) :
    starts_with "An invalid axis index was given: ".toList
      (snprintf LEN_CMD_BUF (log_line v_x v_y v_z)) = false := by
  simp [starts_with, snprintf, log_line, LEN_CMD_BUF]

/-- With the three map entries in [0,2], no log call of a tick reports an invalid axis
index: the default branch of the switch is not taken. -/
theorem process_no_invalid_axis_log (data : aylp_tl_piezo_data) (state : aylp_state)
    (w : World) (hmap : ∀ A, A < AXIS_COUNT → 0 ≤ data.map.get A ∧ data.map.get A ≤ 2) :
    ∀ e ∈ log_since w (aylp_tl_piezo_process data state w).2,
      starts_with "An invalid axis index was given: ".toList e.2 = false := by
  obtain ⟨r1, r2, r3, rd, rf, hlog⟩ := process_log data state w
  intro e he
  rw [hlog] at he
  simp only [List.mem_append, List.mem_cons] at he
  rcases he with ((he | he) | he) | he | he
  · exact axis_log_no_invalid_axis data state AXIS_X r1 (by decide) (hmap _ (by decide)) e he
  · exact axis_log_no_invalid_axis data state AXIS_Y r2 (by decide) (hmap _ (by decide)) e he
  · exact axis_log_no_invalid_axis data state AXIS_Z r3 (by decide) (hmap _ (by decide)) e he
  · rw [he]
    exact log_line_no_invalid_axis _ _ _
  · exact tail_log_no_invalid_axis rd rf e he

/-- C14: whenever init returns 0, every entry of the stored map (an `int[3]`, as the
stored mask) is a valid axis index in [0,2]; consequently, in every call of process on
the data init left, for every input vector and outcome of the serial calls, no log
call reports an invalid axis index: the default branch is taken for no axis. -/
theorem init_map_valid (self : aylp_device) (w : World)
    (hret : (aylp_tl_piezo_init self w).ret = 0) :
    (∀ A, A < AXIS_COUNT → 0 ≤ (aylp_tl_piezo_init self w).self.device_data.map.get A ∧
      (aylp_tl_piezo_init self w).self.device_data.map.get A ≤ 2) ∧
    ∀ (state : aylp_state) (w2 : World),
      ∀ e ∈ log_since w2
          (aylp_tl_piezo_process (aylp_tl_piezo_init self w).self.device_data state w2).2,
        starts_with "An invalid axis index was given: ".toList e.2 = false := by
  obtain ⟨a, b, c, x, y, z, _, ⟨ha, hb, hc⟩, _, _, hmap, _⟩ := init_stored self w hret
  have hvalid : ∀ A, A < AXIS_COUNT →
      0 ≤ (aylp_tl_piezo_init self w).self.device_data.map.get A ∧
      (aylp_tl_piezo_init self w).self.device_data.map.get A ≤ 2 := by
    intro A hA
    rw [hmap]
    unfold AXIS_COUNT at hA
    interval_cases A
    · exact ha
    · exact hb
    · exact hc
  exact ⟨hvalid, fun state w2 => process_no_invalid_axis_log _ state w2 hvalid⟩

/-- The first scenario: init returns 0, the stored map is `[0, 1, 2]`, and a tick on
the out-of-range input logs two invalid-voltage errors but no invalid axis index. -/
theorem init_map_valid_witness :
    (aylp_tl_piezo_init (fresh_device scenario1_params) world_ok).ret = 0 ∧
    ((∀ A, A < AXIS_COUNT →
        0 ≤ (aylp_tl_piezo_init (fresh_device scenario1_params) world_ok).self.device_data.map.get A ∧
        (aylp_tl_piezo_init (fresh_device scenario1_params) world_ok).self.device_data.map.get A
          ≤ 2) ∧
      ∀ (state : aylp_state) (w2 : World),
        ∀ e ∈ log_since w2 (aylp_tl_piezo_process
            (aylp_tl_piezo_init (fresh_device scenario1_params) world_ok).self.device_data
            state w2).2,
          starts_with "An invalid axis index was given: ".toList e.2 = false) ∧
    (aylp_tl_piezo_init (fresh_device scenario1_params) world_ok).self.device_data.map =
      ⟨0, 1, 2⟩ ∧
    (log_since world_ok (aylp_tl_piezo_process
        (aylp_tl_piezo_init (fresh_device scenario1_params) world_ok).self.device_data
        out_of_range_state world_ok).2).map (fun e => e.1) = [.error, .error, .info] ∧
    (log_since world_ok
        (aylp_tl_piezo_process bad_map_data scenario2_state world_ok).2).map
      (fun e => starts_with "An invalid axis index was given: ".toList e.2) = [true, false] :=
  ⟨by decide, init_map_valid (fresh_device scenario1_params) world_ok (by decide), by decide,
    by decide, by decide⟩

/-! ## The log does not steer init -/

theorem unlog_logf (s : init_locals) (lvl : LogLevel) (msg : List Char) :
    unlog (s.logf lvl msg) = unlog s := rfl

theorem unlog_unlog (s : init_locals) : unlog (unlog s) = unlog s := rfl

theorem log_blind_congr (F : init_locals → Step init_locals) (hF : log_blind F)
    (s t : init_locals) (h : unlog s = unlog t) : (F s).map unlog = (F t).map unlog := by
  rw [hF s, hF t, h]

theorem map_unlog_next (x y : Step init_locals) (t : init_locals)
    (h : x.map unlog = y.map unlog) (hx : x = .next t) :
    ∃ u, y = .next u ∧ unlog t = unlog u := by
  subst hx
  cases y with
  | next u => exact ⟨u, rfl, Step.next.inj h⟩
  | ret code u => cases h

theorem map_unlog_ret (x y : Step init_locals) (c : Int) (t : init_locals)
    (h : x.map unlog = y.map unlog) (hx : x = .ret c t) :
    ∃ u, y = .ret c u ∧ unlog t = unlog u := by
  subst hx
  cases y with
  | next u => cases h
  | ret code u =>
    simp only [Step.map, Step.ret.injEq] at h
    obtain ⟨h1, h2⟩ := h
    subst h1
    exact ⟨u, rfl, h2⟩

/-- Two outcomes equal up to the log stay so through a log-blind continuation. -/
theorem bind_map_congr (G : init_locals → Step init_locals) (hG : log_blind G)
    (x y : Step init_locals) (h : x.map unlog = y.map unlog) :
    (x.bind G).map unlog = (y.bind G).map unlog := by
  cases hx : x with
  | next t =>
    obtain ⟨u, hy, htu⟩ := map_unlog_next x y t h hx
    rw [hy]
    exact log_blind_congr G hG t u htu
  | ret c t =>
    obtain ⟨u, hy, htu⟩ := map_unlog_ret x y c t h hx
    rw [hy]
    simp only [Step.bind, Step.map, htu]

theorem log_blind_bind (F G : init_locals → Step init_locals) (hF : log_blind F)
    (hG : log_blind G) : log_blind (fun s => (F s).bind G) := by
  intro s
  exact bind_map_congr G hG _ _ (hF s)

theorem for_each_cons_bind {α σ : Type} (body : σ → α → Step σ) (x : α) (xs : List α)
    (s : σ) : for_each (x :: xs) body s = (body s x).bind (for_each xs body) := by
  unfold for_each Step.bind
  cases body s x <;> rfl

theorem for_each_append {α σ : Type} (body : σ → α → Step σ) (xs ys : List α) (s : σ) :
    for_each (xs ++ ys) body s = (for_each xs body s).bind (for_each ys body) := by
  induction xs generalizing s with
  | nil => rfl
  | cons x rest ih =>
    rw [List.cons_append, for_each_cons_bind, for_each_cons_bind]
    cases body s x with
    | next t => exact ih t
    | ret c t => rfl

theorem log_blind_for_each {α : Type} (body : init_locals → α → Step init_locals)
    (hb : ∀ x, log_blind (fun s => body s x)) (xs : List α) :
    log_blind (for_each xs body) := by
  induction xs with
  | nil => intro s; rfl
  | cons x rest ih =>
    intro s
    rw [for_each_cons_bind, for_each_cons_bind]
    exact log_blind_bind (fun s => body s x) (for_each rest body) (hb x) ih s

theorem log_blind_next_logf (lvl : LogLevel) (f : init_locals → List Char) :
    log_blind (fun s => .next (s.logf lvl (f s))) := by
  intro s
  rfl

theorem log_blind_map_body (v : json_object) (i : Nat) :
    log_blind (fun s => map_body v s i) := by
  intro s
  simp only [map_body]
  split
  · rfl
  · simp only [unlog]
    split_ifs <;> rfl

theorem log_blind_mask_body (v : json_object) (i : Nat) :
    log_blind (fun s => mask_body v s i) := by
  intro s
  simp only [mask_body]
  split
  · rfl
  · simp only [unlog]
    split_ifs <;> rfl

theorem log_blind_init_entry (kv : List Char × json_object) :
    log_blind (fun s => init_entry s kv) := by
  have hmap : ∀ t : init_locals, log_blind (fun s =>
      (for_each (List.range AXIS_COUNT) (map_body kv.2) s).bind fun s =>
        .next (s.logf .trace ("map = [".toList ++ fmt_d (s.data.map.get 0) ++ ", ".toList ++
          fmt_d (s.data.map.get 1) ++ ", ".toList ++ fmt_d (s.data.map.get 2) ++ "]".toList))) :=
    fun _ => log_blind_bind _ _ (log_blind_for_each _ (log_blind_map_body kv.2) _)
      (log_blind_next_logf _ _)
  have hmask : ∀ t : init_locals, log_blind (fun s =>
      (for_each (List.range AXIS_COUNT) (mask_body kv.2) s).bind fun s =>
        .next (s.logf .trace ("mask = [".toList ++ fmt_d (s.data.mask.get 0) ++ ", ".toList ++
          fmt_d (s.data.mask.get 1) ++ ", ".toList ++ fmt_d (s.data.mask.get 2) ++ "]".toList))) :=
    fun _ => log_blind_bind _ _ (log_blind_for_each _ (log_blind_mask_body kv.2) _)
      (log_blind_next_logf _ _)
  intro s
  simp only [init_entry, unlog]
  split_ifs <;> first
    | rfl
    | exact hmap s { s with is_map := true }
    | exact hmask s { s with is_mask := true }

theorem log_blind_init_required : log_blind init_required := by
  intro s
  simp only [init_required, unlog]
  split_ifs <;> rfl

theorem log_blind_init_open : log_blind init_open := by
  intro s
  simp only [init_open, unlog, World.call, World.callVoid, World.logf, init_locals.logf]
  split_ifs <;> rfl

theorem log_blind_CHECK_SP (c : Option sp_port → Call) (msg : List Char) :
    log_blind (fun s => CHECK_SP s (c s.data.port) msg) := by
  intro s
  simp only [CHECK_SP, unlog, World.call, World.callVoid, World.logf]
  split_ifs <;> rfl

theorem log_blind_init_settings : log_blind init_settings := by
  unfold init_settings
  refine log_blind_bind _ _ (log_blind_CHECK_SP (fun p => .sp_set_baudrate p 115200) _) ?_
  refine log_blind_bind _ _ (log_blind_CHECK_SP (fun p => .sp_set_bits p 8) _) ?_
  refine log_blind_bind _ _
    (log_blind_CHECK_SP (fun p => .sp_set_parity p .SP_PARITY_NONE) _) ?_
  refine log_blind_bind _ _ (log_blind_CHECK_SP (fun p => .sp_set_stopbits p 1) _) ?_
  refine log_blind_bind _ _
    (log_blind_CHECK_SP (fun p => .sp_set_flowcontrol p .SP_FLOWCONTROL_NONE) _) ?_
  exact log_blind_CHECK_SP (fun p => .sp_flush p .SP_BUF_BOTH) _

theorem log_blind_init_after_loop : log_blind init_after_loop :=
  log_blind_bind _ _ (log_blind_bind _ _ log_blind_init_required log_blind_init_open)
    log_blind_init_settings

/-- init is the configuration loop followed by everything else. -/
theorem init_steps_eq (self : aylp_device) (w : World) :
    init_steps self w =
      (for_each self.params init_entry (init_start w)).bind init_after_loop := by
  unfold init_steps init_config init_after_loop
  cases for_each self.params init_entry (init_start w) <;> rfl

/-! ## Entries that change nothing -/

/-- An entry that, wherever the loop reaches it, falls through and changes the log at
most, can be inserted without changing the outcome of the loop, the log apart. -/
theorem insert_entry_loop (pre post : List (List Char × json_object))
    (kv : List Char × json_object) (s0 : init_locals)
    (hskip : ∀ s1, for_each pre init_entry s0 = .next s1 →
      ∃ s2, init_entry s1 kv = .next s2 ∧ unlog s2 = unlog s1) :
    (for_each (pre ++ kv :: post) init_entry s0).map unlog =
      (for_each (pre ++ post) init_entry s0).map unlog := by
  rw [for_each_append, for_each_append]
  cases hpre : for_each pre init_entry s0 with
  | ret c t => rfl
  | next s1 =>
    obtain ⟨s2, he, hu⟩ := hskip s1 hpre
    simp only [Step.bind]
    rw [for_each_cons_bind, he]
    exact log_blind_congr _ (log_blind_for_each _ log_blind_init_entry post) s2 s1 hu

/-- What init returns and leaves is read off its steps up to the log. -/
theorem init_congr (self self2 : aylp_device) (w : World)
    (hproc : self2.proc = self.proc) (hfini : self2.fini = self.fini)
    (h : (init_steps self2 w).map unlog = (init_steps self w).map unlog) :
    (aylp_tl_piezo_init self2 w).ret = (aylp_tl_piezo_init self w).ret ∧
    (aylp_tl_piezo_init self2 w).self.device_data =
      (aylp_tl_piezo_init self w).self.device_data ∧
    (aylp_tl_piezo_init self2 w).self.proc = (aylp_tl_piezo_init self w).self.proc ∧
    (aylp_tl_piezo_init self2 w).self.fini = (aylp_tl_piezo_init self w).self.fini ∧
    (aylp_tl_piezo_init self2 w).w.trace = (aylp_tl_piezo_init self w).w.trace := by
  unfold aylp_tl_piezo_init
  cases h2 : init_steps self2 w with
  | next t =>
    obtain ⟨u, hu, htu⟩ := map_unlog_next _ _ t h h2
    rw [hu]
    have hd : (unlog t).data = (unlog u).data := by rw [htu]
    have hw : (unlog t).w.trace = (unlog u).w.trace := by rw [htu]
    exact ⟨rfl, hd, rfl, rfl, hw⟩
  | ret c t =>
    obtain ⟨u, hu, htu⟩ := map_unlog_ret _ _ c t h h2
    rw [hu]
    have hd : (unlog t).data = (unlog u).data := by rw [htu]
    have hw : (unlog t).w.trace = (unlog u).w.trace := by rw [htu]
    exact ⟨rfl, hd, hproc, hfini, hw⟩

/-- Inserting such an entry changes neither the return value of init nor the data,
handlers and library calls it leaves. -/
theorem insert_entry_init (self : aylp_device) (w : World)
    (pre post : List (List Char × json_object)) (kv : List Char × json_object)
    (hskip : ∀ s1, for_each pre init_entry (init_start w) = .next s1 →
      ∃ s2, init_entry s1 kv = .next s2 ∧ unlog s2 = unlog s1) :
    (aylp_tl_piezo_init { self with params := pre ++ kv :: post } w).ret =
      (aylp_tl_piezo_init { self with params := pre ++ post } w).ret ∧
    (aylp_tl_piezo_init { self with params := pre ++ kv :: post } w).self.device_data =
      (aylp_tl_piezo_init { self with params := pre ++ post } w).self.device_data ∧
    (aylp_tl_piezo_init { self with params := pre ++ kv :: post } w).self.proc =
      (aylp_tl_piezo_init { self with params := pre ++ post } w).self.proc ∧
    (aylp_tl_piezo_init { self with params := pre ++ kv :: post } w).self.fini =
      (aylp_tl_piezo_init { self with params := pre ++ post } w).self.fini ∧
    (aylp_tl_piezo_init { self with params := pre ++ kv :: post } w).w.trace =
      (aylp_tl_piezo_init { self with params := pre ++ post } w).w.trace := by
  refine init_congr { self with params := pre ++ post }
    { self with params := pre ++ kv :: post } w rfl rfl ?_
  rw [init_steps_eq, init_steps_eq]
  exact bind_map_congr _ log_blind_init_after_loop _ _
    (insert_entry_loop pre post kv (init_start w) hskip)

/-- An entry that falls through leaves the flag of its key set. -/
theorem init_entry_sets_flag (s s1 : init_locals) (k : List Char) (v : json_object)
    (h : init_entry s (k, v) = .next s1) :
    (k = "dev".toList → s1.is_dev = true) ∧ (k = "map".toList → s1.is_map = true) ∧
    (k = "mask".toList → s1.is_mask = true) := by
  have hfld := init_entry_fields s (k, v)
  rw [init_entry_next_state s s1 (k, v) h] at hfld
  refine ⟨fun hk => ?_, fun hk => ?_, fun hk => ?_⟩
  · subst hk
    cases hf : s.is_dev
    · obtain ⟨d, _, hs1⟩ := init_entry_dev_next s s1 v hf h
      rw [hs1]
    · exact hfld.2.2.2.1 hf
  · subst hk
    cases hf : s.is_map
    · obtain ⟨a, b, c, _, _, _, _, h1, _⟩ := init_entry_map_next s s1 v hf h
      exact h1
    · exact hfld.2.2.2.2.1 hf
  · subst hk
    cases hf : s.is_mask
    · obtain ⟨x, y, z, _, _, _, _, h1, _⟩ := init_entry_mask_next s s1 v hf h
      exact h1
    · exact hfld.2.2.2.2.2 hf

/-- Once the loop has passed an entry of a key, the flag of that key is set. -/
theorem flag_after (pre : List (List Char × json_object)) (s s1 : init_locals)
    (h : for_each pre init_entry s = .next s1) :
    ((s.is_dev = true ∨ ∃ kv ∈ pre, kv.1 = "dev".toList) → s1.is_dev = true) ∧
    ((s.is_map = true ∨ ∃ kv ∈ pre, kv.1 = "map".toList) → s1.is_map = true) ∧
    ((s.is_mask = true ∨ ∃ kv ∈ pre, kv.1 = "mask".toList) → s1.is_mask = true) := by
  induction pre generalizing s with
  | nil =>
    have hs : s1 = s := (Step.next.inj h).symm
    subst hs
    refine ⟨fun hf => ?_, fun hf => ?_, fun hf => ?_⟩ <;>
      · rcases hf with hf | ⟨kv, hkv, _⟩
        · exact hf
        · simp at hkv
  | cons kv rest ih =>
    obtain ⟨k, v⟩ := kv
    obtain ⟨t, he, hrest⟩ := for_each_cons_next _ _ _ _ _ h
    have hset := init_entry_sets_flag s t k v he
    have hfld := init_entry_fields s (k, v)
    rw [init_entry_next_state s t (k, v) he] at hfld
    obtain ⟨i1, i2, i3⟩ := ih t hrest
    refine ⟨fun hf => i1 ?_, fun hf => i2 ?_, fun hf => i3 ?_⟩
    · rcases hf with hf | ⟨kv, hkv, hk⟩
      · exact Or.inl (hfld.2.2.2.1 hf)
      · rcases List.mem_cons.mp hkv with hh | hh
        · subst hh
          exact Or.inl (hset.1 hk)
        · exact Or.inr ⟨kv, hh, hk⟩
    · rcases hf with hf | ⟨kv, hkv, hk⟩
      · exact Or.inl (hfld.2.2.2.2.1 hf)
      · rcases List.mem_cons.mp hkv with hh | hh
        · subst hh
          exact Or.inl (hset.2.1 hk)
        · exact Or.inr ⟨kv, hh, hk⟩
    · rcases hf with hf | ⟨kv, hkv, hk⟩
      · exact Or.inl (hfld.2.2.2.2.2 hf)
      · rcases List.mem_cons.mp hkv with hh | hh
        · subst hh
          exact Or.inl (hset.2.2 hk)
        · exact Or.inr ⟨kv, hh, hk⟩

/-- C13: for every configuration `pre ++ post` in which the key k, one of `dev`, `map`,
`mask`, occurs in `pre`, inserting a further entry with key k and any value v, also a
malformed one, after `pre` changes neither the return value of init nor the data it
stores (port with the device path, map, mask), the handlers, or its library calls,
for every outcome of the serial calls. -/
theorem init_duplicate_discarded (self : aylp_device) (w : World)
    (pre post : List (List Char × json_object)) (k : List Char) (v : json_object)
    (hk : k = "dev".toList ∨ k = "map".toList ∨ k = "mask".toList)
    (hocc : ∃ kv ∈ pre, kv.1 = k) :
    (aylp_tl_piezo_init { self with params := pre ++ (k, v) :: post } w).ret =
      (aylp_tl_piezo_init { self with params := pre ++ post } w).ret ∧
    (aylp_tl_piezo_init { self with params := pre ++ (k, v) :: post } w).self.device_data =
      (aylp_tl_piezo_init { self with params := pre ++ post } w).self.device_data ∧
    (aylp_tl_piezo_init { self with params := pre ++ (k, v) :: post } w).self.proc =
      (aylp_tl_piezo_init { self with params := pre ++ post } w).self.proc ∧
    (aylp_tl_piezo_init { self with params := pre ++ (k, v) :: post } w).self.fini =
      (aylp_tl_piezo_init { self with params := pre ++ post } w).self.fini ∧
    (aylp_tl_piezo_init { self with params := pre ++ (k, v) :: post } w).w.trace =
      (aylp_tl_piezo_init { self with params := pre ++ post } w).w.trace := by
  apply insert_entry_init
  intro s1 hs1
  obtain ⟨f1, f2, f3⟩ := flag_after pre (init_start w) s1 hs1
  rcases hk with hk | hk | hk
  · subst hk
    exact ⟨_, init_entry_dev_dup s1 v (f1 (Or.inr hocc)), rfl⟩
  · subst hk
    exact ⟨_, init_entry_map_dup s1 v (f2 (Or.inr hocc)), rfl⟩
  · subst hk
    exact ⟨_, init_entry_mask_dup s1 v (f3 (Or.inr hocc)), rfl⟩

/-- C17: for every configuration `pre ++ post`, inserting between `pre` and `post` an
entry whose key begins with an underscore, or whose key is none of `dev`, `map`,
`mask`, with any value, changes neither the return value of init nor the data it
stores (port with the device path, map, mask), the handlers, or its library calls,
for every outcome of the serial calls. -/
theorem init_ignores_other_keys (self : aylp_device) (w : World)
    (pre post : List (List Char × json_object)) (k : List Char) (v : json_object)
    (hk : k.head? = some '_' ∨
      (k ≠ "dev".toList ∧ k ≠ "map".toList ∧ k ≠ "mask".toList)) :
    (aylp_tl_piezo_init { self with params := pre ++ (k, v) :: post } w).ret =
      (aylp_tl_piezo_init { self with params := pre ++ post } w).ret ∧
    (aylp_tl_piezo_init { self with params := pre ++ (k, v) :: post } w).self.device_data =
      (aylp_tl_piezo_init { self with params := pre ++ post } w).self.device_data ∧
    (aylp_tl_piezo_init { self with params := pre ++ (k, v) :: post } w).self.proc =
      (aylp_tl_piezo_init { self with params := pre ++ post } w).self.proc ∧
    (aylp_tl_piezo_init { self with params := pre ++ (k, v) :: post } w).self.fini =
      (aylp_tl_piezo_init { self with params := pre ++ post } w).self.fini ∧
    (aylp_tl_piezo_init { self with params := pre ++ (k, v) :: post } w).w.trace =
      (aylp_tl_piezo_init { self with params := pre ++ post } w).w.trace := by
  apply insert_entry_init
  intro s1 _
  by_cases h0 : k.head? = some '_'
  · exact ⟨s1, by simp [init_entry, h0], rfl⟩
  · rcases hk with hk | ⟨h1, h2, h3⟩
    · exact absurd hk h0
    · exact ⟨_, init_entry_unknown s1 k v h0 h1 h2 h3, rfl⟩

/-- The first scenario with a string under a second `map` key between `map` and
`mask`: init still returns 0 and stores the map `[0, 1, 2]` of the first entry. -/
theorem init_duplicate_discarded_witness :
    (("map".toList = "dev".toList ∨ "map".toList = "map".toList ∨
        "map".toList = "mask".toList) ∧
      (∃ kv ∈ scenario1_params.take 2, kv.1 = "map".toList)) ∧
    ((aylp_tl_piezo_init (fresh_device (scenario1_params.take 2 ++
          ("map".toList, .string "swap".toList) :: scenario1_params.drop 2)) world_ok).ret =
        (aylp_tl_piezo_init (fresh_device (scenario1_params.take 2 ++
          scenario1_params.drop 2)) world_ok).ret ∧
      (aylp_tl_piezo_init (fresh_device (scenario1_params.take 2 ++
          ("map".toList, .string "swap".toList) :: scenario1_params.drop 2))
          world_ok).self.device_data =
        (aylp_tl_piezo_init (fresh_device (scenario1_params.take 2 ++
          scenario1_params.drop 2)) world_ok).self.device_data ∧
      (aylp_tl_piezo_init (fresh_device (scenario1_params.take 2 ++
          ("map".toList, .string "swap".toList) :: scenario1_params.drop 2)) world_ok).self.proc =
        (aylp_tl_piezo_init (fresh_device (scenario1_params.take 2 ++
          scenario1_params.drop 2)) world_ok).self.proc ∧
      (aylp_tl_piezo_init (fresh_device (scenario1_params.take 2 ++
          ("map".toList, .string "swap".toList) :: scenario1_params.drop 2)) world_ok).self.fini =
        (aylp_tl_piezo_init (fresh_device (scenario1_params.take 2 ++
          scenario1_params.drop 2)) world_ok).self.fini ∧
      (aylp_tl_piezo_init (fresh_device (scenario1_params.take 2 ++
          ("map".toList, .string "swap".toList) :: scenario1_params.drop 2)) world_ok).w.trace =
        (aylp_tl_piezo_init (fresh_device (scenario1_params.take 2 ++
          scenario1_params.drop 2)) world_ok).w.trace) ∧
    (aylp_tl_piezo_init (fresh_device (scenario1_params.take 2 ++
        ("map".toList, .string "swap".toList) :: scenario1_params.drop 2)) world_ok).ret = 0 ∧
    (aylp_tl_piezo_init (fresh_device (scenario1_params.take 2 ++
        ("map".toList, .string "swap".toList) :: scenario1_params.drop 2))
        world_ok).self.device_data =
      ⟨some ⟨"/dev/ttyACM0".toList⟩, ⟨1, 1, 0⟩, ⟨0, 1, 2⟩⟩ :=
  ⟨⟨by decide, ⟨("map".toList, .array [.int 0, .int 1, .int 2]), by simp [scenario1_params], rfl⟩⟩,
    init_duplicate_discarded (fresh_device []) world_ok (scenario1_params.take 2)
      (scenario1_params.drop 2) "map".toList (.string "swap".toList) (by decide)
      ⟨("map".toList, .array [.int 0, .int 1, .int 2]), by simp [scenario1_params], rfl⟩,
    by decide, by decide⟩

/-- The first scenario with a comment `_map` holding a bad array inserted after `dev`:
init still returns 0 and stores the map `[0, 1, 2]`. -/
theorem init_ignores_other_keys_witness :
    ("_map".toList.head? = some '_' ∨ ("_map".toList ≠ "dev".toList ∧
      "_map".toList ≠ "map".toList ∧ "_map".toList ≠ "mask".toList)) ∧
    ((aylp_tl_piezo_init (fresh_device (scenario1_params.take 1 ++
          ("_map".toList, .array [.int 7]) :: scenario1_params.drop 1)) world_ok).ret =
        (aylp_tl_piezo_init (fresh_device (scenario1_params.take 1 ++
          scenario1_params.drop 1)) world_ok).ret ∧
      (aylp_tl_piezo_init (fresh_device (scenario1_params.take 1 ++
          ("_map".toList, .array [.int 7]) :: scenario1_params.drop 1))
          world_ok).self.device_data =
        (aylp_tl_piezo_init (fresh_device (scenario1_params.take 1 ++
          scenario1_params.drop 1)) world_ok).self.device_data ∧
      (aylp_tl_piezo_init (fresh_device (scenario1_params.take 1 ++
          ("_map".toList, .array [.int 7]) :: scenario1_params.drop 1)) world_ok).self.proc =
        (aylp_tl_piezo_init (fresh_device (scenario1_params.take 1 ++
          scenario1_params.drop 1)) world_ok).self.proc ∧
      (aylp_tl_piezo_init (fresh_device (scenario1_params.take 1 ++
          ("_map".toList, .array [.int 7]) :: scenario1_params.drop 1)) world_ok).self.fini =
        (aylp_tl_piezo_init (fresh_device (scenario1_params.take 1 ++
          scenario1_params.drop 1)) world_ok).self.fini ∧
      (aylp_tl_piezo_init (fresh_device (scenario1_params.take 1 ++
          ("_map".toList, .array [.int 7]) :: scenario1_params.drop 1)) world_ok).w.trace =
        (aylp_tl_piezo_init (fresh_device (scenario1_params.take 1 ++
          scenario1_params.drop 1)) world_ok).w.trace) ∧
    (aylp_tl_piezo_init (fresh_device (scenario1_params.take 1 ++
        ("_map".toList, .array [.int 7]) :: scenario1_params.drop 1)) world_ok).ret = 0 ∧
    (aylp_tl_piezo_init (fresh_device (scenario1_params.take 1 ++
        ("_map".toList, .array [.int 7]) :: scenario1_params.drop 1))
        world_ok).self.device_data =
      ⟨some ⟨"/dev/ttyACM0".toList⟩, ⟨1, 1, 0⟩, ⟨0, 1, 2⟩⟩ :=
  ⟨by decide,
    init_ignores_other_keys (fresh_device []) world_ok (scenario1_params.take 1)
      (scenario1_params.drop 1) "_map".toList (.array [.int 7]) (by decide),
    by decide, by decide⟩

end AylpTlPiezo
